import Mathlib

/-!
# Land registry chaincode (`lib/LandContract.js`)

A shallow embedding of the `LandContract` chaincode and of the part of the JavaScript
runtime it relies on (values, property access, `Number`, `JSON.parse`, `JSON.stringify`),
followed by theorems about the operations
`CreateLand`, `ReadLand`, `InitiateTransfer` and `ApproveTransfer`.

Conventions of the embedding:

* a JavaScript object is an insertion-ordered list of properties; reading a missing
  property yields `undefined`;
* a JSON text is identified with the value it denotes, keeping the order of keys
  (`Text.json`); any other byte content is `Text.raw`;
* a number is an IEEE 754 double (`JSNumber`), kept exactly as a fraction with a power of
  two as denominator; `Number` rounds the decimal it reads to the nearest double;
* the world state of the ledger is a function from keys to stored buffers, and every
  operation returns its result together with the new world state and the list of stub
  calls it made.
-/

namespace LandRegistry

/-! ## JavaScript values -/

/-- A JavaScript number, that is an IEEE 754 double: `NaN`, an infinity, or the finite
double `± mant * 2 ^ exp`. A finite double is written in one way only: an integer has
`exp = 0`, any other double has an odd `mant` and a negative `exp`, and zero is
`fin false 0 0`. The two zeros are not told apart: the contract only serializes the numbers
it computes, and `JSON.stringify` writes both zeros as `0`. -/
inductive JSNumber where
  | nan
  | inf (neg : Bool)
  | fin (neg : Bool) (mant : Nat) (exp : Int)
deriving DecidableEq, Repr

/-- A JavaScript value as the contract manipulates it. Objects are insertion-ordered
property lists (the special place JavaScript gives to integer-like keys is not part of the
embedding; the contract reads and assigns no such key). -/
inductive JSValue where
  | undefined
  | null
  | bool (b : Bool)
  | num (n : JSNumber)
  | str (s : String)
  | arr (xs : List JSValue)
  | obj (props : List (String × JSValue))

/-- The errors the contract can raise: `new Error(message)` thrown by the contract
itself, and the runtime's `TypeError` and `SyntaxError`. -/
inductive JSError where
  | error (message : String)
  | typeError
  | syntaxError
deriving DecidableEq, Repr

/-- The characters of a string or the bytes of a buffer. A JSON text is identified with
the value it denotes (`json`); `raw s` is any other content, in particular `raw ""` is the
empty string or the empty buffer. -/
inductive Text where
  | raw (s : String)
  | json (v : JSValue)

/-- A Node.js `Buffer`, identified with the text it holds. -/
abbrev Buffer := Text

/-- The test `data.length === 0`. A JSON text is never empty. -/
def Text.isEmpty : Text → Bool
  | .raw s => decide (s = "")
  | .json _ => false

/-- The method `buffer.toString()`. -/
def Buffer.toString (b : Buffer) : Text := b

/-! ## `Number(string)` -/

/-- Code points of `StrWhiteSpaceChar` (white space and line terminators). -/
def isStrWhiteSpaceChar (c : Char) : Bool :=
  let n := c.toNat
  n = 0x09 || n = 0x0A || n = 0x0B || n = 0x0C || n = 0x0D || n = 0x20 || n = 0xA0 ||
  n = 0x1680 || (0x2000 ≤ n && n ≤ 0x200A) || n = 0x2028 || n = 0x2029 || n = 0x202F ||
  n = 0x205F || n = 0x3000 || n = 0xFEFF

/-- Value of a digit character in bases up to sixteen (`none` when it is not a digit). -/
def digitValue (c : Char) : Option Nat :=
  let n := c.toNat
  if 48 ≤ n ∧ n ≤ 57 then some (n - 48)
  else if 97 ≤ n ∧ n ≤ 102 then some (n - 87)
  else if 65 ≤ n ∧ n ≤ 70 then some (n - 55)
  else none

/-- Whether `c` is a digit of the given base. -/
def isDigitOf (base : Nat) (c : Char) : Bool :=
  match digitValue c with
  | some d => decide (d < base)
  | none => false

/-- The number written by a list of digits in the given base. -/
def digitsValue (base : Nat) (ds : List Char) : Nat :=
  ds.foldl (fun a c => base * a + (digitValue c).getD 0) 0

/-- Optional `ExponentPart` at the end of a decimal literal: `none` when the remaining
characters are not an exponent part. -/
def parseExponent : List Char → Option Int
  | [] => some 0
  | c :: rest =>
    if c = 'e' ∨ c = 'E' then
      let signed : Bool × List Char :=
        match rest with
        | '+' :: r => (false, r)
        | '-' :: r => (true, r)
        | r => (false, r)
      if signed.2 ≠ [] ∧ signed.2.all (isDigitOf 10) = true then
        some (if signed.1 then - (digitsValue 10 signed.2 : Int) else (digitsValue 10 signed.2 : Int))
      else none
    else none

/-- An unsigned decimal literal (digits, optional fraction, optional exponent), as the
mantissa and the decimal exponent. -/
def parseUnsignedDecimal (cs : List Char) : Option (Nat × Int) :=
  let ip := cs.takeWhile (isDigitOf 10)
  let r1 := cs.dropWhile (isDigitOf 10)
  let fp := match r1 with
    | '.' :: r => r.takeWhile (isDigitOf 10)
    | _ => []
  let r2 := match r1 with
    | '.' :: r => r.dropWhile (isDigitOf 10)
    | _ => r1
  if ip = [] ∧ fp = [] then none
  else match parseExponent r2 with
    | some e => some (digitsValue 10 (ip ++ fp), e - (fp.length : Int))
    | none => none

/-- The power `b ^ k`, computed as `(b ^ 256) ^ (k / 256) * b ^ (k % 256)` so that no
single exponent is large. -/
def power (b k : Nat) : Nat :=
  (b ^ 256) ^ (k / 256) * b ^ (k % 256)

/-- The steps of a search by halving over the exponents of the doubles, from `2 ^ 11`
down to `1`. -/
def halvingSteps : List Nat := [2048, 1024, 512, 256, 128, 64, 32, 16, 8, 4, 2, 1]

/-- The least `s` with `n < d * 2 ^ (53 + s)`, for `d > 0` (capped at `4095`): the
quotient `n / (d * 2 ^ s)` then has at most 53 bits, and exactly 53 when `s > 0`. Found
by halving: a step is added as long as the bound is not reached one below. -/
def binadeShift (n d : Nat) : Nat :=
  halvingSteps.foldl
    (fun c step => if d * power 2 (53 + (c + step - 1)) ≤ n then c + step else c) 0

/-- The number of times that `2` divides `m`, for `0 < m < 2 ^ 64`. -/
def trailingZeros (m : Nat) : Nat :=
  [32, 16, 8, 4, 2, 1].foldl (fun c step => if m % 2 ^ (c + step) = 0 then c + step else c) 0

/-- The finite double `± m * 2 ^ e`, for `0 < m < 2 ^ 64`, written in the one way that
`JSNumber` admits. -/
def JSNumber.ofBinary (neg : Bool) (m : Nat) (e : Int) : JSNumber :=
  let t := trailingZeros m
  let mo := m / 2 ^ t
  let eo := e + (t : Int)
  if 0 ≤ eo then .fin neg (mo * power 2 eo.toNat) 0 else .fin neg mo eo

/-- The double nearest to the fraction `± num / den`, for `den > 0`, ties going to the
even significand (the rounding of IEEE 754 that `StringToNumber` and number literals
use). In units of `2 ^ (-1074)`, the least positive double, the fraction is
`n / den` with `n = num * 2 ^ 1074`; with `s = binadeShift n den` the doubles around it are
the multiples of `2 ^ s`, so the significand is `n / (den * 2 ^ s)` rounded to an integer.
A result of `2 ^ 1024` or more, that is `2 ^ 2098` units, is an infinity. -/
def roundToDouble (neg : Bool) (num den : Nat) : JSNumber :=
  let n := num * power 2 1074
  let s := binadeShift n den
  let d := den * power 2 s
  let m0 := n / d
  let r := n % d
  let m := if 2 * r < d then m0 else if d < 2 * r then m0 + 1 else m0 + m0 % 2
  if m = 0 then .fin false 0 0
  else if power 2 2098 ≤ m * power 2 s then .inf neg
  else JSNumber.ofBinary neg m ((s : Int) - 1074)

/-- The double nearest to the decimal `± m * 10 ^ e`: the value of a decimal literal. A
decimal of `10 ^ 310` or more is an infinity, the doubles being less than `2 ^ 1024`,
about `1.8 * 10 ^ 308`; a decimal below `10 ^ (-324)` is zero, being less than half the
least positive double `2 ^ (-1074)`, about `4.9 * 10 ^ (-324)`. These two cases are told
by the exponent and the number of digits, without computing the power of ten. -/
def JSNumber.ofDecimal (neg : Bool) (m : Nat) (e : Int) : JSNumber :=
  if m = 0 then .fin false 0 0
  else if 310 ≤ e then .inf neg
  else if e + ((Nat.toDigits 10 m).length : Int) ≤ -324 then .fin false 0 0
  else if 0 ≤ e then roundToDouble neg (m * power 10 e.toNat) 1
  else roundToDouble neg m (power 10 (-e).toNat)

/-- The production `StrUnsignedDecimalLiteral`, including `Infinity`, with a sign. -/
def parseSignedDecimal (neg : Bool) (cs : List Char) : JSNumber :=
  if cs = "Infinity".toList then .inf neg
  else match parseUnsignedDecimal cs with
    | some (m, e) => JSNumber.ofDecimal neg m e
    | none => .nan

/-- A `NonDecimalIntegerLiteral` body: at least one digit of the base, nothing else. -/
def parseNonDecimal (base : Nat) (cs : List Char) : JSNumber :=
  if cs ≠ [] ∧ cs.all (isDigitOf base) = true then
    JSNumber.ofDecimal false (digitsValue base cs) 0
  else .nan

/-- The production `StrNumericLiteral` on a string without surrounding white space. -/
def parseNumericLiteral : List Char → JSNumber
  | [] => .fin false 0 0
  | '0' :: 'x' :: r => parseNonDecimal 16 r
  | '0' :: 'X' :: r => parseNonDecimal 16 r
  | '0' :: 'o' :: r => parseNonDecimal 8 r
  | '0' :: 'O' :: r => parseNonDecimal 8 r
  | '0' :: 'b' :: r => parseNonDecimal 2 r
  | '0' :: 'B' :: r => parseNonDecimal 2 r
  | '+' :: r => parseSignedDecimal false r
  | '-' :: r => parseSignedDecimal true r
  | cs => parseSignedDecimal false cs

/-- Removal of leading and trailing `StrWhiteSpaceChar`s. -/
def trimWhiteSpace (cs : List Char) : List Char :=
  ((cs.dropWhile isStrWhiteSpaceChar).reverse.dropWhile isStrWhiteSpaceChar).reverse

/-- The conversion `Number(s)` of a string (`StringToNumber`): the empty or blank string is
`0`, a string that is not a numeric literal is `NaN`, and a numeric literal is rounded to
the nearest double. -/
def Number (s : String) : JSNumber :=
  parseNumericLiteral (trimWhiteSpace s.toList)

/-- The test `Number.isFinite`: neither `NaN` nor an infinity. -/
def JSNumber.isFinite : JSNumber → Bool
  | .fin _ _ _ => true
  | _ => false

/-- Whether a number is zero. -/
def JSNumber.isZero : JSNumber → Bool
  | .fin _ m _ => decide (m = 0)
  | _ => false

/-! ## Property access -/

/-- The conversion `ToBoolean`. -/
def JSValue.truthy : JSValue → Bool
  | .undefined => false
  | .null => false
  | .bool b => b
  | .num n => !(n.isZero || decide (n = JSNumber.nan))
  | .str s => !decide (s = "")
  | .arr _ => true
  | .obj _ => true

/-- The comparison `v === s` against a string `s`. -/
def JSValue.strictEqStr : JSValue → String → Bool
  | .str t, s => decide (t = s)
  | _, _ => false

/-- First property named `name` in a property list. -/
def lookupProp (name : String) : List (String × JSValue) → Option JSValue
  | [] => none
  | (k, v) :: rest => if k = name then some v else lookupProp name rest

/-- Assignment of a property in a property list: an existing property keeps its place, a
new one goes last. -/
def assignProp (name : String) (x : JSValue) : List (String × JSValue) → List (String × JSValue)
  | [] => [(name, x)]
  | (k, v) :: rest => if k = name then (k, x) :: rest else (k, v) :: assignProp name x rest

/-- The read `v.name`, for a property name that is neither an array index, nor `length`,
nor a name inherited from a prototype: a `TypeError` on `null` and `undefined`, the own
property of an object, `undefined` elsewhere. -/
def JSValue.get (v : JSValue) (name : String) : Except JSError JSValue :=
  match v with
  | .undefined => .error .typeError
  | .null => .error .typeError
  | .obj props => .ok ((lookupProp name props).getD .undefined)
  | _ => .ok .undefined

/-- The assignment `v.name = x` in strict mode (the file starts with `use strict`): a
`TypeError` on `null`, `undefined` and primitives. An array would take the property
without serializing it; the contract never gets there, since a stored array has neither
an `owner` nor a `pendingTransfer` and both transfer operations throw before assigning. -/
def JSValue.set (v : JSValue) (name : String) (x : JSValue) : Except JSError JSValue :=
  match v with
  | .obj props => .ok (.obj (assignProp name x props))
  | .arr xs => .ok (.arr xs)
  | _ => .error .typeError

/-- The call `v.push(x)`: appends to an array, a `TypeError` when `v` has no `push`
method. -/
def JSValue.push (v : JSValue) (x : JSValue) : Except JSError JSValue :=
  match v with
  | .arr xs => .ok (.arr (xs ++ [x]))
  | _ => .error .typeError

/-! ## JSON serialization -/

mutual
/-- The value that `JSON.stringify` writes for `v` (`none` when it writes nothing, as for
`undefined`): `NaN` and the infinities become `null`, an `undefined` array element becomes
`null`, an `undefined` property is left out. -/
def toJSON : JSValue → Option JSValue
  | .undefined => none
  | .null => some .null
  | .bool b => some (.bool b)
  | .num n => some (if n.isFinite = true then .num n else .null)
  | .str s => some (.str s)
  | .arr xs => some (.arr (toJSONElems xs))
  | .obj props => some (.obj (toJSONProps props))
/-- Serialization of the elements of an array. -/
def toJSONElems : List JSValue → List JSValue
  | [] => []
  | x :: xs => (toJSON x).getD .null :: toJSONElems xs
/-- Serialization of the properties of an object. -/
def toJSONProps : List (String × JSValue) → List (String × JSValue)
  | [] => []
  | (k, v) :: rest =>
    match toJSON v with
    | some j => (k, j) :: toJSONProps rest
    | none => toJSONProps rest
end

mutual
/-- Values that a JSON text can denote: no `undefined`, no `NaN` and no infinity, at any
depth. -/
def JSValue.isJSON : JSValue → Bool
  | .undefined => false
  | .null => true
  | .bool _ => true
  | .num n => n.isFinite
  | .str _ => true
  | .arr xs => allJSON xs
  | .obj props => allJSONProps props
/-- All elements of an array are JSON values. -/
def allJSON : List JSValue → Bool
  | [] => true
  | x :: xs => x.isJSON && allJSON xs
/-- All property values of an object are JSON values. -/
def allJSONProps : List (String × JSValue) → Bool
  | [] => true
  | (_, v) :: rest => v.isJSON && allJSONProps rest
end

/-- The call `JSON.stringify(v)`: a JSON text, or `undefined` (`none`). -/
def JSON.stringify (v : JSValue) : Option Text :=
  (toJSON v).map Text.json

/-- The call `JSON.parse(text)`: the value the JSON text denotes, a `SyntaxError` on any
other text. -/
def JSON.parse : Text → Except JSError JSValue
  | .json v => .ok v
  | .raw _ => .error .syntaxError

/-- The call `Buffer.from(x)` on the result of a stringification: a `TypeError` when `x`
is `undefined`. -/
def Buffer.from : Option Text → Except JSError Buffer
  | some t => .ok t
  | none => .error .typeError

/-- The UTF-16 code units of a string, the units JavaScript compares strings by. -/
def utf16 (s : String) : List Nat :=
  s.data.flatMap (fun c =>
    if c.toNat < 0x10000 then [c.toNat]
    else [0xD800 + (c.toNat - 0x10000) / 0x400, 0xDC00 + (c.toNat - 0x10000) % 0x400])

/-- Order of two property keys under the default comparison of `Array.prototype.sort`. -/
def keyLE (a b : String × JSValue) : Prop := utf16 a.1 ≤ utf16 b.1

instance keyLE_decidable : DecidableRel keyLE :=
  fun a b => inferInstanceAs (Decidable (utf16 a.1 ≤ utf16 b.1))

instance keyLE_isTotal : IsTotal (String × JSValue) keyLE :=
  ⟨fun a b => le_total (utf16 a.1) (utf16 b.1)⟩

instance keyLE_isTrans : IsTrans (String × JSValue) keyLE :=
  ⟨fun _ _ _ h1 h2 => le_trans (α := List Nat) h1 h2⟩

mutual
/-- Modelled from the spec: the npm dependency `sort-keys-recursive` is not part of the
sources. Following the spec ("keys sorted recursively"), the keys of every object are
sorted, at any depth, by a stable sort; arrays keep the order of their elements (the
arrays the contract writes, `history` and `previousOwners`, hold objects only). -/
def sortKeysRecursive : JSValue → JSValue
  | .arr xs => .arr (sortKeysElems xs)
  | .obj props => .obj (List.insertionSort keyLE (sortKeysProps props))
  | v => v
/-- Sorting inside the elements of an array. -/
def sortKeysElems : List JSValue → List JSValue
  | [] => []
  | x :: xs => sortKeysRecursive x :: sortKeysElems xs
/-- Sorting inside the property values of an object. -/
def sortKeysProps : List (String × JSValue) → List (String × JSValue)
  | [] => []
  | (k, v) :: rest => (k, sortKeysRecursive v) :: sortKeysProps rest
end

/-- Modelled from the spec: the npm dependency `json-stringify-deterministic` is not part
of the sources. Following the spec ("field-sorted, deterministic JSON"), it is
`JSON.stringify` applied after sorting the keys of every object. -/
def stringify (v : JSValue) : Option Text :=
  JSON.stringify (sortKeysRecursive v)

/-! ## Ledger and invocation context -/

/-- The world state: the buffer stored under each key, if any. -/
abbrev World := String → Option Buffer

/-- The world state after `putState(key, value)`. -/
def putState (w : World) (key : String) (value : Buffer) : World :=
  fun k => if k = key then some value else w k

/-- A call on `ctx.stub` that reads or writes the world state. -/
inductive StubCall where
  | getState (key : String)
  | putState (key : String) (value : Buffer)

/-- The object `ctx.clientIdentity`: the caller's organisation, identity and attributes
(a lookup may throw, or return `null`, here `none`). -/
structure ClientIdentity where
  getMSPID : String
  getID : String
  getAttributeValue : String → Except JSError (Option String)

/-- The per-invocation part of `ctx.stub`: the transaction id and the transaction
timestamp, already formatted by `toISOString`. -/
structure Stub where
  getTxID : String
  getTxTimestamp : String

/-- The invocation context. The field `now i` is the string given by the `i`-th evaluation
(counting from zero) of `new Date().toISOString()` during the invocation. -/
structure Context where
  clientIdentity : ClientIdentity
  stub : Stub
  now : Nat → String

/-- What an invocation produces: the returned value or the thrown error, the world state
it leaves, and the stub calls it made, in order. -/
structure Outcome (α : Type) where
  result : Except JSError α
  state : World
  calls : List StubCall

/-! ## The contract -/

/-- The utility `_getClientId`. -/
def _getClientId (ctx : Context) : String :=
  ctx.clientIdentity.getID

/-- The utility `_getMSP`. -/
def _getMSP (ctx : Context) : String :=
  ctx.clientIdentity.getMSPID

/-- The utility `_getAttr`: a lookup that throws yields `null`. -/
def _getAttr (ctx : Context) (name : String) : Option String :=
  match ctx.clientIdentity.getAttributeValue name with
  | .ok v => v
  | .error _ => none

/-- The positional arguments of `CreateLand`, as the strings the transport delivers. -/
structure CreateLandArgs where
  landId : String
  titleNumber : String
  landType : String
  ownershipType : String
  owner : String
  ownerName : String
  area : String
  unit : String
  surveyNumber : String
  mutationNumber : String
  location : String
  lat : String
  long : String
  north : String
  south : String
  east : String
  west : String
  marketValue : String
  docHash : String

/-- The object literal `land` built by `CreateLand`. -/
def newLand (ctx : Context) (a : CreateLandArgs) : JSValue :=
  let txId := ctx.stub.getTxID
  let timestamp := ctx.now 0
  .obj [
    ("docType", .str "land"),
    ("landId", .str a.landId),
    ("titleNumber", .str a.titleNumber),
    ("landType", .str a.landType),
    ("ownershipType", .str a.ownershipType),
    ("owner", .str a.owner),
    ("ownerName", .str a.ownerName),
    ("area", .num (Number a.area)),
    ("unit", .str a.unit),
    ("surveyNumber", .str a.surveyNumber),
    ("mutationNumber", .str a.mutationNumber),
    ("location", .str a.location),
    ("coordinates", .obj [("lat", .num (Number a.lat)), ("long", .num (Number a.long))]),
    ("boundary", .obj [("north", .str a.north), ("south", .str a.south),
      ("east", .str a.east), ("west", .str a.west)]),
    ("marketValue", .num (Number a.marketValue)),
    ("registrationDate", .str timestamp),
    ("legalStatus", .str "REGISTERED"),
    ("currentStatus", .str "OWNED"),
    ("docHash", .str a.docHash),
    ("previousOwners", .arr []),
    ("history", .arr [.obj [("txId", .str txId), ("action", .str "CREATED"),
      ("by", .str "Registrar_001"), ("timestamp", .str timestamp)]]),
    ("lastUpdated", .str timestamp)]

/-- The transaction `CreateLand`. -/
def CreateLand (ctx : Context) (w : World) (a : CreateLandArgs) : Outcome (Option Text) :=
  let msp := _getMSP ctx
  let role := _getAttr ctx "role"
  if msp ≠ "Org1MSP" ∨ role ≠ some "gov" then
    ⟨.error (.error "❌ Only Government registrar (Org1, role=gov) can create land records"),
      w, []⟩
  else
    let found := w a.landId
    if (match found with
        | some b => !b.isEmpty
        | none => false) = true then
      ⟨.error (.error ("❌ Land " ++ a.landId ++ " already exists")), w, [.getState a.landId]⟩
    else
      let land := newLand ctx a
      match Buffer.from (stringify (sortKeysRecursive land)) with
      | .error e => ⟨.error e, w, [.getState a.landId]⟩
      | .ok buf =>
        ⟨.ok (JSON.stringify land), putState w a.landId buf,
          [.getState a.landId, .putState a.landId buf]⟩

/-- The transaction `ReadLand`. -/
def ReadLand (_ctx : Context) (w : World) (landId : String) : Outcome Text :=
  match w landId with
  | none => ⟨.error (.error ("❌ Land " ++ landId ++ " not found")), w, [.getState landId]⟩
  | some data =>
    if data.isEmpty = true then
      ⟨.error (.error ("❌ Land " ++ landId ++ " not found")), w, [.getState landId]⟩
    else
      ⟨.ok (Buffer.toString data), w, [.getState landId]⟩

/-- The transaction `InitiateTransfer`. -/
def InitiateTransfer (ctx : Context) (w : World)
    (landId proposedBuyer price agreementHash : String) : Outcome (Option Text) :=
  let caller := _getClientId ctx
  match w landId with
  | none => ⟨.error (.error ("❌ Land " ++ landId ++ " not found")), w, [.getState landId]⟩
  | some landBytes =>
    if landBytes.isEmpty = true then
      ⟨.error (.error ("❌ Land " ++ landId ++ " not found")), w, [.getState landId]⟩
    else
      let updated : Except JSError JSValue := do
        let land ← JSON.parse (Buffer.toString landBytes)
        let owner ← land.get "owner"
        if owner.strictEqStr caller = false then
          throw (JSError.error "❌ Only current owner can initiate a transfer")
        let legalStatus ← land.get "legalStatus"
        if legalStatus.strictEqStr "PENDING_TRANSFER" = true then
          throw (JSError.error "⚠️ Transfer already initiated for this land")
        let land ← land.set "pendingTransfer" (.obj [
          ("proposedBuyer", .str proposedBuyer),
          ("price", .num (Number price)),
          ("agreementHash", .str agreementHash),
          ("initiatedBy", .str caller),
          ("initiatedAt", .str (ctx.now 0))])
        let land ← land.set "legalStatus" (.str "PENDING_TRANSFER")
        let history ← land.get "history"
        let history ← history.push (.obj [
          ("txId", .str ctx.stub.getTxID),
          ("action", .str "TRANSFER_INITIATED"),
          ("by", .str caller),
          ("timestamp", .str (ctx.now 1))])
        land.set "history" history
      match updated with
      | .error e => ⟨.error e, w, [.getState landId]⟩
      | .ok land =>
        match Buffer.from (stringify (sortKeysRecursive land)) with
        | .error e => ⟨.error e, w, [.getState landId]⟩
        | .ok buf =>
          ⟨.ok (JSON.stringify land), putState w landId buf,
            [.getState landId, .putState landId buf]⟩

/-- The transaction `ApproveTransfer`. -/
def ApproveTransfer (ctx : Context) (w : World) (landId : String) : Outcome (Option Text) :=
  let msp := _getMSP ctx
  let role := _getAttr ctx "role"
  if msp ≠ "Org1MSP" ∨ role ≠ some "gov" then
    ⟨.error (.error "❌ Only government registrar (Org1, role=gov) can approve transfers"),
      w, []⟩
  else
    match w landId with
    | none => ⟨.error (.error ("❌ Land " ++ landId ++ " not found")), w, [.getState landId]⟩
    | some landBytes =>
      if landBytes.isEmpty = true then
        ⟨.error (.error ("❌ Land " ++ landId ++ " not found")), w, [.getState landId]⟩
      else
        let updated : Except JSError JSValue := do
          let land ← JSON.parse (Buffer.toString landBytes)
          let pendingTransfer ← land.get "pendingTransfer"
          if pendingTransfer.truthy = false then
            throw (JSError.error "⚠️ No transfer request pending for this land")
          let oldOwner ← land.get "owner"
          let newOwner ← pendingTransfer.get "proposedBuyer"
          let previousOwners ← land.get "previousOwners"
          let previousOwners ← previousOwners.push (.obj [
            ("owner", oldOwner),
            ("to", .str (ctx.now 0))])
          let land ← land.set "previousOwners" previousOwners
          let land ← land.set "owner" newOwner
          let land ← land.set "ownerName" newOwner
          let land ← land.set "legalStatus" (.str "REGISTERED")
          let land ← land.set "currentStatus" (.str "OWNED")
          let land ← land.set "pendingTransfer" .null
          let history ← land.get "history"
          let history ← history.push (.obj [
            ("txId", .str ctx.stub.getTxID),
            ("action", .str "TRANSFER_APPROVED"),
            ("from", oldOwner),
            ("to", newOwner),
            ("timestamp", .str (ctx.now 1))])
          let land ← land.set "history" history
          land.set "lastUpdated" (.str (ctx.now 2))
        match updated with
        | .error e => ⟨.error e, w, [.getState landId]⟩
        | .ok land =>
          match Buffer.from (stringify (sortKeysRecursive land)) with
          | .error e => ⟨.error e, w, [.getState landId]⟩
          | .ok buf =>
            ⟨.ok (JSON.stringify land), putState w landId buf,
              [.getState landId, .putState landId buf]⟩

/-- The caller passes the registrar check of `CreateLand` and `ApproveTransfer`: its
organisation is `Org1MSP` and its `role` attribute is `gov`. -/
def Context.isRegistrar (ctx : Context) : Prop :=
  ctx.clientIdentity.getMSPID = "Org1MSP" ∧
    ctx.clientIdentity.getAttributeValue "role" = .ok (some "gov")

/-- The value written by `JSON.stringify(v)`, `null` standing for no output. -/
def serialized (v : JSValue) : JSValue :=
  (toJSON v).getD .null

/-- The value denoted by the buffer that `putState` receives for `v`, that is by
`stringify(sortKeysRecursive(v))`. -/
def persisted (v : JSValue) : JSValue :=
  serialized (sortKeysRecursive v)

/-! ## Sample inputs -/

/-- A registrar: organisation `Org1MSP`, attribute `role` equal to `gov`. -/
def registrarCtx : Context :=
  ⟨⟨"Org1MSP", "x509::registrar", fun n => if n = "role" then .ok (some "gov") else .ok none⟩,
    ⟨"TX12345", "2025-11-04T00:00:00.000Z"⟩,
    fun i => if i = 0 then "2025-11-04T10:00:00.000Z" else
      if i = 1 then "2025-11-04T10:00:00.001Z" else "2025-11-04T10:00:00.002Z"⟩

/-- A caller of `Org1MSP` whose `role` attribute is `user`, with identity `Aadhar_1234`. -/
def userCtx : Context :=
  ⟨⟨"Org1MSP", "Aadhar_1234", fun n => if n = "role" then .ok (some "user") else .ok none⟩,
    ⟨"TX12346", "2025-11-04T00:00:00.000Z"⟩,
    fun i => if i = 0 then "2025-11-05T09:00:00.000Z" else "2025-11-05T09:00:00.001Z"⟩

/-- A caller with identity `Aadhar_5555`, outside the registrar organisation and without
attributes. -/
def ownerCtx : Context :=
  ⟨⟨"Org2MSP", "Aadhar_5555", fun _ => .ok none⟩,
    ⟨"TX12347", "2025-11-04T00:00:00.000Z"⟩,
    fun i => if i = 0 then "2025-11-06T09:00:00.000Z" else "2025-11-06T09:00:00.001Z"⟩

/-- The ledger with no key. -/
def emptyWorld : World := fun _ => none

/-- The arguments of the creation test of the repository. -/
def sampleArgs : CreateLandArgs :=
  ⟨"LAND0010", "TN-111", "Residential", "Freehold", "Aadhar_5555", "Rohit Verma", "1500",
    "sq.ft", "SV-0001", "MUT-1001", "Kanpur", "26.4511", "80.3469", "North Boundary",
    "South Boundary", "East Boundary", "West Boundary", "5000000", "sha256:test"⟩

/-- The same arguments with an area that is not a numeric literal. -/
def badAreaArgs : CreateLandArgs :=
  ⟨"LAND0010", "TN-111", "Residential", "Freehold", "Aadhar_5555", "Rohit Verma", "abc",
    "sq.ft", "SV-0001", "MUT-1001", "Kanpur", "26.4511", "80.3469", "North Boundary",
    "South Boundary", "East Boundary", "West Boundary", "5000000", "sha256:test"⟩

/-- The properties of the record stored at `LAND0010` once `registrarCtx` has created it
from `sampleArgs`. -/
def sampleLandProps : List (String × JSValue) :=
  [
    ("area", .num (.fin false 1500 0)),
    ("boundary", .obj [("east", .str "East Boundary"), ("north", .str "North Boundary"),
      ("south", .str "South Boundary"), ("west", .str "West Boundary")]),
    ("coordinates", .obj [("lat", .num (JSNumber.ofDecimal false 264511 (-4))),
      ("long", .num (JSNumber.ofDecimal false 803469 (-4)))]),
    ("currentStatus", .str "OWNED"),
    ("docHash", .str "sha256:test"),
    ("docType", .str "land"),
    ("history", .arr [.obj [("action", .str "CREATED"), ("by", .str "Registrar_001"),
      ("timestamp", .str "2025-11-04T10:00:00.000Z"), ("txId", .str "TX12345")]]),
    ("landId", .str "LAND0010"),
    ("landType", .str "Residential"),
    ("lastUpdated", .str "2025-11-04T10:00:00.000Z"),
    ("legalStatus", .str "REGISTERED"),
    ("location", .str "Kanpur"),
    ("marketValue", .num (.fin false 5000000 0)),
    ("mutationNumber", .str "MUT-1001"),
    ("owner", .str "Aadhar_5555"),
    ("ownerName", .str "Rohit Verma"),
    ("ownershipType", .str "Freehold"),
    ("previousOwners", .arr []),
    ("registrationDate", .str "2025-11-04T10:00:00.000Z"),
    ("surveyNumber", .str "SV-0001"),
    ("titleNumber", .str "TN-111"),
    ("unit", .str "sq.ft")]

/-- The record with properties `sampleLandProps`. -/
def sampleLand : JSValue :=
  .obj sampleLandProps

/-- The ledger that holds `sampleLand` at `LAND0010` and nothing else. -/
def sampleWorld : World :=
  putState emptyWorld "LAND0010" (.json sampleLand)

/-- The properties of the record stored at `LAND0010` once its owner `Aadhar_5555`
(`ownerCtx`) has initiated a transfer of `sampleLand` to `Aadhar_7777`. -/
def pendingLandProps : List (String × JSValue) :=
  [
    ("area", .num (.fin false 1500 0)),
    ("boundary", .obj [("east", .str "East Boundary"), ("north", .str "North Boundary"),
      ("south", .str "South Boundary"), ("west", .str "West Boundary")]),
    ("coordinates", .obj [("lat", .num (JSNumber.ofDecimal false 264511 (-4))),
      ("long", .num (JSNumber.ofDecimal false 803469 (-4)))]),
    ("currentStatus", .str "OWNED"),
    ("docHash", .str "sha256:test"),
    ("docType", .str "land"),
    ("history", .arr [
      .obj [("action", .str "CREATED"), ("by", .str "Registrar_001"),
        ("timestamp", .str "2025-11-04T10:00:00.000Z"), ("txId", .str "TX12345")],
      .obj [("action", .str "TRANSFER_INITIATED"), ("by", .str "Aadhar_5555"),
        ("timestamp", .str "2025-11-06T09:00:00.001Z"), ("txId", .str "TX12347")]]),
    ("landId", .str "LAND0010"),
    ("landType", .str "Residential"),
    ("lastUpdated", .str "2025-11-04T10:00:00.000Z"),
    ("legalStatus", .str "PENDING_TRANSFER"),
    ("location", .str "Kanpur"),
    ("marketValue", .num (.fin false 5000000 0)),
    ("mutationNumber", .str "MUT-1001"),
    ("owner", .str "Aadhar_5555"),
    ("ownerName", .str "Rohit Verma"),
    ("ownershipType", .str "Freehold"),
    ("pendingTransfer", .obj [("agreementHash", .str "sha256:x"),
      ("initiatedAt", .str "2025-11-06T09:00:00.000Z"), ("initiatedBy", .str "Aadhar_5555"),
      ("price", .num (.fin false 500000 0)), ("proposedBuyer", .str "Aadhar_7777")]),
    ("previousOwners", .arr []),
    ("registrationDate", .str "2025-11-04T10:00:00.000Z"),
    ("surveyNumber", .str "SV-0001"),
    ("titleNumber", .str "TN-111"),
    ("unit", .str "sq.ft")]

/-- The ledger that holds the record with a pending transfer at `LAND0010` and nothing
else. -/
def pendingWorld : World :=
  putState emptyWorld "LAND0010" (.json (.obj pendingLandProps))

/-- The properties of the record stored at `LAND0010` once `registrarCtx` has approved the
pending transfer of `pendingLandProps`. -/
def approvedLandProps : List (String × JSValue) :=
  [
    ("area", .num (.fin false 1500 0)),
    ("boundary", .obj [("east", .str "East Boundary"), ("north", .str "North Boundary"),
      ("south", .str "South Boundary"), ("west", .str "West Boundary")]),
    ("coordinates", .obj [("lat", .num (JSNumber.ofDecimal false 264511 (-4))),
      ("long", .num (JSNumber.ofDecimal false 803469 (-4)))]),
    ("currentStatus", .str "OWNED"),
    ("docHash", .str "sha256:test"),
    ("docType", .str "land"),
    ("history", .arr [
      .obj [("action", .str "CREATED"), ("by", .str "Registrar_001"),
        ("timestamp", .str "2025-11-04T10:00:00.000Z"), ("txId", .str "TX12345")],
      .obj [("action", .str "TRANSFER_INITIATED"), ("by", .str "Aadhar_5555"),
        ("timestamp", .str "2025-11-06T09:00:00.001Z"), ("txId", .str "TX12347")],
      .obj [("action", .str "TRANSFER_APPROVED"), ("from", .str "Aadhar_5555"),
        ("timestamp", .str "2025-11-04T10:00:00.001Z"), ("to", .str "Aadhar_7777"),
        ("txId", .str "TX12345")]]),
    ("landId", .str "LAND0010"),
    ("landType", .str "Residential"),
    ("lastUpdated", .str "2025-11-04T10:00:00.002Z"),
    ("legalStatus", .str "REGISTERED"),
    ("location", .str "Kanpur"),
    ("marketValue", .num (.fin false 5000000 0)),
    ("mutationNumber", .str "MUT-1001"),
    ("owner", .str "Aadhar_7777"),
    ("ownerName", .str "Aadhar_7777"),
    ("ownershipType", .str "Freehold"),
    ("pendingTransfer", .null),
    ("previousOwners", .arr [.obj [("owner", .str "Aadhar_5555"),
      ("to", .str "2025-11-04T10:00:00.000Z")]]),
    ("registrationDate", .str "2025-11-04T10:00:00.000Z"),
    ("surveyNumber", .str "SV-0001"),
    ("titleNumber", .str "TN-111"),
    ("unit", .str "sq.ft")]

/-- The properties of the record that `putState` stores for an object with properties
`ps`: `persisted (.obj ps) = .obj (storedProps ps)`. -/
def storedProps (ps : List (String × JSValue)) : List (String × JSValue) :=
  toJSONProps (List.insertionSort keyLE (sortKeysProps ps))

/-! ## Ledger initialization -/

/-- The array literal `initialLands` of `InitLedger`. -/
def initialLands (ctx : Context) : List JSValue :=
  let txId := ctx.stub.getTxID
  let timestamp := ctx.stub.getTxTimestamp
  [.obj [
    ("landId", .str "LAND0001"),
    ("titleNumber", .str "TN-123456"),
    ("landType", .str "Residential"),
    ("ownershipType", .str "Freehold"),
    ("owner", .str "Aadhar_1234"),
    ("ownerName", .str "Akhil Kumar"),
    ("area", .num (.fin false 1200 0)),
    ("unit", .str "sq.ft"),
    ("surveyNumber", .str "SV-9876"),
    ("mutationNumber", .str "MUT-9087"),
    ("location", .str "Village X, Tehsil Y, Kanpur Nagar, Uttar Pradesh, 208002"),
    ("coordinates", .obj [("lat", .num (JSNumber.ofDecimal false 264511 (-4))),
      ("long", .num (JSNumber.ofDecimal false 803469 (-4)))]),
    ("boundary", .obj [("north", .str "Road"), ("south", .str "River"),
      ("east", .str "Plot 12"), ("west", .str "Canal")]),
    ("marketValue", .num (.fin false 4000000 0)),
    ("registrationDate", .str timestamp),
    ("legalStatus", .str "REGISTERED"),
    ("currentStatus", .str "OWNED"),
    ("docHash", .str "sha256:abcdef..."),
    ("previousOwners", .arr [.obj [("owner", .str "Aadhar_1111"),
      ("from", .str "2015-01-01"), ("to", .str "2025-11-04")]]),
    ("history", .arr [.obj [("txId", .str txId), ("action", .str "CREATED"),
      ("by", .str "Registrar_001"), ("timestamp", .str timestamp)]]),
    ("lastUpdated", .str timestamp)]]

/-- The loop `for (const land of initialLands)` of `InitLedger`: one `putState` under
`land.landId` for each element. -/
def InitLedger.loop (w : World) (calls : List StubCall) : List JSValue → Outcome Unit
  | [] => ⟨.ok (), w, calls⟩
  | land :: rest =>
    match land.get "landId", Buffer.from (stringify (sortKeysRecursive land)) with
    | .ok (.str key), .ok buf =>
      InitLedger.loop (putState w key buf) (calls ++ [.putState key buf]) rest
    | .error e, _ => ⟨.error e, w, calls⟩
    | _, .error e => ⟨.error e, w, calls⟩
    | .ok _, .ok _ => ⟨.error .typeError, w, calls⟩

/-- The transaction `InitLedger`. -/
def InitLedger (ctx : Context) (w : World) : Outcome Unit :=
  InitLedger.loop w [] (initialLands ctx)

/-! ## Sequences of invocations -/

/-- An invocation of a transaction that can write to the ledger, or of `ReadLand`. -/
inductive Call where
  | initLedger (ctx : Context)
  | createLand (ctx : Context) (a : CreateLandArgs)
  | readLand (ctx : Context) (landId : String)
  | initiateTransfer (ctx : Context) (landId proposedBuyer price agreementHash : String)
  | approveTransfer (ctx : Context) (landId : String)

/-- The world state that an invocation leaves. -/
def Call.run (w : World) : Call → World
  | .initLedger ctx => (InitLedger ctx w).state
  | .createLand ctx a => (CreateLand ctx w a).state
  | .readLand ctx landId => (ReadLand ctx w landId).state
  | .initiateTransfer ctx landId proposedBuyer price agreementHash =>
    (InitiateTransfer ctx w landId proposedBuyer price agreementHash).state
  | .approveTransfer ctx landId => (ApproveTransfer ctx w landId).state

/-- Whether an invocation succeeds in the world state `w`. -/
def Call.succeeds (w : World) : Call → Bool
  | .initLedger ctx => (InitLedger ctx w).result.toBool
  | .createLand ctx a => (CreateLand ctx w a).result.toBool
  | .readLand ctx landId => (ReadLand ctx w landId).result.toBool
  | .initiateTransfer ctx landId proposedBuyer price agreementHash =>
    (InitiateTransfer ctx w landId proposedBuyer price agreementHash).result.toBool
  | .approveTransfer ctx landId => (ApproveTransfer ctx w landId).result.toBool

/-- The world state after a sequence of invocations, each running in the state the
previous one left. -/
def runAll (w : World) : List Call → World
  | [] => w
  | c :: cs => runAll (c.run w) cs

/-- Whether a number is greater than zero. -/
def JSNumber.isPositive : JSNumber → Bool
  | .fin neg m _ => !neg && decide (0 < m)
  | .inf neg => !neg
  | .nan => false

/-- Whether a number is less than zero. -/
def JSNumber.isNegative : JSNumber → Bool
  | .fin neg m _ => neg && decide (0 < m)
  | .inf neg => neg
  | .nan => false

/-- The arguments of `sampleArgs` with a negative area and a negative market value. -/
def negativeArgs : CreateLandArgs :=
  ⟨"LAND0010", "TN-111", "Residential", "Freehold", "Aadhar_5555", "Rohit Verma", "-5",
    "sq.ft", "SV-0001", "MUT-1001", "Kanpur", "26.4511", "80.3469", "North Boundary",
    "South Boundary", "East Boundary", "West Boundary", "-1", "sha256:test"⟩

/-! ## Well-formed ledgers -/

/-- The shape of a record stored under `key`: a JSON object whose `landId` is the key,
with a string `owner`, a list of previous owners, a history list, and either
`legalStatus` REGISTERED with no pending transfer (absent or `null`), or `legalStatus`
PENDING_TRANSFER with a pending transfer that names a proposed buyer. -/
structure WellFormed (key : String) (props : List (String × JSValue)) : Prop where
  json : allJSONProps props = true
  landId : lookupProp "landId" props = some (.str key)
  owner : ∃ o, lookupProp "owner" props = some (.str o)
  previousOwners : ∃ prev, lookupProp "previousOwners" props = some (.arr prev)
  history : ∃ hist, lookupProp "history" props = some (.arr hist)
  status :
    (lookupProp "legalStatus" props = some (.str "REGISTERED") ∧
      (lookupProp "pendingTransfer" props = none ∨
        lookupProp "pendingTransfer" props = some .null)) ∨
    (lookupProp "legalStatus" props = some (.str "PENDING_TRANSFER") ∧
      ∃ pt buyer, lookupProp "pendingTransfer" props = some (.obj pt) ∧
        lookupProp "proposedBuyer" pt = some (.str buyer))

/-- Every value stored in the ledger is a well-formed record of its key. -/
def GoodWorld (w : World) : Prop :=
  ∀ key b, w key = some b → ∃ props, b = .json (.obj props) ∧ WellFormed key props

/-- Whether a stub call writes to the ledger. -/
def StubCall.isWrite : StubCall → Bool
  | .putState _ _ => true
  | .getState _ => false

/-! ## Iterators, history and queries -/

/-- Modelled from the spec: the timestamp that the ledger attaches to a version
(the `fabric-shim` iterators are not part of the sources). -/
structure Timestamp where
  seconds : Int
  nanos : Nat
deriving DecidableEq, Repr

/-- Modelled from the spec: one raw version of a key, as the ledger's history iterator
provides it (`timestamp` may be absent). -/
structure KeyModification where
  txId : String
  timestamp : Option Timestamp
  isDelete : Bool
  value : Buffer

/-- Modelled from the spec: one hit of a query, as the ledger's query iterator provides
it. -/
structure KV where
  key : String
  value : Buffer

/-- One answer of `iterator.next()`: the promise resolves to `{value, done}` (`value` may
be absent), or rejects. -/
inductive NextResult (α : Type) where
  | res (value : Option α) (done : Bool)
  | throws (e : JSError)

/-- Modelled from the spec: a ledger iterator, given by the answers that successive calls
of `next()` get; once they are exhausted, `next()` answers `{done: true}`. -/
abbrev Iterator (α : Type) := List (NextResult α)

/-- The iterator over the items `xs`, in order. Each item comes with `done: false`, except
that with `doneWithLast` the last item comes with `done: true` (both conventions exist
among ledger iterators). -/
def Iterator.ofList {α : Type} (doneWithLast : Bool) : List α → Iterator α
  | [] => []
  | [x] => [.res (some x) doneWithLast]
  | x :: y :: rest => .res (some x) false :: Iterator.ofList doneWithLast (y :: rest)

/-- The loop `while (true)` of `GetHistory` and of the queries: call `next()`, push the
converted `res.value` when there is one, stop when `res.done`. A rejected `next()` or a
failing conversion leaves the loop with the error. -/
def whileNext {α β : Type} (convert : α → Except JSError β) :
    Iterator α → List β → Except JSError (List β)
  | [], results => .ok results
  | .throws e :: _, _ => .error e
  | .res none done :: rest, results =>
    if done = true then .ok results else whileNext convert rest results
  | .res (some v) done :: rest, results =>
    match convert v with
    | .error e => .error e
    | .ok r =>
      if done = true then .ok (results ++ [r]) else whileNext convert rest (results ++ [r])

/-- The part of `ctx.stub` that hands out iterators; acquiring one may fail. -/
structure QueryStub where
  getHistoryForKey : String → Except JSError (Iterator KeyModification)
  getQueryResult : Option Text → Except JSError (Iterator KV)

/-- What a read-only invocation produces: the returned value or the thrown error, the
world state it leaves, the stub calls that read or write single keys, whether it acquired
an iterator and whether it called `iterator.close()`. -/
structure ReadOutcome (α : Type) where
  result : Except JSError α
  state : World
  calls : List StubCall
  acquired : Bool
  closed : Bool

/-- An element of the array that `GetHistory` returns; the JSON text returned is
identified with the list of these entries. A missing timestamp is `null` (`none`). -/
structure HistoryEntry where
  txId : String
  timestamp : Option Timestamp
  isDelete : Bool
  value : Text

/-- The object that `GetHistory` pushes for one raw version. -/
def historyEntry (v : KeyModification) : HistoryEntry :=
  { txId := v.txId
    timestamp := match v.timestamp with
      | some t => some t
      | none => none
    isDelete := v.isDelete
    value := Buffer.toString v.value }

/-- The transaction `GetHistory`. -/
def GetHistory (_ctx : Context) (q : QueryStub) (w : World) (landId : String) :
    ReadOutcome (List HistoryEntry) :=
  match q.getHistoryForKey landId with
  | .error e => ⟨.error e, w, [], false, false⟩
  | .ok iterator =>
    match whileNext (fun v => .ok (historyEntry v)) iterator [] with
    | .error e => ⟨.error e, w, [], true, false⟩
    | .ok results => ⟨.ok results, w, [], true, true⟩

/-- The conversion `JSON.parse(res.value.value.toString('utf8'))` of a query hit. -/
def parseHit (kv : KV) : Except JSError JSValue :=
  JSON.parse (Buffer.toString kv.value)

/-- The transaction `QueryLandsByOwner`. -/
def QueryLandsByOwner (_ctx : Context) (q : QueryStub) (w : World) (owner : String) :
    ReadOutcome (Option Text) :=
  let query := JSValue.obj [("selector", .obj [("docType", .str "land"), ("owner", .str owner)])]
  match q.getQueryResult (JSON.stringify query) with
  | .error e => ⟨.error e, w, [], false, false⟩
  | .ok iterator =>
    match whileNext parseHit iterator [] with
    | .error e => ⟨.error e, w, [], true, false⟩
    | .ok results => ⟨.ok (JSON.stringify (.arr results)), w, [], true, true⟩

/-- The transaction `QueryLandsByLocation`. -/
def QueryLandsByLocation (_ctx : Context) (q : QueryStub) (w : World) (location : String) :
    ReadOutcome (Option Text) :=
  let query := JSValue.obj [("selector", .obj [("docType", .str "land"),
    ("location", .str location)])]
  match q.getQueryResult (JSON.stringify query) with
  | .error e => ⟨.error e, w, [], false, false⟩
  | .ok iterator =>
    match whileNext parseHit iterator [] with
    | .error e => ⟨.error e, w, [], true, false⟩
    | .ok results => ⟨.ok (JSON.stringify (.arr results)), w, [], true, true⟩

/-- Modelled from the spec: whether a stored document matches a selector, by equality on
each selector field ("equality match only"). The contract builds selectors with string
values only; a selector field of another kind matches nothing here. -/
def selectorMatches (selector : List (String × JSValue)) (doc : JSValue) : Bool :=
  selector.all fun p =>
    match p.2, doc.get p.1 with
    | .str s, .ok v => v.strictEqStr s
    | _, _ => false

/-- Modelled from the spec: the hits of a selector among the JSON documents stored under
`keys` (the keys of the ledger, in the order the ledger enumerates them). -/
def queryHits (keys : List String) (w : World) (selector : List (String × JSValue)) :
    List KV :=
  keys.filterMap fun k =>
    match w k with
    | some (.json doc) => if selectorMatches selector doc = true then some ⟨k, .json doc⟩ else none
    | _ => none

/-- Modelled from the spec: the ledger's secondary-index query mechanism, as equality
filtering of the stored documents on the `selector` of the query. -/
def richQuery (keys : List String) (w : World) : Option Text → Except JSError (Iterator KV)
  | some (.json query) =>
    match query.get "selector" with
    | .ok (.obj selector) => .ok (Iterator.ofList false (queryHits keys w selector))
    | _ => .error (.error "invalid selector")
  | _ => .error (.error "invalid query")

/-! ## Previous owners along a sequence of invocations -/

/-- The field `name` of the record stored under `key` (`undefined` when the key holds no
JSON record or the record has no such field). -/
def storedField (w : World) (key name : String) : JSValue :=
  match w key with
  | some (.json rec) =>
    match rec.get name with
    | .ok v => v
    | .error _ => .undefined
  | _ => .undefined

/-- The list `previousOwners` of the record stored under `key`. -/
def previousOwnersOf (w : World) (key : String) : List JSValue :=
  match storedField w key "previousOwners" with
  | .arr xs => xs
  | _ => []

/-- The list `history` of the record stored under `key`. -/
def historyOf (w : World) (key : String) : List JSValue :=
  match storedField w key "history" with
  | .arr xs => xs
  | _ => []

/-- Whether a history entry has the action TRANSFER_APPROVED. -/
def isApproval (e : JSValue) : Bool :=
  match e.get "action" with
  | .ok v => v.strictEqStr "TRANSFER_APPROVED"
  | .error _ => false

/-- The number of TRANSFER_APPROVED entries of a history. -/
def approvedCount (hist : List JSValue) : Nat :=
  (hist.filter isApproval).length

/-- Whether the invocation is `InitLedger`. -/
def Call.isInitLedger : Call → Bool
  | .initLedger _ => true
  | _ => false

/-- Whether the invocation is an `ApproveTransfer` on `key` that succeeds in the world
state `w`. -/
def Call.approves (key : String) (w : World) : Call → Bool
  | .approveTransfer ctx landId => decide (landId = key) && (ApproveTransfer ctx w landId).result.toBool
  | _ => false

/-- The owners replaced by the successful `ApproveTransfer` calls on `key` in a sequence
of invocations that starts in the world state `w`: one element for each such call, in the
order of the calls, namely the owner stored when the call is made. -/
def replacedOwners (key : String) : World → List Call → List JSValue
  | _, [] => []
  | w, c :: cs =>
    (if c.approves key w = true then [storedField w key "owner"] else []) ++
      replacedOwners key (c.run w) cs

/-- The record under `key` is well formed, its `previousOwners` and `history` lists are
stored in their serialized form, the owners named by `previousOwners` are `owners`, and
the history has as many TRANSFER_APPROVED entries as there are previous owners. -/
def Tracked (key : String) (w : World) (owners : List JSValue) : Prop :=
  ∃ props prev hist, w key = some (.json (.obj props)) ∧ WellFormed key props ∧
    lookupProp "previousOwners" props = some (.arr prev) ∧
    lookupProp "history" props = some (.arr hist) ∧
    toJSONElems (sortKeysElems prev) = prev ∧
    toJSONElems (sortKeysElems hist) = hist ∧
    prev.map (fun e => e.get "owner") = owners.map Except.ok ∧
    approvedCount hist = prev.length

/-- The arguments of `sampleArgs` with an area and a market value beyond the range of the
doubles: `Number` gives `Infinity` and `-Infinity`. -/
def overflowArgs : CreateLandArgs :=
  ⟨"LAND0010", "TN-111", "Residential", "Freehold", "Aadhar_5555", "Rohit Verma", "1e1000",
    "sq.ft", "SV-0001", "MUT-1001", "Kanpur", "26.4511", "80.3469", "North Boundary",
    "South Boundary", "East Boundary", "West Boundary", "-1e1000", "sha256:test"⟩

/-- The arguments of `sampleArgs` under the key `LAND0001`, the key that `InitLedger`
writes. -/
def landOneArgs : CreateLandArgs :=
  ⟨"LAND0001", "TN-111", "Residential", "Freehold", "Aadhar_5555", "Rohit Verma", "1500",
    "sq.ft", "SV-0001", "MUT-1001", "Kanpur", "26.4511", "80.3469", "North Boundary",
    "South Boundary", "East Boundary", "West Boundary", "5000000", "sha256:test"⟩

set_option maxRecDepth 100000

/-! ## Lemmas on property lists -/

theorem lookupProp_assignProp (name k : String) (x : JSValue) (ps : List (String × JSValue)) :
    lookupProp name (assignProp k x ps) = if k = name then some x else lookupProp name ps := by
  induction ps with
  | nil => simp [assignProp, lookupProp]
  | cons p ps ih =>
    obtain ⟨k', v⟩ := p
    by_cases h1 : k' = k
    · subst h1
      by_cases h2 : k' = name <;> simp [assignProp, lookupProp, h2]
    · by_cases h2 : k = name
      · subst h2
        simp [assignProp, lookupProp, h1, ih]
      · by_cases h3 : k' = name
        · subst h3
          simp [assignProp, lookupProp, h1, h2]
        · simp [assignProp, lookupProp, h1, h2, h3, ih]

theorem mem_assignProp (k : String) (x : JSValue) (ps : List (String × JSValue))
    (p : String × JSValue) (hp : p ∈ assignProp k x ps) : p.2 = x ∨ p ∈ ps := by
  induction ps with
  | nil =>
    simp [assignProp] at hp
    left
    rw [hp]
  | cons q ps ih =>
    obtain ⟨k', v⟩ := q
    by_cases h1 : k' = k
    · simp [assignProp, h1] at hp
      rcases hp with hp | hp
      · left
        rw [hp]
      · right
        exact List.mem_cons_of_mem _ hp
    · simp [assignProp, h1] at hp
      rcases hp with hp | hp
      · right
        rw [hp]
        exact List.mem_cons_self _ _
      · rcases ih hp with h | h
        · exact Or.inl h
        · exact Or.inr (List.mem_cons_of_mem _ h)

theorem lookupProp_mem (name : String) (ps : List (String × JSValue)) (v : JSValue)
    (h : lookupProp name ps = some v) : (name, v) ∈ ps := by
  induction ps with
  | nil => simp [lookupProp] at h
  | cons p ps ih =>
    obtain ⟨k, x⟩ := p
    by_cases hk : k = name
    · simp [lookupProp, hk] at h
      simp [hk, h]
    · simp [lookupProp, hk] at h
      exact List.mem_cons_of_mem _ (ih h)

theorem lookupProp_orderedInsert (name : String) (p : String × JSValue)
    (ps : List (String × JSValue)) :
    lookupProp name (List.orderedInsert keyLE p ps) =
      if p.1 = name then some p.2 else lookupProp name ps := by
  induction ps with
  | nil =>
    obtain ⟨k, v⟩ := p
    simp [lookupProp]
  | cons q ps ih =>
    obtain ⟨k, v⟩ := p
    obtain ⟨k', v'⟩ := q
    by_cases hle : keyLE (k, v) (k', v')
    · simp [List.orderedInsert, hle, lookupProp]
    · have hne : k' ≠ k := by
        intro h
        apply hle
        subst h
        exact le_refl (utf16 k')
      simp only [List.orderedInsert, hle, if_false, lookupProp, ih]
      by_cases h1 : k = name
      · subst h1
        simp [hne]
      · simp [h1]

theorem lookupProp_insertionSort (name : String) (ps : List (String × JSValue)) :
    lookupProp name (List.insertionSort keyLE ps) = lookupProp name ps := by
  induction ps with
  | nil => rfl
  | cons p ps ih =>
    obtain ⟨k, v⟩ := p
    simp [List.insertionSort, lookupProp_orderedInsert, ih, lookupProp]

theorem lookupProp_sortKeysProps (name : String) (ps : List (String × JSValue)) :
    lookupProp name (sortKeysProps ps) = (lookupProp name ps).map sortKeysRecursive := by
  induction ps with
  | nil => rfl
  | cons p ps ih =>
    obtain ⟨k, v⟩ := p
    by_cases h : k = name <;> simp [sortKeysProps, lookupProp, h, ih]

theorem sortKeysProps_orderedInsert (p : String × JSValue) (ps : List (String × JSValue)) :
    sortKeysProps (List.orderedInsert keyLE p ps) =
      List.orderedInsert keyLE (p.1, sortKeysRecursive p.2) (sortKeysProps ps) := by
  induction ps with
  | nil =>
    obtain ⟨k, v⟩ := p
    simp [sortKeysProps]
  | cons q ps ih =>
    obtain ⟨k, v⟩ := p
    obtain ⟨k', v'⟩ := q
    by_cases hle : keyLE (k, v) (k', v')
    · have hle2 : keyLE (k, sortKeysRecursive v) (k', sortKeysRecursive v') := hle
      simp [List.orderedInsert, hle, hle2, sortKeysProps]
    · have hle2 : ¬ keyLE (k, sortKeysRecursive v) (k', sortKeysRecursive v') := hle
      simp only [List.orderedInsert, hle, hle2, if_false, sortKeysProps]
      rw [ih]

theorem sortKeysProps_insertionSort (ps : List (String × JSValue)) :
    sortKeysProps (List.insertionSort keyLE ps) =
      List.insertionSort keyLE (sortKeysProps ps) := by
  induction ps with
  | nil => rfl
  | cons p ps ih =>
    obtain ⟨k, v⟩ := p
    simp [List.insertionSort, sortKeysProps_orderedInsert, ih, sortKeysProps]

theorem insertionSort_insertionSort (ps : List (String × JSValue)) :
    List.insertionSort keyLE (List.insertionSort keyLE ps) = List.insertionSort keyLE ps :=
  List.Sorted.insertionSort_eq (List.sorted_insertionSort keyLE ps)

mutual
theorem sortKeysRecursive_idem : ∀ v : JSValue,
    sortKeysRecursive (sortKeysRecursive v) = sortKeysRecursive v
  | .undefined => rfl
  | .null => rfl
  | .bool _ => rfl
  | .num _ => rfl
  | .str _ => rfl
  | .arr xs => by
    simp only [sortKeysRecursive, sortKeysElems_idem xs]
  | .obj ps => by
    simp only [sortKeysRecursive, sortKeysProps_insertionSort, sortKeysProps_idem ps,
      insertionSort_insertionSort]
theorem sortKeysElems_idem : ∀ xs : List JSValue,
    sortKeysElems (sortKeysElems xs) = sortKeysElems xs
  | [] => rfl
  | x :: xs => by
    simp only [sortKeysElems, sortKeysRecursive_idem x, sortKeysElems_idem xs]
theorem sortKeysProps_idem : ∀ ps : List (String × JSValue),
    sortKeysProps (sortKeysProps ps) = sortKeysProps ps
  | [] => rfl
  | (k, v) :: ps => by
    simp only [sortKeysProps, sortKeysRecursive_idem v, sortKeysProps_idem ps]
end

/-! ## Lemmas on serialization -/

theorem toJSON_eq_none (v : JSValue) : toJSON v = none ↔ v = .undefined := by
  cases v <;> simp [toJSON]

theorem sortKeysRecursive_eq_undefined (v : JSValue) :
    sortKeysRecursive v = .undefined ↔ v = .undefined := by
  cases v <;> simp [sortKeysRecursive]

theorem lookupProp_toJSONProps (name : String) (ps : List (String × JSValue))
    (hdef : ∀ p ∈ ps, p.2 ≠ JSValue.undefined) :
    lookupProp name (toJSONProps ps) = (lookupProp name ps).bind toJSON := by
  induction ps with
  | nil => rfl
  | cons p ps ih =>
    obtain ⟨k, v⟩ := p
    have hv : v ≠ JSValue.undefined := hdef (k, v) (List.mem_cons_self _ _)
    have ih2 := ih (fun p hp => hdef p (List.mem_cons_of_mem _ hp))
    cases hj : toJSON v with
    | none => exact absurd ((toJSON_eq_none v).1 hj) hv
    | some j =>
      by_cases h : k = name <;> simp [toJSONProps, lookupProp, hj, h, ih2]

theorem allJSON_iff (xs : List JSValue) :
    allJSON xs = true ↔ ∀ x ∈ xs, x.isJSON = true := by
  induction xs with
  | nil => simp [allJSON]
  | cons x xs ih => simp [allJSON, ih]

theorem allJSONProps_iff (ps : List (String × JSValue)) :
    allJSONProps ps = true ↔ ∀ p ∈ ps, p.2.isJSON = true := by
  induction ps with
  | nil => simp [allJSONProps]
  | cons p ps ih =>
    obtain ⟨k, v⟩ := p
    simp [allJSONProps, ih]

mutual
theorem toJSON_of_isJSON : ∀ v : JSValue, v.isJSON = true → toJSON v = some v
  | .undefined, h => by simp [JSValue.isJSON] at h
  | .null, _ => rfl
  | .bool _, _ => rfl
  | .num n, h => by
    simp only [JSValue.isJSON] at h
    simp [toJSON, h]
  | .str _, _ => rfl
  | .arr xs, h => by
    simp only [JSValue.isJSON] at h
    simp only [toJSON, toJSONElems_of_allJSON xs h]
  | .obj ps, h => by
    simp only [JSValue.isJSON] at h
    simp only [toJSON, toJSONProps_of_allJSONProps ps h]
theorem toJSONElems_of_allJSON : ∀ xs : List JSValue, allJSON xs = true → toJSONElems xs = xs
  | [], _ => rfl
  | x :: xs, h => by
    simp only [allJSON, Bool.and_eq_true] at h
    simp only [toJSONElems, toJSON_of_isJSON x h.1, toJSONElems_of_allJSON xs h.2,
      Option.getD_some]
theorem toJSONProps_of_allJSONProps : ∀ ps : List (String × JSValue),
    allJSONProps ps = true → toJSONProps ps = ps
  | [], _ => rfl
  | (k, v) :: ps, h => by
    simp only [allJSONProps, Bool.and_eq_true] at h
    simp only [toJSONProps, toJSON_of_isJSON v h.1, toJSONProps_of_allJSONProps ps h.2]
end

theorem allJSONProps_insertionSort (ps : List (String × JSValue)) :
    allJSONProps (List.insertionSort keyLE ps) = allJSONProps ps := by
  rw [Bool.eq_iff_iff, allJSONProps_iff, allJSONProps_iff]
  constructor
  · intro h p hp
    exact h p ((List.mem_insertionSort keyLE).2 hp)
  · intro h p hp
    exact h p ((List.mem_insertionSort keyLE).1 hp)

mutual
theorem isJSON_sortKeysRecursive : ∀ v : JSValue,
    v.isJSON = true → (sortKeysRecursive v).isJSON = true
  | .undefined, h => h
  | .null, h => h
  | .bool _, h => h
  | .num _, h => h
  | .str _, h => h
  | .arr xs, h => by
    simp only [JSValue.isJSON] at h
    simp only [sortKeysRecursive, JSValue.isJSON, allJSON_sortKeysElems xs h]
  | .obj ps, h => by
    simp only [JSValue.isJSON] at h
    simp only [sortKeysRecursive, JSValue.isJSON, allJSONProps_insertionSort,
      allJSONProps_sortKeysProps ps h]
theorem allJSON_sortKeysElems : ∀ xs : List JSValue,
    allJSON xs = true → allJSON (sortKeysElems xs) = true
  | [], h => h
  | x :: xs, h => by
    simp only [allJSON, Bool.and_eq_true] at h
    simp only [sortKeysElems, allJSON, isJSON_sortKeysRecursive x h.1,
      allJSON_sortKeysElems xs h.2, Bool.and_self]
theorem allJSONProps_sortKeysProps : ∀ ps : List (String × JSValue),
    allJSONProps ps = true → allJSONProps (sortKeysProps ps) = true
  | [], h => h
  | (k, v) :: ps, h => by
    simp only [allJSONProps, Bool.and_eq_true] at h
    simp only [sortKeysProps, allJSONProps, isJSON_sortKeysRecursive v h.1,
      allJSONProps_sortKeysProps ps h.2, Bool.and_self]
end

theorem isJSON_ne_undefined (v : JSValue) (h : v.isJSON = true) : v ≠ .undefined := by
  intro hv
  subst hv
  simp [JSValue.isJSON] at h

theorem isJSON_of_lookupProp (name : String) (ps : List (String × JSValue)) (v : JSValue)
    (hps : allJSONProps ps = true) (h : lookupProp name ps = some v) : v.isJSON = true :=
  (allJSONProps_iff ps).1 hps (name, v) (lookupProp_mem name ps v h)

theorem toJSONElems_append (xs ys : List JSValue) :
    toJSONElems (xs ++ ys) = toJSONElems xs ++ toJSONElems ys := by
  induction xs with
  | nil => rfl
  | cons x xs ih => simp [toJSONElems, ih]

theorem sortKeysElems_append (xs ys : List JSValue) :
    sortKeysElems (xs ++ ys) = sortKeysElems xs ++ sortKeysElems ys := by
  induction xs with
  | nil => rfl
  | cons x xs ih => simp [sortKeysElems, ih]

theorem mem_sortKeysProps (ps : List (String × JSValue)) (p : String × JSValue)
    (hp : p ∈ sortKeysProps ps) : ∃ q ∈ ps, p = (q.1, sortKeysRecursive q.2) := by
  induction ps with
  | nil => simp [sortKeysProps] at hp
  | cons q ps ih =>
    obtain ⟨k, v⟩ := q
    simp only [sortKeysProps, List.mem_cons] at hp
    rcases hp with hp | hp
    · exact ⟨(k, v), List.mem_cons_self _ _, hp⟩
    · obtain ⟨q, hq, he⟩ := ih hp
      exact ⟨q, List.mem_cons_of_mem _ hq, he⟩

/-- The buffer written by `putState` for an object: its properties sorted by key, at any
depth, then serialized. -/
theorem from_stringify_sortKeysRecursive (ps : List (String × JSValue)) :
    Buffer.from (stringify (sortKeysRecursive (.obj ps))) =
      .ok (.json (.obj (toJSONProps (List.insertionSort keyLE (sortKeysProps ps))))) := by
  simp only [stringify, sortKeysRecursive_idem]
  simp only [sortKeysRecursive, JSON.stringify, toJSON, Option.map, Buffer.from]

/-- Reading a property of the persisted form of an object none of whose properties is
`undefined`. -/
theorem lookupProp_persisted (name : String) (ps : List (String × JSValue))
    (hdef : ∀ p ∈ ps, p.2 ≠ JSValue.undefined) :
    lookupProp name (toJSONProps (List.insertionSort keyLE (sortKeysProps ps))) =
      (lookupProp name ps).bind (fun v => toJSON (sortKeysRecursive v)) := by
  rw [lookupProp_toJSONProps, lookupProp_insertionSort, lookupProp_sortKeysProps]
  · cases lookupProp name ps <;> rfl
  · intro p hp
    obtain ⟨q, hq, he⟩ := mem_sortKeysProps ps p ((List.mem_insertionSort keyLE).1 hp)
    rw [he]
    intro hu
    exact hdef q hq ((sortKeysRecursive_eq_undefined q.2).1 hu)

/-! ## The registrar check -/

theorem registrar_check (ctx : Context) :
    (_getMSP ctx ≠ "Org1MSP" ∨ _getAttr ctx "role" ≠ some "gov") ↔ ¬ ctx.isRegistrar := by
  unfold Context.isRegistrar _getMSP _getAttr
  cases h : ctx.clientIdentity.getAttributeValue "role" with
  | error e => simp
  | ok v =>
    cases v with
    | none => simp
    | some s => simp [imp_iff_not_or]

theorem registrarCtx_isRegistrar : registrarCtx.isRegistrar := by
  constructor
  · rfl
  · rfl

theorem from_stringify_eq_persisted (ps : List (String × JSValue)) :
    Buffer.from (stringify (sortKeysRecursive (.obj ps))) = .ok (.json (persisted (.obj ps))) := by
  rw [from_stringify_sortKeysRecursive]
  rfl

theorem persisted_get (name : String) (ps : List (String × JSValue))
    (hdef : ∀ p ∈ ps, p.2 ≠ JSValue.undefined) :
    (persisted (.obj ps)).get name =
      .ok (((lookupProp name ps).map persisted).getD .undefined) := by
  have h : persisted (.obj ps) =
      .obj (toJSONProps (List.insertionSort keyLE (sortKeysProps ps))) := rfl
  rw [h]
  simp only [JSValue.get, lookupProp_persisted name ps hdef]
  cases hl : lookupProp name ps with
  | none => rfl
  | some v =>
    have hv : v ≠ JSValue.undefined := hdef (name, v) (lookupProp_mem name ps v hl)
    cases hj : toJSON (sortKeysRecursive v) with
    | none =>
      exact absurd ((sortKeysRecursive_eq_undefined v).1 ((toJSON_eq_none _).1 hj)) hv
    | some j => simp [persisted, serialized, hj]

theorem serialized_get (name : String) (ps : List (String × JSValue))
    (hdef : ∀ p ∈ ps, p.2 ≠ JSValue.undefined) :
    (serialized (.obj ps)).get name =
      .ok (((lookupProp name ps).map serialized).getD .undefined) := by
  have h : serialized (.obj ps) = .obj (toJSONProps ps) := rfl
  rw [h]
  simp only [JSValue.get, lookupProp_toJSONProps name ps hdef]
  cases hl : lookupProp name ps with
  | none => rfl
  | some v =>
    have hv : v ≠ JSValue.undefined := hdef (name, v) (lookupProp_mem name ps v hl)
    cases hj : toJSON v with
    | none => exact absurd ((toJSON_eq_none _).1 hj) hv
    | some j => simp [serialized, hj]

/-- What `CreateLand` does for a registrar on a key that holds no record. -/
theorem CreateLand_of_registrar_free (ctx : Context) (w : World) (a : CreateLandArgs)
    (hreg : ctx.isRegistrar) (hfree : w a.landId = none ∨ w a.landId = some (.raw "")) :
    CreateLand ctx w a =
      ⟨.ok (some (.json (serialized (newLand ctx a)))),
        putState w a.landId (.json (persisted (newLand ctx a))),
        [.getState a.landId, .putState a.landId (.json (persisted (newLand ctx a)))]⟩ := by
  have hc : ¬ (_getMSP ctx ≠ "Org1MSP" ∨ _getAttr ctx "role" ≠ some "gov") := by
    rw [registrar_check]
    exact not_not.2 hreg
  have hb : Buffer.from (stringify (sortKeysRecursive (newLand ctx a))) =
      .ok (.json (persisted (newLand ctx a))) := from_stringify_eq_persisted _
  have hs : JSON.stringify (newLand ctx a) = some (.json (serialized (newLand ctx a))) := rfl
  unfold CreateLand
  simp only [hc, if_false]
  rcases hfree with h | h
  · simp [h, hb, hs]
  · simp [h, hb, hs, Text.isEmpty]

/-- What `CreateLand` does for a registrar on a key that holds a record. -/
theorem CreateLand_of_registrar_taken (ctx : Context) (w : World) (a : CreateLandArgs)
    (hreg : ctx.isRegistrar) (b : Buffer) (hb : w a.landId = some b)
    (hne : b.isEmpty = false) :
    CreateLand ctx w a =
      ⟨.error (.error ("❌ Land " ++ a.landId ++ " already exists")), w,
        [.getState a.landId]⟩ := by
  have hc : ¬ (_getMSP ctx ≠ "Org1MSP" ∨ _getAttr ctx "role" ≠ some "gov") := by
    rw [registrar_check]
    exact not_not.2 hreg
  unfold CreateLand
  simp [hc, hb, hne]

/-! ## Claims -/

/-- C1: for every ledger state and argument list, when the caller's organisation is not
`Org1MSP` or its `role` attribute is not `gov` (the lookup may also throw, or yield
`null`), `CreateLand` fails with the registrar-only error (`Unauthorized`), leaves the
ledger as it was and does not even read the key. -/
theorem CreateLand_unauthorized (ctx : Context) (w : World) (a : CreateLandArgs)
    (h : ctx.clientIdentity.getMSPID ≠ "Org1MSP" ∨
      ctx.clientIdentity.getAttributeValue "role" ≠ .ok (some "gov")) :
    CreateLand ctx w a =
      ⟨.error (.error "❌ Only Government registrar (Org1, role=gov) can create land records"),
        w, []⟩ := by
  have hc : _getMSP ctx ≠ "Org1MSP" ∨ _getAttr ctx "role" ≠ some "gov" := by
    rw [registrar_check]
    intro hr
    rcases h with h | h
    · exact h hr.1
    · exact h hr.2
  unfold CreateLand
  simp only [hc, if_true]

theorem CreateLand_unauthorized_witness :
    CreateLand userCtx (putState emptyWorld "LAND0010" (.json (persisted (newLand registrarCtx sampleArgs)))) sampleArgs =
      ⟨.error (.error "❌ Only Government registrar (Org1, role=gov) can create land records"),
        putState emptyWorld "LAND0010" (.json (persisted (newLand registrarCtx sampleArgs))), []⟩ :=
  CreateLand_unauthorized userCtx _ sampleArgs (Or.inr (by simp [userCtx]))

/-- C2: when two registrar calls of `CreateLand` use the same `landId`, the second one fails
with the already-exists error (`AlreadyExists`) and leaves the ledger exactly as the first
call left it. -/
theorem CreateLand_twice (ctx ctx2 : Context) (w : World) (a a2 : CreateLandArgs)
    (hreg : ctx.isRegistrar) (hreg2 : ctx2.isRegistrar) (hid : a2.landId = a.landId) :
    CreateLand ctx2 (CreateLand ctx w a).state a2 =
      ⟨.error (.error ("❌ Land " ++ a.landId ++ " already exists")),
        (CreateLand ctx w a).state, [.getState a.landId]⟩ := by
  rw [← hid]
  cases hw : w a.landId with
  | none =>
    rw [CreateLand_of_registrar_free ctx w a hreg (Or.inl hw)]
    exact CreateLand_of_registrar_taken ctx2 _ a2 hreg2 (.json (persisted (newLand ctx a)))
      (by simp [putState, hid]) rfl
  | some b =>
    cases hb : b.isEmpty with
    | true =>
      have hraw : b = .raw "" := by
        cases b with
        | raw s => simpa [Text.isEmpty] using hb
        | json v => simp [Text.isEmpty] at hb
      rw [CreateLand_of_registrar_free ctx w a hreg (Or.inr (by rw [hw, hraw]))]
      exact CreateLand_of_registrar_taken ctx2 _ a2 hreg2 (.json (persisted (newLand ctx a)))
        (by simp [putState, hid]) rfl
    | false =>
      rw [CreateLand_of_registrar_taken ctx w a hreg b hw hb]
      exact CreateLand_of_registrar_taken ctx2 w a2 hreg2 b (by rw [hid]; exact hw) hb

theorem CreateLand_twice_witness :
    CreateLand registrarCtx (CreateLand registrarCtx emptyWorld sampleArgs).state sampleArgs =
      ⟨.error (.error ("❌ Land " ++ sampleArgs.landId ++ " already exists")),
        (CreateLand registrarCtx emptyWorld sampleArgs).state, [.getState sampleArgs.landId]⟩ :=
  CreateLand_twice registrarCtx registrarCtx emptyWorld sampleArgs sampleArgs
    registrarCtx_isRegistrar registrarCtx_isRegistrar rfl

/-- No property of the object literal built by `CreateLand` is `undefined`. -/
theorem newLand_defined (ctx : Context) (a : CreateLandArgs) :
    ∃ ps, newLand ctx a = .obj ps ∧ ∀ p ∈ ps, p.2 ≠ JSValue.undefined := by
  refine ⟨_, rfl, ?_⟩
  intro p hp
  simp only [List.mem_cons, List.mem_singleton, List.not_mem_nil, or_false] at hp
  rcases hp with h | h | h | h | h | h | h | h | h | h | h | h | h | h | h | h | h | h | h | h | h | h <;>
    · rw [h]
      exact JSValue.noConfusion

/-- Reading a property of the record that `CreateLand` stores. -/
theorem persisted_newLand_get (ctx : Context) (a : CreateLandArgs) (name : String) :
    ∃ ps, newLand ctx a = .obj ps ∧ (persisted (newLand ctx a)).get name =
      .ok (((lookupProp name ps).map persisted).getD .undefined) := by
  obtain ⟨ps, h1, h2⟩ := newLand_defined ctx a
  exact ⟨ps, h1, by rw [h1]; exact persisted_get name ps h2⟩

theorem persisted_num (n : JSNumber) :
    persisted (.num n) = if n.isFinite = true then .num n else .null := rfl

/-- C3: for a registrar, a key that holds no record and numeric arguments that parse to
finite numbers, `CreateLand` succeeds and a following `ReadLand` of the same `landId`, by
any caller, returns the stored record: `legalStatus` REGISTERED, `currentStatus` OWNED,
empty `previousOwners`, a history of exactly one entry, of action CREATED, and every
supplied field equal to its argument (numeric ones to the number parsed). -/
theorem CreateLand_then_ReadLand (ctx reader : Context) (w : World) (a : CreateLandArgs)
    (hreg : ctx.isRegistrar) (hfree : w a.landId = none ∨ w a.landId = some (.raw ""))
    (harea : (Number a.area).isFinite = true)
    (hvalue : (Number a.marketValue).isFinite = true)
    (hlat : (Number a.lat).isFinite = true) (hlong : (Number a.long).isFinite = true) :
    (∃ ret, (CreateLand ctx w a).result = .ok (some ret)) ∧
    ReadLand reader (CreateLand ctx w a).state a.landId =
      ⟨.ok (.json (persisted (newLand ctx a))), (CreateLand ctx w a).state,
        [.getState a.landId]⟩ ∧
    (persisted (newLand ctx a)).get "legalStatus" = .ok (.str "REGISTERED") ∧
    (persisted (newLand ctx a)).get "currentStatus" = .ok (.str "OWNED") ∧
    (persisted (newLand ctx a)).get "previousOwners" = .ok (.arr []) ∧
    (persisted (newLand ctx a)).get "history" = .ok (.arr [.obj [
      ("action", .str "CREATED"), ("by", .str "Registrar_001"),
      ("timestamp", .str (ctx.now 0)), ("txId", .str ctx.stub.getTxID)]]) ∧
    (persisted (newLand ctx a)).get "landId" = .ok (.str a.landId) ∧
    (persisted (newLand ctx a)).get "owner" = .ok (.str a.owner) ∧
    (persisted (newLand ctx a)).get "ownerName" = .ok (.str a.ownerName) ∧
    (persisted (newLand ctx a)).get "titleNumber" = .ok (.str a.titleNumber) ∧
    (persisted (newLand ctx a)).get "landType" = .ok (.str a.landType) ∧
    (persisted (newLand ctx a)).get "ownershipType" = .ok (.str a.ownershipType) ∧
    (persisted (newLand ctx a)).get "area" = .ok (.num (Number a.area)) ∧
    (persisted (newLand ctx a)).get "unit" = .ok (.str a.unit) ∧
    (persisted (newLand ctx a)).get "surveyNumber" = .ok (.str a.surveyNumber) ∧
    (persisted (newLand ctx a)).get "mutationNumber" = .ok (.str a.mutationNumber) ∧
    (persisted (newLand ctx a)).get "location" = .ok (.str a.location) ∧
    (persisted (newLand ctx a)).get "coordinates" = .ok (.obj [
      ("lat", .num (Number a.lat)), ("long", .num (Number a.long))]) ∧
    (persisted (newLand ctx a)).get "boundary" = .ok (.obj [
      ("east", .str a.east), ("north", .str a.north),
      ("south", .str a.south), ("west", .str a.west)]) ∧
    (persisted (newLand ctx a)).get "marketValue" = .ok (.num (Number a.marketValue)) ∧
    (persisted (newLand ctx a)).get "docHash" = .ok (.str a.docHash) := by
  have hget := persisted_newLand_get ctx a
  rw [CreateLand_of_registrar_free ctx w a hreg hfree]
  refine ⟨⟨_, rfl⟩, ?_, ?_, ?_, ?_, ?_, ?_, ?_, ?_, ?_, ?_, ?_, ?_, ?_, ?_, ?_, ?_, ?_, ?_, ?_, ?_⟩
  · simp [ReadLand, putState, Text.isEmpty, Buffer.toString]
  · obtain ⟨ps, h1, h2⟩ := hget "legalStatus"
    rw [h2]; cases h1; rfl
  · obtain ⟨ps, h1, h2⟩ := hget "currentStatus"
    rw [h2]; cases h1; rfl
  · obtain ⟨ps, h1, h2⟩ := hget "previousOwners"
    rw [h2]; cases h1; rfl
  · obtain ⟨ps, h1, h2⟩ := hget "history"
    rw [h2]; cases h1; rfl
  · obtain ⟨ps, h1, h2⟩ := hget "landId"
    rw [h2]; cases h1; rfl
  · obtain ⟨ps, h1, h2⟩ := hget "owner"
    rw [h2]; cases h1; rfl
  · obtain ⟨ps, h1, h2⟩ := hget "ownerName"
    rw [h2]; cases h1; rfl
  · obtain ⟨ps, h1, h2⟩ := hget "titleNumber"
    rw [h2]; cases h1; rfl
  · obtain ⟨ps, h1, h2⟩ := hget "landType"
    rw [h2]; cases h1; rfl
  · obtain ⟨ps, h1, h2⟩ := hget "ownershipType"
    rw [h2]; cases h1; rfl
  · obtain ⟨ps, h1, h2⟩ := hget "area"
    rw [h2]; cases h1
    show Except.ok (persisted (.num (Number a.area))) = _
    rw [persisted_num, if_pos harea]
  · obtain ⟨ps, h1, h2⟩ := hget "unit"
    rw [h2]; cases h1; rfl
  · obtain ⟨ps, h1, h2⟩ := hget "surveyNumber"
    rw [h2]; cases h1; rfl
  · obtain ⟨ps, h1, h2⟩ := hget "mutationNumber"
    rw [h2]; cases h1; rfl
  · obtain ⟨ps, h1, h2⟩ := hget "location"
    rw [h2]; cases h1; rfl
  · obtain ⟨ps, h1, h2⟩ := hget "coordinates"
    rw [h2]; cases h1
    show Except.ok (JSValue.obj [("lat", persisted (.num (Number a.lat))),
      ("long", persisted (.num (Number a.long)))]) = _
    rw [persisted_num, persisted_num, if_pos hlat, if_pos hlong]
  · obtain ⟨ps, h1, h2⟩ := hget "boundary"
    rw [h2]; cases h1; rfl
  · obtain ⟨ps, h1, h2⟩ := hget "marketValue"
    rw [h2]; cases h1
    show Except.ok (persisted (.num (Number a.marketValue))) = _
    rw [persisted_num, if_pos hvalue]
  · obtain ⟨ps, h1, h2⟩ := hget "docHash"
    rw [h2]; cases h1; rfl

theorem CreateLand_then_ReadLand_witness :
    registrarCtx.isRegistrar ∧ emptyWorld sampleArgs.landId = none ∧
    (Number sampleArgs.area).isFinite = true ∧
    ReadLand userCtx (CreateLand registrarCtx emptyWorld sampleArgs).state "LAND0010" =
      ⟨.ok (.json (persisted (newLand registrarCtx sampleArgs))),
        (CreateLand registrarCtx emptyWorld sampleArgs).state, [.getState "LAND0010"]⟩ ∧
    (persisted (newLand registrarCtx sampleArgs)).get "legalStatus" =
      .ok (.str "REGISTERED") ∧
    (persisted (newLand registrarCtx sampleArgs)).get "area" =
      .ok (.num (.fin false 1500 0)) :=
  have h := CreateLand_then_ReadLand registrarCtx userCtx emptyWorld sampleArgs
    registrarCtx_isRegistrar (Or.inl rfl) (by decide) (by decide) (by decide) (by decide)
  ⟨registrarCtx_isRegistrar, rfl, by decide, h.2.1, h.2.2.1,
    h.2.2.2.2.2.2.2.2.2.2.2.2.1⟩

/-- C4, as the code behaves: for a registrar and a key that holds no record, `CreateLand`
succeeds whatever `area`, `marketValue`, `lat` and `long` are, and writes the record; an
argument among them that does not parse to a finite number is stored as `null`. There is
no invalid-argument error. -/
theorem CreateLand_numeric_arguments (ctx : Context) (w : World) (a : CreateLandArgs)
    (hreg : ctx.isRegistrar) (hfree : w a.landId = none ∨ w a.landId = some (.raw "")) :
    CreateLand ctx w a =
      ⟨.ok (some (.json (serialized (newLand ctx a)))),
        putState w a.landId (.json (persisted (newLand ctx a))),
        [.getState a.landId, .putState a.landId (.json (persisted (newLand ctx a)))]⟩ ∧
    (persisted (newLand ctx a)).get "area" =
      .ok (if (Number a.area).isFinite = true then .num (Number a.area) else .null) ∧
    (persisted (newLand ctx a)).get "marketValue" =
      .ok (if (Number a.marketValue).isFinite = true then .num (Number a.marketValue)
        else .null) ∧
    (persisted (newLand ctx a)).get "coordinates" = .ok (.obj [
      ("lat", if (Number a.lat).isFinite = true then .num (Number a.lat) else .null),
      ("long", if (Number a.long).isFinite = true then .num (Number a.long) else .null)]) := by
  have hget := persisted_newLand_get ctx a
  refine ⟨CreateLand_of_registrar_free ctx w a hreg hfree, ?_, ?_, ?_⟩
  · obtain ⟨ps, h1, h2⟩ := hget "area"
    rw [h2]; cases h1; rfl
  · obtain ⟨ps, h1, h2⟩ := hget "marketValue"
    rw [h2]; cases h1; rfl
  · obtain ⟨ps, h1, h2⟩ := hget "coordinates"
    rw [h2]; cases h1; rfl

theorem CreateLand_numeric_arguments_witness :
    registrarCtx.isRegistrar ∧ emptyWorld badAreaArgs.landId = none ∧
    (CreateLand registrarCtx emptyWorld badAreaArgs).result =
      .ok (some (.json (serialized (newLand registrarCtx badAreaArgs)))) ∧
    (persisted (newLand registrarCtx badAreaArgs)).get "area" = .ok .null ∧
    Number overflowArgs.area = .inf false ∧ Number overflowArgs.marketValue = .inf true ∧
    (CreateLand registrarCtx emptyWorld overflowArgs).result =
      .ok (some (.json (serialized (newLand registrarCtx overflowArgs)))) ∧
    (persisted (newLand registrarCtx overflowArgs)).get "area" = .ok .null ∧
    (persisted (newLand registrarCtx overflowArgs)).get "marketValue" = .ok .null :=
  have h := CreateLand_numeric_arguments registrarCtx emptyWorld badAreaArgs
    registrarCtx_isRegistrar (Or.inl rfl)
  have h2 := CreateLand_numeric_arguments registrarCtx emptyWorld overflowArgs
    registrarCtx_isRegistrar (Or.inl rfl)
  ⟨registrarCtx_isRegistrar, rfl, by rw [h.1], h.2.1, rfl, rfl, by rw [h2.1], h2.2.1,
    h2.2.2.1⟩

/-- C4, counterexample: a registrar creates `LAND0010` on the empty ledger with the area
`abc`, which is not a numeric literal. The call does not fail: it returns the record and
writes it, with `area` stored as `null`. -/
theorem CreateLand_invalid_area_accepted :
    Number badAreaArgs.area = JSNumber.nan ∧
    registrarCtx.isRegistrar ∧ emptyWorld badAreaArgs.landId = none ∧
    (CreateLand registrarCtx emptyWorld badAreaArgs).result =
      .ok (some (.json (serialized (newLand registrarCtx badAreaArgs)))) ∧
    (CreateLand registrarCtx emptyWorld badAreaArgs).calls =
      [.getState "LAND0010",
        .putState "LAND0010" (.json (persisted (newLand registrarCtx badAreaArgs)))] ∧
    (CreateLand registrarCtx emptyWorld badAreaArgs).state "LAND0010" =
      some (.json (persisted (newLand registrarCtx badAreaArgs))) ∧
    (persisted (newLand registrarCtx badAreaArgs)).get "area" = .ok .null := by
  have h := CreateLand_of_registrar_free registrarCtx emptyWorld badAreaArgs
    registrarCtx_isRegistrar (Or.inl rfl)
  refine ⟨by decide, registrarCtx_isRegistrar, rfl, by rw [h], by rw [h]; rfl, ?_, ?_⟩
  · rw [h]
    simp [putState, badAreaArgs]
  · obtain ⟨ps, h1, h2⟩ := persisted_newLand_get registrarCtx badAreaArgs "area"
    rw [h2]; cases h1; rfl

/-- C5: `ReadLand` checks no authorization and never changes the ledger; it fails with
the not-found error exactly when no value is stored at `landId` or the stored value is
empty, and otherwise returns exactly the stored value. -/
theorem ReadLand_spec (ctx : Context) (w : World) (landId : String) :
    (ReadLand ctx w landId).state = w ∧
    ((ReadLand ctx w landId).result = .error (.error ("❌ Land " ++ landId ++ " not found")) ↔
      (w landId = none ∨ w landId = some (.raw ""))) ∧
    (∀ data, w landId = some data → data ≠ .raw "" →
      (ReadLand ctx w landId).result = .ok data) := by
  unfold ReadLand
  cases hw : w landId with
  | none => simp
  | some data =>
    cases data with
    | raw s =>
      by_cases hs : s = ""
      · subst hs
        simp [Text.isEmpty]
      · simp [Text.isEmpty, hs, Buffer.toString]
    | json v => simp [Text.isEmpty, Buffer.toString]

theorem ReadLand_spec_witness :
    (ReadLand ownerCtx (CreateLand registrarCtx emptyWorld sampleArgs).state "LAND0010").result =
      .ok (.json (persisted (newLand registrarCtx sampleArgs))) ∧
    (ReadLand ownerCtx emptyWorld "LAND9999").result =
      .error (.error "❌ Land LAND9999 not found") :=
  ⟨(ReadLand_spec ownerCtx (CreateLand registrarCtx emptyWorld sampleArgs).state
      "LAND0010").2.2 (.json (persisted (newLand registrarCtx sampleArgs))) rfl
      Text.noConfusion,
    (ReadLand_spec ownerCtx emptyWorld "LAND9999").2.1.2 (Or.inl rfl)⟩

theorem strictEqStr_eq_true (v : JSValue) (s : String) :
    v.strictEqStr s = true ↔ v = .str s := by
  cases v <;> simp [JSValue.strictEqStr]

theorem strictEqStr_eq_false (v : JSValue) (s : String) :
    v.strictEqStr s = false ↔ v ≠ .str s := by
  rw [Ne, ← strictEqStr_eq_true]
  cases v.strictEqStr s <;> simp

/-- C6: for every stored record and every caller whose identity is not the record's
`owner`, `InitiateTransfer` fails with the owner-only error (`Unauthorized`) and leaves
the ledger, hence the stored record, unchanged, whatever the record's `legalStatus`. -/
theorem InitiateTransfer_not_owner (ctx : Context) (w : World)
    (landId proposedBuyer price agreementHash : String) (props : List (String × JSValue))
    (hrec : w landId = some (.json (.obj props)))
    (hown : (JSValue.obj props).get "owner" ≠ .ok (.str ctx.clientIdentity.getID)) :
    InitiateTransfer ctx w landId proposedBuyer price agreementHash =
      ⟨.error (.error "❌ Only current owner can initiate a transfer"), w,
        [.getState landId]⟩ := by
  have h1 : ((lookupProp "owner" props).getD .undefined).strictEqStr ctx.clientIdentity.getID
      = false := by
    rw [strictEqStr_eq_false]
    intro h
    apply hown
    simp only [JSValue.get, h]
  unfold InitiateTransfer
  simp [hrec, Text.isEmpty, Buffer.toString, JSON.parse, JSValue.get, _getClientId, h1,
    bind, Except.bind, pure, Except.pure, throw, throwThe, MonadExceptOf.throw]

/-- C7: for every stored record whose `legalStatus` is PENDING_TRANSFER, `InitiateTransfer`
called by the record's owner fails with the already-initiated error (`ConflictingState`)
and leaves the ledger unchanged, so the stored pending transfer is not replaced. -/
theorem InitiateTransfer_already_pending (ctx : Context) (w : World)
    (landId proposedBuyer price agreementHash : String) (props : List (String × JSValue))
    (hrec : w landId = some (.json (.obj props)))
    (hown : (JSValue.obj props).get "owner" = .ok (.str ctx.clientIdentity.getID))
    (hpending : (JSValue.obj props).get "legalStatus" = .ok (.str "PENDING_TRANSFER")) :
    InitiateTransfer ctx w landId proposedBuyer price agreementHash =
      ⟨.error (.error "⚠️ Transfer already initiated for this land"), w,
        [.getState landId]⟩ := by
  simp only [JSValue.get, Except.ok.injEq] at hown hpending
  unfold InitiateTransfer
  simp [hrec, Text.isEmpty, Buffer.toString, JSON.parse, JSValue.get, _getClientId, hown,
    hpending, JSValue.strictEqStr, bind, Except.bind, pure, Except.pure, throw, throwThe, MonadExceptOf.throw]

/-- The properties of the record once `InitiateTransfer` has made its three assignments
to a record with properties `props` and history `hist`. -/
theorem InitiateTransfer_of_owner (ctx : Context) (w : World)
    (landId proposedBuyer price agreementHash : String) (props : List (String × JSValue))
    (hist : List JSValue)
    (hrec : w landId = some (.json (.obj props)))
    (hown : lookupProp "owner" props = some (.str ctx.clientIdentity.getID))
    (hstatus : lookupProp "legalStatus" props ≠ some (.str "PENDING_TRANSFER"))
    (hhist : lookupProp "history" props = some (.arr hist)) :
    ∃ ps, ps = assignProp "history" (.arr (hist ++ [.obj [
          ("txId", .str ctx.stub.getTxID),
          ("action", .str "TRANSFER_INITIATED"),
          ("by", .str ctx.clientIdentity.getID),
          ("timestamp", .str (ctx.now 1))]]))
        (assignProp "legalStatus" (.str "PENDING_TRANSFER")
          (assignProp "pendingTransfer" (.obj [
            ("proposedBuyer", .str proposedBuyer),
            ("price", .num (Number price)),
            ("agreementHash", .str agreementHash),
            ("initiatedBy", .str ctx.clientIdentity.getID),
            ("initiatedAt", .str (ctx.now 0))]) props)) ∧
      InitiateTransfer ctx w landId proposedBuyer price agreementHash =
        ⟨.ok (some (.json (serialized (.obj ps)))),
          putState w landId (.json (persisted (.obj ps))),
          [.getState landId, .putState landId (.json (persisted (.obj ps)))]⟩ := by
  refine ⟨_, rfl, ?_⟩
  have h2 : ((lookupProp "legalStatus" props).getD .undefined).strictEqStr "PENDING_TRANSFER"
      = false := by
    rw [strictEqStr_eq_false]
    intro h
    apply hstatus
    cases hl : lookupProp "legalStatus" props with
    | none =>
      rw [hl] at h
      cases h
    | some v =>
      rw [hl] at h
      simp only [Option.getD_some] at h
      rw [h]
  have h1 : ((lookupProp "owner" props).getD .undefined).strictEqStr ctx.clientIdentity.getID
      = true := by
    rw [hown]
    simp [JSValue.strictEqStr]
  unfold InitiateTransfer
  simp [hrec, Text.isEmpty, Buffer.toString, JSON.parse, JSValue.get, JSValue.set,
    JSValue.push, _getClientId, h1, h2, hhist, lookupProp_assignProp,
    from_stringify_eq_persisted, JSON.stringify, toJSON, serialized,
    bind, Except.bind, pure, Except.pure, throw, throwThe, MonadExceptOf.throw]

theorem lookupProp_of_get (name : String) (props : List (String × JSValue)) (v : JSValue)
    (h : (JSValue.obj props).get name = .ok v) (hv : v ≠ .undefined) :
    lookupProp name props = some v := by
  simp only [JSValue.get, Except.ok.injEq] at h
  cases hl : lookupProp name props with
  | none =>
    rw [hl] at h
    exact absurd h.symm hv
  | some x =>
    rw [hl] at h
    simp only [Option.getD_some] at h
    rw [h]

theorem serialized_of_isJSON (v : JSValue) (h : v.isJSON = true) : serialized v = v := by
  simp [serialized, toJSON_of_isJSON v h]

theorem persisted_of_isJSON (v : JSValue) (h : v.isJSON = true) :
    persisted v = sortKeysRecursive v :=
  serialized_of_isJSON _ (isJSON_sortKeysRecursive v h)

theorem serialized_arr_append (xs ys : List JSValue) (h : allJSON xs = true) :
    serialized (.arr (xs ++ ys)) = .arr (xs ++ toJSONElems ys) := by
  simp [serialized, toJSON, toJSONElems_append, toJSONElems_of_allJSON xs h]

theorem persisted_arr_append (xs ys : List JSValue) (h : allJSON xs = true) :
    persisted (.arr (xs ++ ys)) = .arr (sortKeysElems xs ++ toJSONElems (sortKeysElems ys)) := by
  simp [persisted, serialized, sortKeysRecursive, toJSON, sortKeysElems_append,
    toJSONElems_append, toJSONElems_of_allJSON _ (allJSON_sortKeysElems xs h)]

theorem sortKeysRecursive_get (name : String) (props : List (String × JSValue)) :
    (sortKeysRecursive (.obj props)).get name =
      .ok (((lookupProp name props).map sortKeysRecursive).getD .undefined) := by
  simp only [sortKeysRecursive, JSValue.get, lookupProp_insertionSort,
    lookupProp_sortKeysProps]

/-- A property that an operation does not assign is returned as it was stored. -/
theorem serialized_get_unassigned (name : String) (props ps : List (String × JSValue))
    (hjson : allJSONProps props = true) (hdef : ∀ p ∈ ps, p.2 ≠ JSValue.undefined)
    (hsame : lookupProp name ps = lookupProp name props) :
    (serialized (.obj ps)).get name = (JSValue.obj props).get name := by
  rw [serialized_get name ps hdef, hsame]
  cases hl : lookupProp name props with
  | none => simp [JSValue.get, hl]
  | some v =>
    simp [JSValue.get, hl, serialized_of_isJSON v (isJSON_of_lookupProp name props v hjson hl)]

/-- A property that an operation does not assign is stored as it was, its keys sorted. -/
theorem persisted_get_unassigned (name : String) (props ps : List (String × JSValue))
    (hjson : allJSONProps props = true) (hdef : ∀ p ∈ ps, p.2 ≠ JSValue.undefined)
    (hsame : lookupProp name ps = lookupProp name props) :
    (persisted (.obj ps)).get name = (sortKeysRecursive (.obj props)).get name := by
  rw [persisted_get name ps hdef, hsame, sortKeysRecursive_get]
  cases hl : lookupProp name props with
  | none => rfl
  | some v =>
    simp [persisted_of_isJSON v (isJSON_of_lookupProp name props v hjson hl)]

theorem assignProp_defined (k : String) (x : JSValue) (ps : List (String × JSValue))
    (hx : x ≠ .undefined) (hps : ∀ p ∈ ps, p.2 ≠ JSValue.undefined) :
    ∀ p ∈ assignProp k x ps, p.2 ≠ JSValue.undefined := by
  intro p hp
  rcases mem_assignProp k x ps p hp with h | h
  · rw [h]
    exact hx
  · exact hps p h

theorem defined_of_allJSONProps (ps : List (String × JSValue)) (h : allJSONProps ps = true) :
    ∀ p ∈ ps, p.2 ≠ JSValue.undefined :=
  fun p hp => isJSON_ne_undefined p.2 ((allJSONProps_iff ps).1 h p hp)

/-- C8: for every stored record that is not PENDING_TRANSFER, with a history, and a caller
equal to its owner, `InitiateTransfer` succeeds with one read and one write of `landId`.
The record `land` it returns (serialized as built) and stores (serialized with sorted keys)
has `pendingTransfer` made of the proposed buyer, the price converted by `Number` (`null`
when it is not finite), the agreement hash, the caller and the first clock reading, has
`legalStatus` PENDING_TRANSFER, and has the old history followed by one entry of action
TRANSFER_INITIATED by the caller, stamped with the second clock reading. Every other
property, `owner` and `previousOwners` among them, is as it was stored (in the stored form
up to the sorting of keys). -/
theorem InitiateTransfer_effect (ctx : Context) (w : World)
    (landId proposedBuyer price agreementHash : String) (props : List (String × JSValue))
    (hist : List JSValue)
    (hrec : w landId = some (.json (.obj props)))
    (hjson : (JSValue.obj props).isJSON = true)
    (hown : (JSValue.obj props).get "owner" = .ok (.str ctx.clientIdentity.getID))
    (hstatus : (JSValue.obj props).get "legalStatus" ≠ .ok (.str "PENDING_TRANSFER"))
    (hhist : (JSValue.obj props).get "history" = .ok (.arr hist)) :
    ∃ land : JSValue,
      InitiateTransfer ctx w landId proposedBuyer price agreementHash =
        ⟨.ok (some (.json (serialized land))),
          putState w landId (.json (persisted land)),
          [.getState landId, .putState landId (.json (persisted land))]⟩ ∧
      (serialized land).get "pendingTransfer" = .ok (.obj [
        ("proposedBuyer", .str proposedBuyer),
        ("price", if (Number price).isFinite = true then .num (Number price) else .null),
        ("agreementHash", .str agreementHash),
        ("initiatedBy", .str ctx.clientIdentity.getID),
        ("initiatedAt", .str (ctx.now 0))]) ∧
      (serialized land).get "legalStatus" = .ok (.str "PENDING_TRANSFER") ∧
      (serialized land).get "history" = .ok (.arr (hist ++ [.obj [
        ("txId", .str ctx.stub.getTxID),
        ("action", .str "TRANSFER_INITIATED"),
        ("by", .str ctx.clientIdentity.getID),
        ("timestamp", .str (ctx.now 1))]])) ∧
      (∀ name, name ≠ "pendingTransfer" → name ≠ "legalStatus" → name ≠ "history" →
        (serialized land).get name = (JSValue.obj props).get name) ∧
      (persisted land).get "pendingTransfer" = .ok (.obj [
        ("agreementHash", .str agreementHash),
        ("initiatedAt", .str (ctx.now 0)),
        ("initiatedBy", .str ctx.clientIdentity.getID),
        ("price", if (Number price).isFinite = true then .num (Number price) else .null),
        ("proposedBuyer", .str proposedBuyer)]) ∧
      (persisted land).get "legalStatus" = .ok (.str "PENDING_TRANSFER") ∧
      (persisted land).get "history" = .ok (.arr (sortKeysElems hist ++ [.obj [
        ("action", .str "TRANSFER_INITIATED"),
        ("by", .str ctx.clientIdentity.getID),
        ("timestamp", .str (ctx.now 1)),
        ("txId", .str ctx.stub.getTxID)]])) ∧
      (∀ name, name ≠ "pendingTransfer" → name ≠ "legalStatus" → name ≠ "history" →
        (persisted land).get name = (sortKeysRecursive (.obj props)).get name) := by
  have hown2 := lookupProp_of_get _ _ _ hown JSValue.noConfusion
  have hhist2 := lookupProp_of_get _ _ _ hhist JSValue.noConfusion
  have hstatus2 : lookupProp "legalStatus" props ≠ some (.str "PENDING_TRANSFER") := by
    intro h
    apply hstatus
    simp only [JSValue.get, h, Option.getD_some]
  have hps : allJSONProps props = true := by
    simpa only [JSValue.isJSON] using hjson
  have hhistJSON : allJSON hist = true := by
    have h := isJSON_of_lookupProp "history" props _ hps hhist2
    simpa only [JSValue.isJSON] using h
  obtain ⟨ps, hps3, hrun⟩ := InitiateTransfer_of_owner ctx w landId proposedBuyer price
    agreementHash props hist hrec hown2 hstatus2 hhist2
  have hdef : ∀ p ∈ ps, p.2 ≠ JSValue.undefined := by
    rw [hps3]
    exact assignProp_defined _ _ _ JSValue.noConfusion
      (assignProp_defined _ _ _ JSValue.noConfusion
        (assignProp_defined _ _ _ JSValue.noConfusion (defined_of_allJSONProps props hps)))
  have hother : ∀ name, name ≠ "pendingTransfer" → name ≠ "legalStatus" → name ≠ "history" →
      lookupProp name ps = lookupProp name props := by
    intro name n1 n2 n3
    rw [hps3]
    simp only [lookupProp_assignProp, if_neg (Ne.symm n1), if_neg (Ne.symm n2),
      if_neg (Ne.symm n3)]
  refine ⟨.obj ps, hrun, ?_, ?_, ?_, ?_, ?_, ?_, ?_, ?_⟩
  · rw [serialized_get _ _ hdef, hps3]
    simp only [lookupProp_assignProp]
    rfl
  · rw [serialized_get _ _ hdef, hps3]
    simp only [lookupProp_assignProp]
    rfl
  · rw [serialized_get _ _ hdef, hps3]
    simp only [lookupProp_assignProp]
    simp only [if_true, Option.map_some', Option.getD_some,
      serialized_arr_append _ _ hhistJSON]
    rfl
  · intro name n1 n2 n3
    exact serialized_get_unassigned name props ps hps hdef (hother name n1 n2 n3)
  · rw [persisted_get _ _ hdef, hps3]
    simp only [lookupProp_assignProp]
    rfl
  · rw [persisted_get _ _ hdef, hps3]
    simp only [lookupProp_assignProp]
    rfl
  · rw [persisted_get _ _ hdef, hps3]
    simp only [lookupProp_assignProp]
    simp only [if_true, Option.map_some', Option.getD_some,
      persisted_arr_append _ _ hhistJSON]
    rfl
  · intro name n1 n2 n3
    exact persisted_get_unassigned name props ps hps hdef (hother name n1 n2 n3)

theorem persisted_newLand_sample : persisted (newLand registrarCtx sampleArgs) = sampleLand := by
  rfl

theorem InitiateTransfer_not_owner_witness :
    sampleWorld "LAND0010" = some (.json (.obj sampleLandProps)) ∧
    (JSValue.obj sampleLandProps).get "owner" = .ok (.str "Aadhar_5555") ∧
    userCtx.clientIdentity.getID = "Aadhar_1234" ∧
    InitiateTransfer userCtx sampleWorld "LAND0010" "Aadhar_9876" "6000000" "sha256:agree" =
      ⟨.error (.error "❌ Only current owner can initiate a transfer"), sampleWorld,
        [.getState "LAND0010"]⟩ :=
  ⟨rfl, rfl, rfl,
    InitiateTransfer_not_owner userCtx sampleWorld "LAND0010" "Aadhar_9876" "6000000"
      "sha256:agree" sampleLandProps rfl (by
        rw [show (JSValue.obj sampleLandProps).get "owner" = .ok (.str "Aadhar_5555") from rfl]
        intro h
        injection h with h
        injection h with h
        exact absurd h (by decide))⟩

theorem InitiateTransfer_sample :
    (InitiateTransfer ownerCtx sampleWorld "LAND0010" "Aadhar_7777" "500000" "sha256:x").state
      "LAND0010" = pendingWorld "LAND0010" := by
  rfl

theorem InitiateTransfer_already_pending_witness :
    pendingWorld "LAND0010" = some (.json (.obj pendingLandProps)) ∧
    (JSValue.obj pendingLandProps).get "owner" = .ok (.str ownerCtx.clientIdentity.getID) ∧
    (JSValue.obj pendingLandProps).get "legalStatus" = .ok (.str "PENDING_TRANSFER") ∧
    InitiateTransfer ownerCtx pendingWorld "LAND0010" "Aadhar_9999" "1" "sha256:y" =
      ⟨.error (.error "⚠️ Transfer already initiated for this land"), pendingWorld,
        [.getState "LAND0010"]⟩ :=
  ⟨rfl, rfl, rfl,
    InitiateTransfer_already_pending ownerCtx pendingWorld "LAND0010" "Aadhar_9999" "1"
      "sha256:y" pendingLandProps rfl rfl rfl⟩

theorem InitiateTransfer_effect_witness :
    sampleWorld "LAND0010" = some (.json (.obj sampleLandProps)) ∧
    (JSValue.obj sampleLandProps).isJSON = true ∧
    (JSValue.obj sampleLandProps).get "owner" = .ok (.str ownerCtx.clientIdentity.getID) ∧
    (JSValue.obj sampleLandProps).get "legalStatus" = .ok (.str "REGISTERED") ∧
    ∃ land : JSValue,
      InitiateTransfer ownerCtx sampleWorld "LAND0010" "Aadhar_7777" "500000" "sha256:x" =
        ⟨.ok (some (.json (serialized land))),
          putState sampleWorld "LAND0010" (.json (persisted land)),
          [.getState "LAND0010", .putState "LAND0010" (.json (persisted land))]⟩ ∧
      (persisted land).get "legalStatus" = .ok (.str "PENDING_TRANSFER") ∧
      (persisted land).get "owner" = .ok (.str "Aadhar_5555") := by
  obtain ⟨land, hrun, _, _, _, _, _, hstatus, _, hother⟩ :=
    InitiateTransfer_effect ownerCtx sampleWorld "LAND0010" "Aadhar_7777" "500000"
      "sha256:x" sampleLandProps
      [.obj [("action", .str "CREATED"), ("by", .str "Registrar_001"),
        ("timestamp", .str "2025-11-04T10:00:00.000Z"), ("txId", .str "TX12345")]]
      rfl rfl rfl
      (by
        rw [show (JSValue.obj sampleLandProps).get "legalStatus" = .ok (.str "REGISTERED")
          from rfl]
        intro h
        injection h with h
        injection h with h
        exact absurd h (by decide))
      rfl
  exact ⟨rfl, rfl, rfl, rfl, land, hrun, hstatus,
    (hother "owner" (by decide) (by decide) (by decide)).trans rfl⟩

/-- What `ApproveTransfer` does for a caller that is not a registrar. -/
theorem ApproveTransfer_of_not_registrar (ctx : Context) (w : World) (landId : String)
    (h : ¬ ctx.isRegistrar) :
    ApproveTransfer ctx w landId =
      ⟨.error (.error "❌ Only government registrar (Org1, role=gov) can approve transfers"),
        w, []⟩ := by
  have hc : _getMSP ctx ≠ "Org1MSP" ∨ _getAttr ctx "role" ≠ some "gov" :=
    (registrar_check ctx).2 h
  unfold ApproveTransfer
  simp only [hc, if_true]

/-- C9: `ApproveTransfer` by a caller that is not a registrar fails with the registrar-only
error (`Unauthorized`) for every ledger state, without reading the key; by a registrar on
a stored record whose `pendingTransfer` is absent or `null` it fails with the
nothing-pending error (`ConflictingState`); by a registrar on an absent or empty key it
fails with the not-found error. In each case the ledger is unchanged. -/
theorem ApproveTransfer_failures :
    (∀ (ctx : Context) (w : World) (landId : String),
      (ctx.clientIdentity.getMSPID ≠ "Org1MSP" ∨
        ctx.clientIdentity.getAttributeValue "role" ≠ .ok (some "gov")) →
      ApproveTransfer ctx w landId =
        ⟨.error (.error "❌ Only government registrar (Org1, role=gov) can approve transfers"),
          w, []⟩) ∧
    (∀ (ctx : Context) (w : World) (landId : String) (props : List (String × JSValue)),
      ctx.isRegistrar → w landId = some (.json (.obj props)) →
      (lookupProp "pendingTransfer" props = none ∨
        lookupProp "pendingTransfer" props = some .null) →
      ApproveTransfer ctx w landId =
        ⟨.error (.error "⚠️ No transfer request pending for this land"), w,
          [.getState landId]⟩) ∧
    (∀ (ctx : Context) (w : World) (landId : String),
      ctx.isRegistrar → (w landId = none ∨ w landId = some (.raw "")) →
      ApproveTransfer ctx w landId =
        ⟨.error (.error ("❌ Land " ++ landId ++ " not found")), w, [.getState landId]⟩) := by
  refine ⟨?_, ?_, ?_⟩
  · intro ctx w landId h
    apply ApproveTransfer_of_not_registrar
    intro hr
    rcases h with h | h
    · exact h hr.1
    · exact h hr.2
  · intro ctx w landId props hreg hrec hpt
    have hc : ¬ (_getMSP ctx ≠ "Org1MSP" ∨ _getAttr ctx "role" ≠ some "gov") := by
      rw [registrar_check]
      exact not_not.2 hreg
    unfold ApproveTransfer
    rcases hpt with h | h <;>
      simp [hc, hrec, Text.isEmpty, Buffer.toString, JSON.parse, JSValue.get, h,
        JSValue.truthy, bind, Except.bind, pure, Except.pure, throw, throwThe,
        MonadExceptOf.throw]
  · intro ctx w landId hreg hw
    have hc : ¬ (_getMSP ctx ≠ "Org1MSP" ∨ _getAttr ctx "role" ≠ some "gov") := by
      rw [registrar_check]
      exact not_not.2 hreg
    unfold ApproveTransfer
    rcases hw with h | h <;> simp [hc, h, Text.isEmpty]

theorem ApproveTransfer_failures_witness :
    ApproveTransfer userCtx pendingWorld "LAND0010" =
      ⟨.error (.error "❌ Only government registrar (Org1, role=gov) can approve transfers"),
        pendingWorld, []⟩ ∧
    ApproveTransfer userCtx emptyWorld "LAND0010" =
      ⟨.error (.error "❌ Only government registrar (Org1, role=gov) can approve transfers"),
        emptyWorld, []⟩ ∧
    ApproveTransfer registrarCtx sampleWorld "LAND0010" =
      ⟨.error (.error "⚠️ No transfer request pending for this land"), sampleWorld,
        [.getState "LAND0010"]⟩ ∧
    ApproveTransfer registrarCtx emptyWorld "LAND0010" =
      ⟨.error (.error "❌ Land LAND0010 not found"), emptyWorld, [.getState "LAND0010"]⟩ :=
  ⟨ApproveTransfer_failures.1 userCtx pendingWorld "LAND0010" (Or.inr (by simp [userCtx])),
    ApproveTransfer_failures.1 userCtx emptyWorld "LAND0010" (Or.inr (by simp [userCtx])),
    ApproveTransfer_failures.2.1 registrarCtx sampleWorld "LAND0010" sampleLandProps
      registrarCtx_isRegistrar rfl (Or.inl rfl),
    ApproveTransfer_failures.2.2 registrarCtx emptyWorld "LAND0010"
      registrarCtx_isRegistrar (Or.inl rfl)⟩

/-- The record that `ApproveTransfer` builds, returns and stores for a registrar, from a
stored record that has an owner, a pending transfer with a proposed buyer, a list of
previous owners and a history. -/
theorem ApproveTransfer_of_pending (ctx : Context) (w : World) (landId : String)
    (props pt : List (String × JSValue)) (prev hist : List JSValue) (oldOwner newOwner : JSValue)
    (hreg : ctx.isRegistrar)
    (hrec : w landId = some (.json (.obj props)))
    (hown : lookupProp "owner" props = some oldOwner)
    (hpt : lookupProp "pendingTransfer" props = some (.obj pt))
    (hbuyer : lookupProp "proposedBuyer" pt = some newOwner)
    (hprev : lookupProp "previousOwners" props = some (.arr prev))
    (hhist : lookupProp "history" props = some (.arr hist)) :
    ∃ ps, ps =
        assignProp "lastUpdated" (.str (ctx.now 2))
        (assignProp "history" (.arr (hist ++ [.obj [
            ("txId", .str ctx.stub.getTxID),
            ("action", .str "TRANSFER_APPROVED"),
            ("from", oldOwner),
            ("to", newOwner),
            ("timestamp", .str (ctx.now 1))]]))
        (assignProp "pendingTransfer" .null
        (assignProp "currentStatus" (.str "OWNED")
        (assignProp "legalStatus" (.str "REGISTERED")
        (assignProp "ownerName" newOwner
        (assignProp "owner" newOwner
        (assignProp "previousOwners" (.arr (prev ++ [.obj [
            ("owner", oldOwner),
            ("to", .str (ctx.now 0))]])) props))))))) ∧
      ApproveTransfer ctx w landId =
        ⟨.ok (some (.json (serialized (.obj ps)))),
          putState w landId (.json (persisted (.obj ps))),
          [.getState landId, .putState landId (.json (persisted (.obj ps)))]⟩ := by
  refine ⟨_, rfl, ?_⟩
  have hc : ¬ (_getMSP ctx ≠ "Org1MSP" ∨ _getAttr ctx "role" ≠ some "gov") := by
    rw [registrar_check]
    exact not_not.2 hreg
  unfold ApproveTransfer
  simp [hc, hrec, Text.isEmpty, Buffer.toString, JSON.parse, JSValue.get, JSValue.set,
    JSValue.push, JSValue.truthy, hown, hpt, hbuyer, hprev, hhist, lookupProp_assignProp,
    from_stringify_eq_persisted, JSON.stringify, toJSON, serialized,
    bind, Except.bind, pure, Except.pure, throw, throwThe, MonadExceptOf.throw]

/-- C10: for every stored record with an owner, a pending transfer naming a proposed
buyer, a list of previous owners and a history, and for a registrar caller,
`ApproveTransfer` succeeds with one read and one write of `landId`. The record `land` it
returns (serialized as built) and stores (serialized with sorted keys) has `previousOwners`
equal to the old list followed by the old owner with the first clock reading, `owner` and
`ownerName` equal to the proposed buyer, `legalStatus` REGISTERED, `currentStatus` OWNED,
`pendingTransfer` null, the old history followed by one entry of action TRANSFER_APPROVED
from the old owner to the new one (second clock reading), and `lastUpdated` equal to the
third clock reading. Every other property, `landId` among them, is as it was stored (in the
stored form up to the sorting of keys). -/
theorem ApproveTransfer_effect (ctx : Context) (w : World) (landId : String)
    (props pt : List (String × JSValue)) (prev hist : List JSValue) (oldOwner newOwner : String)
    (hreg : ctx.isRegistrar)
    (hrec : w landId = some (.json (.obj props)))
    (hjson : (JSValue.obj props).isJSON = true)
    (hown : (JSValue.obj props).get "owner" = .ok (.str oldOwner))
    (hpt : (JSValue.obj props).get "pendingTransfer" = .ok (.obj pt))
    (hbuyer : (JSValue.obj pt).get "proposedBuyer" = .ok (.str newOwner))
    (hprev : (JSValue.obj props).get "previousOwners" = .ok (.arr prev))
    (hhist : (JSValue.obj props).get "history" = .ok (.arr hist)) :
    ∃ land : JSValue,
      ApproveTransfer ctx w landId =
        ⟨.ok (some (.json (serialized land))),
          putState w landId (.json (persisted land)),
          [.getState landId, .putState landId (.json (persisted land))]⟩ ∧
      (serialized land).get "previousOwners" = .ok (.arr (prev ++ [.obj [
        ("owner", .str oldOwner), ("to", .str (ctx.now 0))]])) ∧
      (serialized land).get "owner" = .ok (.str newOwner) ∧
      (serialized land).get "ownerName" = .ok (.str newOwner) ∧
      (serialized land).get "legalStatus" = .ok (.str "REGISTERED") ∧
      (serialized land).get "currentStatus" = .ok (.str "OWNED") ∧
      (serialized land).get "pendingTransfer" = .ok .null ∧
      (serialized land).get "history" = .ok (.arr (hist ++ [.obj [
        ("txId", .str ctx.stub.getTxID),
        ("action", .str "TRANSFER_APPROVED"),
        ("from", .str oldOwner),
        ("to", .str newOwner),
        ("timestamp", .str (ctx.now 1))]])) ∧
      (serialized land).get "lastUpdated" = .ok (.str (ctx.now 2)) ∧
      (∀ name, name ≠ "previousOwners" → name ≠ "owner" → name ≠ "ownerName" →
        name ≠ "legalStatus" → name ≠ "currentStatus" → name ≠ "pendingTransfer" →
        name ≠ "history" → name ≠ "lastUpdated" →
        (serialized land).get name = (JSValue.obj props).get name) ∧
      (persisted land).get "previousOwners" = .ok (.arr (sortKeysElems prev ++ [.obj [
        ("owner", .str oldOwner), ("to", .str (ctx.now 0))]])) ∧
      (persisted land).get "owner" = .ok (.str newOwner) ∧
      (persisted land).get "ownerName" = .ok (.str newOwner) ∧
      (persisted land).get "legalStatus" = .ok (.str "REGISTERED") ∧
      (persisted land).get "currentStatus" = .ok (.str "OWNED") ∧
      (persisted land).get "pendingTransfer" = .ok .null ∧
      (persisted land).get "history" = .ok (.arr (sortKeysElems hist ++ [.obj [
        ("action", .str "TRANSFER_APPROVED"),
        ("from", .str oldOwner),
        ("timestamp", .str (ctx.now 1)),
        ("to", .str newOwner),
        ("txId", .str ctx.stub.getTxID)]])) ∧
      (persisted land).get "lastUpdated" = .ok (.str (ctx.now 2)) ∧
      (∀ name, name ≠ "previousOwners" → name ≠ "owner" → name ≠ "ownerName" →
        name ≠ "legalStatus" → name ≠ "currentStatus" → name ≠ "pendingTransfer" →
        name ≠ "history" → name ≠ "lastUpdated" →
        (persisted land).get name = (sortKeysRecursive (.obj props)).get name) := by
  have hown2 := lookupProp_of_get _ _ _ hown JSValue.noConfusion
  have hpt2 := lookupProp_of_get _ _ _ hpt JSValue.noConfusion
  have hbuyer2 := lookupProp_of_get _ _ _ hbuyer JSValue.noConfusion
  have hprev2 := lookupProp_of_get _ _ _ hprev JSValue.noConfusion
  have hhist2 := lookupProp_of_get _ _ _ hhist JSValue.noConfusion
  have hps : allJSONProps props = true := by
    simpa only [JSValue.isJSON] using hjson
  have hhistJSON : allJSON hist = true := by
    have h := isJSON_of_lookupProp "history" props _ hps hhist2
    simpa only [JSValue.isJSON] using h
  have hprevJSON : allJSON prev = true := by
    have h := isJSON_of_lookupProp "previousOwners" props _ hps hprev2
    simpa only [JSValue.isJSON] using h
  obtain ⟨ps, hps3, hrun⟩ := ApproveTransfer_of_pending ctx w landId props pt prev hist
    (.str oldOwner) (.str newOwner) hreg hrec hown2 hpt2 hbuyer2 hprev2 hhist2
  have hdef : ∀ p ∈ ps, p.2 ≠ JSValue.undefined := by
    rw [hps3]
    exact assignProp_defined _ _ _ JSValue.noConfusion
      (assignProp_defined _ _ _ JSValue.noConfusion
      (assignProp_defined _ _ _ JSValue.noConfusion
      (assignProp_defined _ _ _ JSValue.noConfusion
      (assignProp_defined _ _ _ JSValue.noConfusion
      (assignProp_defined _ _ _ JSValue.noConfusion
      (assignProp_defined _ _ _ JSValue.noConfusion
      (assignProp_defined _ _ _ JSValue.noConfusion
        (defined_of_allJSONProps props hps))))))))
  have hother : ∀ name, name ≠ "previousOwners" → name ≠ "owner" → name ≠ "ownerName" →
      name ≠ "legalStatus" → name ≠ "currentStatus" → name ≠ "pendingTransfer" →
      name ≠ "history" → name ≠ "lastUpdated" →
      lookupProp name ps = lookupProp name props := by
    intro name n1 n2 n3 n4 n5 n6 n7 n8
    rw [hps3]
    simp only [lookupProp_assignProp, if_neg (Ne.symm n1), if_neg (Ne.symm n2),
      if_neg (Ne.symm n3), if_neg (Ne.symm n4), if_neg (Ne.symm n5), if_neg (Ne.symm n6),
      if_neg (Ne.symm n7), if_neg (Ne.symm n8)]
  refine ⟨.obj ps, hrun, ?_, ?_, ?_, ?_, ?_, ?_, ?_, ?_, ?_, ?_, ?_, ?_, ?_, ?_, ?_, ?_, ?_, ?_⟩
  · rw [serialized_get _ _ hdef, hps3]
    simp only [lookupProp_assignProp]
    show Except.ok (serialized (.arr (prev ++ _))) = _
    rw [serialized_arr_append _ _ hprevJSON]
    rfl
  · rw [serialized_get _ _ hdef, hps3]
    simp only [lookupProp_assignProp]
    rfl
  · rw [serialized_get _ _ hdef, hps3]
    simp only [lookupProp_assignProp]
    rfl
  · rw [serialized_get _ _ hdef, hps3]
    simp only [lookupProp_assignProp]
    rfl
  · rw [serialized_get _ _ hdef, hps3]
    simp only [lookupProp_assignProp]
    rfl
  · rw [serialized_get _ _ hdef, hps3]
    simp only [lookupProp_assignProp]
    rfl
  · rw [serialized_get _ _ hdef, hps3]
    simp only [lookupProp_assignProp]
    show Except.ok (serialized (.arr (hist ++ _))) = _
    rw [serialized_arr_append _ _ hhistJSON]
    rfl
  · rw [serialized_get _ _ hdef, hps3]
    simp only [lookupProp_assignProp]
    rfl
  · intro name n1 n2 n3 n4 n5 n6 n7 n8
    exact serialized_get_unassigned name props ps hps hdef
      (hother name n1 n2 n3 n4 n5 n6 n7 n8)
  · rw [persisted_get _ _ hdef, hps3]
    simp only [lookupProp_assignProp]
    show Except.ok (persisted (.arr (prev ++ _))) = _
    rw [persisted_arr_append _ _ hprevJSON]
    rfl
  · rw [persisted_get _ _ hdef, hps3]
    simp only [lookupProp_assignProp]
    rfl
  · rw [persisted_get _ _ hdef, hps3]
    simp only [lookupProp_assignProp]
    rfl
  · rw [persisted_get _ _ hdef, hps3]
    simp only [lookupProp_assignProp]
    rfl
  · rw [persisted_get _ _ hdef, hps3]
    simp only [lookupProp_assignProp]
    rfl
  · rw [persisted_get _ _ hdef, hps3]
    simp only [lookupProp_assignProp]
    rfl
  · rw [persisted_get _ _ hdef, hps3]
    simp only [lookupProp_assignProp]
    show Except.ok (persisted (.arr (hist ++ _))) = _
    rw [persisted_arr_append _ _ hhistJSON]
    rfl
  · rw [persisted_get _ _ hdef, hps3]
    simp only [lookupProp_assignProp]
    rfl
  · intro name n1 n2 n3 n4 n5 n6 n7 n8
    exact persisted_get_unassigned name props ps hps hdef
      (hother name n1 n2 n3 n4 n5 n6 n7 n8)

theorem ApproveTransfer_sample :
    (ApproveTransfer registrarCtx pendingWorld "LAND0010").state "LAND0010" =
      some (.json (.obj approvedLandProps)) := by
  rfl

theorem ApproveTransfer_effect_witness :
    registrarCtx.isRegistrar ∧
    pendingWorld "LAND0010" = some (.json (.obj pendingLandProps)) ∧
    (JSValue.obj pendingLandProps).isJSON = true ∧
    (JSValue.obj pendingLandProps).get "owner" = .ok (.str "Aadhar_5555") ∧
    ∃ land : JSValue,
      ApproveTransfer registrarCtx pendingWorld "LAND0010" =
        ⟨.ok (some (.json (serialized land))),
          putState pendingWorld "LAND0010" (.json (persisted land)),
          [.getState "LAND0010", .putState "LAND0010" (.json (persisted land))]⟩ ∧
      (persisted land).get "owner" = .ok (.str "Aadhar_7777") ∧
      (persisted land).get "pendingTransfer" = .ok .null ∧
      (persisted land).get "previousOwners" = .ok (.arr [.obj [
        ("owner", .str "Aadhar_5555"), ("to", .str "2025-11-04T10:00:00.000Z")]]) ∧
      (persisted land).get "landId" = .ok (.str "LAND0010") := by
  obtain ⟨land, hrun, _, _, _, _, _, _, _, _, _, hprev, hown, _, _, _, hpt, _, _, hother⟩ :=
    ApproveTransfer_effect registrarCtx pendingWorld "LAND0010" pendingLandProps
      [("agreementHash", .str "sha256:x"),
        ("initiatedAt", .str "2025-11-06T09:00:00.000Z"), ("initiatedBy", .str "Aadhar_5555"),
        ("price", .num (.fin false 500000 0)), ("proposedBuyer", .str "Aadhar_7777")]
      []
      [.obj [("action", .str "CREATED"), ("by", .str "Registrar_001"),
          ("timestamp", .str "2025-11-04T10:00:00.000Z"), ("txId", .str "TX12345")],
        .obj [("action", .str "TRANSFER_INITIATED"), ("by", .str "Aadhar_5555"),
          ("timestamp", .str "2025-11-06T09:00:00.001Z"), ("txId", .str "TX12347")]]
      "Aadhar_5555" "Aadhar_7777" registrarCtx_isRegistrar rfl rfl rfl rfl rfl rfl rfl
  exact ⟨registrarCtx_isRegistrar, rfl, rfl, rfl, land, hrun, hown, hpt, hprev,
    (hother "landId" (by decide) (by decide) (by decide) (by decide) (by decide)
      (by decide) (by decide) (by decide)).trans rfl⟩

/-! ## The stored form of a record -/

theorem persisted_obj (ps : List (String × JSValue)) :
    persisted (.obj ps) = .obj (storedProps ps) := rfl

mutual
theorem isJSON_toJSON : ∀ (v j : JSValue), toJSON v = some j → j.isJSON = true
  | .undefined, _, h => by simp [toJSON] at h
  | .null, _, h => by
    simp only [toJSON, Option.some.injEq] at h
    subst h
    rfl
  | .bool _, _, h => by
    simp only [toJSON, Option.some.injEq] at h
    subst h
    rfl
  | .num n, _, h => by
    simp only [toJSON, Option.some.injEq] at h
    subst h
    cases hn : n.isFinite <;> simp [JSValue.isJSON, hn]
  | .str _, _, h => by
    simp only [toJSON, Option.some.injEq] at h
    subst h
    rfl
  | .arr xs, _, h => by
    simp only [toJSON, Option.some.injEq] at h
    subst h
    simp only [JSValue.isJSON, allJSON_toJSONElems xs]
  | .obj ps, _, h => by
    simp only [toJSON, Option.some.injEq] at h
    subst h
    simp only [JSValue.isJSON, allJSONProps_toJSONProps ps]
theorem allJSON_toJSONElems : ∀ xs : List JSValue, allJSON (toJSONElems xs) = true
  | [] => rfl
  | x :: xs => by
    simp only [toJSONElems, allJSON, allJSON_toJSONElems xs, Bool.and_true]
    cases hx : toJSON x with
    | none => rfl
    | some j => exact isJSON_toJSON x j hx
theorem allJSONProps_toJSONProps : ∀ ps : List (String × JSValue),
    allJSONProps (toJSONProps ps) = true
  | [] => rfl
  | (k, v) :: ps => by
    cases hv : toJSON v with
    | none => simp only [toJSONProps, hv, allJSONProps_toJSONProps ps]
    | some j =>
      simp only [toJSONProps, hv, allJSONProps, isJSON_toJSON v j hv,
        allJSONProps_toJSONProps ps, Bool.and_self]
end

theorem allJSONProps_storedProps (ps : List (String × JSValue)) :
    allJSONProps (storedProps ps) = true :=
  allJSONProps_toJSONProps _

theorem isJSON_persisted_obj (ps : List (String × JSValue)) :
    (persisted (.obj ps)).isJSON = true := by
  rw [persisted_obj]
  simp only [JSValue.isJSON, allJSONProps_storedProps]

/-- Reading one property through serialization: it is enough that this property is not
`undefined`. -/
theorem lookupProp_toJSONProps_of_ne (name : String) (ps : List (String × JSValue))
    (h : lookupProp name ps ≠ some JSValue.undefined) :
    lookupProp name (toJSONProps ps) = (lookupProp name ps).bind toJSON := by
  induction ps with
  | nil => rfl
  | cons p ps ih =>
    obtain ⟨k, v⟩ := p
    by_cases hk : k = name
    · simp only [lookupProp, hk, if_true] at h
      have hv : v ≠ JSValue.undefined := fun hv => h (by rw [hv])
      cases hj : toJSON v with
      | none => exact absurd ((toJSON_eq_none v).1 hj) hv
      | some j => simp [toJSONProps, lookupProp, hj, hk]
    · simp only [lookupProp, hk, if_false] at h
      cases hj : toJSON v with
      | none => simp [toJSONProps, lookupProp, hj, hk, ih h]
      | some j => simp [toJSONProps, lookupProp, hj, hk, ih h]

/-- Reading one property of the stored form of an object. -/
theorem lookupProp_storedProps (name : String) (ps : List (String × JSValue))
    (h : lookupProp name ps ≠ some JSValue.undefined) :
    lookupProp name (storedProps ps) = (lookupProp name ps).map persisted := by
  have h2 : lookupProp name (List.insertionSort keyLE (sortKeysProps ps)) ≠
      some JSValue.undefined := by
    rw [lookupProp_insertionSort, lookupProp_sortKeysProps]
    cases hl : lookupProp name ps with
    | none => simp
    | some v =>
      simp only [Option.map_some', ne_eq, Option.some.injEq]
      intro hu
      apply h
      rw [hl, (sortKeysRecursive_eq_undefined v).1 hu]
  unfold storedProps
  rw [lookupProp_toJSONProps_of_ne name _ h2, lookupProp_insertionSort,
    lookupProp_sortKeysProps]
  cases hl : lookupProp name ps with
  | none => rfl
  | some v =>
    have hv : v ≠ JSValue.undefined := fun hv => h (by rw [hl, hv])
    cases hj : toJSON (sortKeysRecursive v) with
    | none =>
      exact absurd ((sortKeysRecursive_eq_undefined v).1 ((toJSON_eq_none _).1 hj)) hv
    | some j => simp [persisted, serialized, hj]

theorem lookupProp_storedProps_some (name : String) (ps : List (String × JSValue))
    (v : JSValue) (h : lookupProp name ps = some v) (hv : v ≠ .undefined) :
    lookupProp name (storedProps ps) = some (persisted v) := by
  rw [lookupProp_storedProps name ps (by rw [h]; simpa using hv), h]
  rfl

theorem lookupProp_storedProps_none (name : String) (ps : List (String × JSValue))
    (h : lookupProp name ps = none) : lookupProp name (storedProps ps) = none := by
  rw [lookupProp_storedProps name ps (by rw [h]; simp), h]
  rfl

theorem persisted_str (s : String) : persisted (.str s) = .str s := rfl

theorem persisted_null : persisted .null = .null := rfl

theorem persisted_arr_of_allJSON (xs : List JSValue) (h : allJSON xs = true) :
    persisted (.arr xs) = .arr (sortKeysElems xs) := by
  have h2 : (JSValue.arr xs).isJSON = true := by simpa only [JSValue.isJSON] using h
  rw [persisted_of_isJSON _ h2]
  simp only [sortKeysRecursive]

/-- What `InitLedger` does, for every caller and every ledger state. -/
theorem InitLedger_eq (ctx : Context) (w : World) :
    ∃ ps, initialLands ctx = [.obj ps] ∧ (∀ p ∈ ps, p.2 ≠ JSValue.undefined) ∧
      InitLedger ctx w =
        ⟨.ok (), putState w "LAND0001" (.json (.obj (storedProps ps))),
          [.putState "LAND0001" (.json (.obj (storedProps ps)))]⟩ := by
  refine ⟨_, rfl, ?_, ?_⟩
  · intro p hp
    simp only [List.mem_cons, List.mem_singleton, List.not_mem_nil, or_false] at hp
    rcases hp with h | h | h | h | h | h | h | h | h | h | h | h | h | h | h | h | h | h | h | h | h <;>
      · rw [h]
        exact JSValue.noConfusion
  · simp only [InitLedger, initialLands, InitLedger.loop, from_stringify_eq_persisted,
      persisted_obj, JSValue.get, lookupProp, if_true, Option.getD_some, List.nil_append]

/-- C24: for every caller (no authorization check) and every ledger state, `InitLedger`
succeeds with exactly one stub call, a write under the key `LAND0001`. The record written
depends on the invocation only (transaction id and timestamp), not on the ledger: it is
REGISTERED, owned by `Aadhar_1234`, with one previous owner, a one-entry history and no
pending transfer. So whatever was stored at `LAND0001` is replaced by it. -/
theorem InitLedger_effect (ctx : Context) :
    ∃ land : JSValue,
      (∀ w : World, InitLedger ctx w =
        ⟨.ok (), putState w "LAND0001" (.json land), [.putState "LAND0001" (.json land)]⟩) ∧
      (∀ w : World, (InitLedger ctx w).state "LAND0001" = some (.json land)) ∧
      land.get "landId" = .ok (.str "LAND0001") ∧
      land.get "legalStatus" = .ok (.str "REGISTERED") ∧
      land.get "currentStatus" = .ok (.str "OWNED") ∧
      land.get "owner" = .ok (.str "Aadhar_1234") ∧
      land.get "ownerName" = .ok (.str "Akhil Kumar") ∧
      land.get "pendingTransfer" = .ok .undefined ∧
      land.get "previousOwners" = .ok (.arr [.obj [("from", .str "2015-01-01"),
        ("owner", .str "Aadhar_1111"), ("to", .str "2025-11-04")]]) ∧
      land.get "history" = .ok (.arr [.obj [("action", .str "CREATED"),
        ("by", .str "Registrar_001"), ("timestamp", .str ctx.stub.getTxTimestamp),
        ("txId", .str ctx.stub.getTxID)]]) ∧
      land.get "registrationDate" = .ok (.str ctx.stub.getTxTimestamp) ∧
      land.get "lastUpdated" = .ok (.str ctx.stub.getTxTimestamp) := by
  obtain ⟨ps, hps, hdef, hrun⟩ := InitLedger_eq ctx emptyWorld
  have hall : ∀ w : World, InitLedger ctx w =
      ⟨.ok (), putState w "LAND0001" (.json (.obj (storedProps ps))),
        [.putState "LAND0001" (.json (.obj (storedProps ps)))]⟩ := by
    intro w
    obtain ⟨ps2, hps2, _, hrun2⟩ := InitLedger_eq ctx w
    rw [hps] at hps2
    injection hps2 with h1 _
    injection h1 with h1
    rw [← h1] at hrun2
    exact hrun2
  cases hps
  refine ⟨_, hall, ?_, ?_, ?_, ?_, ?_, ?_, ?_, ?_, ?_, ?_, ?_⟩
  · intro w
    rw [hall w]
    simp [putState]
  · rw [← persisted_obj, persisted_get _ _ hdef]
    rfl
  · rw [← persisted_obj, persisted_get _ _ hdef]
    rfl
  · rw [← persisted_obj, persisted_get _ _ hdef]
    rfl
  · rw [← persisted_obj, persisted_get _ _ hdef]
    rfl
  · rw [← persisted_obj, persisted_get _ _ hdef]
    rfl
  · rw [← persisted_obj, persisted_get _ _ hdef]
    rfl
  · rw [← persisted_obj, persisted_get _ _ hdef]
    rfl
  · rw [← persisted_obj, persisted_get _ _ hdef]
    rfl
  · rw [← persisted_obj, persisted_get _ _ hdef]
    rfl
  · rw [← persisted_obj, persisted_get _ _ hdef]
    rfl

/-- C22, as the code behaves: for a registrar and a key that holds no record, `CreateLand`
succeeds whatever the numbers that `area` and `marketValue` parse to, and the record it
stores carries these numbers as they are, whatever their sign, and `null` when they are
not finite. In particular a finite area that is not positive and a finite market value
that is negative are stored. There is no check that the area is positive or that the
market value is not negative. -/
theorem CreateLand_stores_any_sign (ctx : Context) (w : World) (a : CreateLandArgs)
    (hreg : ctx.isRegistrar) (hfree : w a.landId = none ∨ w a.landId = some (.raw "")) :
    (∃ ret, (CreateLand ctx w a).result = .ok ret) ∧
    (CreateLand ctx w a).state a.landId = some (.json (persisted (newLand ctx a))) ∧
    (persisted (newLand ctx a)).get "area" =
      .ok (if (Number a.area).isFinite = true then .num (Number a.area) else .null) ∧
    (persisted (newLand ctx a)).get "marketValue" =
      .ok (if (Number a.marketValue).isFinite = true then .num (Number a.marketValue)
        else .null) ∧
    ((Number a.area).isFinite = true → (Number a.area).isPositive = false →
      (persisted (newLand ctx a)).get "area" = .ok (.num (Number a.area))) ∧
    ((Number a.marketValue).isFinite = true → (Number a.marketValue).isNegative = true →
      (persisted (newLand ctx a)).get "marketValue" =
        .ok (.num (Number a.marketValue))) := by
  have hget := persisted_newLand_get ctx a
  have harea : (persisted (newLand ctx a)).get "area" =
      .ok (if (Number a.area).isFinite = true then .num (Number a.area) else .null) := by
    obtain ⟨ps, h1, h2⟩ := hget "area"
    rw [h2]; cases h1
    show Except.ok (persisted (.num (Number a.area))) = _
    rw [persisted_num]
  have hvalue : (persisted (newLand ctx a)).get "marketValue" =
      .ok (if (Number a.marketValue).isFinite = true then .num (Number a.marketValue)
        else .null) := by
    obtain ⟨ps, h1, h2⟩ := hget "marketValue"
    rw [h2]; cases h1
    show Except.ok (persisted (.num (Number a.marketValue))) = _
    rw [persisted_num]
  rw [CreateLand_of_registrar_free ctx w a hreg hfree]
  refine ⟨⟨_, rfl⟩, by simp [putState], harea, hvalue, ?_, ?_⟩
  · intro hfin _
    rw [harea, if_pos hfin]
  · intro hfin _
    rw [hvalue, if_pos hfin]

theorem CreateLand_stores_any_sign_witness :
    registrarCtx.isRegistrar ∧ emptyWorld negativeArgs.landId = none ∧
    (Number negativeArgs.area).isFinite = true ∧
    (Number negativeArgs.area).isPositive = false ∧
    (Number negativeArgs.marketValue).isFinite = true ∧
    (Number negativeArgs.marketValue).isNegative = true ∧
    (CreateLand registrarCtx emptyWorld negativeArgs).state "LAND0010" =
      some (.json (persisted (newLand registrarCtx negativeArgs))) ∧
    (persisted (newLand registrarCtx negativeArgs)).get "area" =
      .ok (.num (.fin true 5 0)) ∧
    (persisted (newLand registrarCtx negativeArgs)).get "marketValue" =
      .ok (.num (.fin true 1 0)) ∧
    Number overflowArgs.marketValue = .inf true ∧
    (persisted (newLand registrarCtx overflowArgs)).get "marketValue" = .ok .null :=
  have h := CreateLand_stores_any_sign registrarCtx emptyWorld negativeArgs
    registrarCtx_isRegistrar (Or.inl rfl)
  have h2 := CreateLand_stores_any_sign registrarCtx emptyWorld overflowArgs
    registrarCtx_isRegistrar (Or.inl rfl)
  ⟨registrarCtx_isRegistrar, rfl, by decide, by decide, by decide, by decide, h.2.1,
    h.2.2.2.2.1 (by decide) (by decide), h.2.2.2.2.2 (by decide) (by decide), rfl,
    h2.2.2.2.1⟩

/-- C22, counterexample: a registrar creates `LAND0010` on the empty ledger with the area
`-5` and the market value `-1`. The call succeeds and the stored record has the negative
area `-5` and the negative market value `-1`. -/
theorem CreateLand_negative_area_stored :
    Number negativeArgs.area = .fin true 5 0 ∧
    (Number negativeArgs.area).isPositive = false ∧
    Number negativeArgs.marketValue = .fin true 1 0 ∧
    (Number negativeArgs.marketValue).isNegative = true ∧
    registrarCtx.isRegistrar ∧ emptyWorld negativeArgs.landId = none ∧
    (∃ ret, (CreateLand registrarCtx emptyWorld negativeArgs).result = .ok ret) ∧
    (CreateLand registrarCtx emptyWorld negativeArgs).state "LAND0010" =
      some (.json (persisted (newLand registrarCtx negativeArgs))) ∧
    (persisted (newLand registrarCtx negativeArgs)).get "area" =
      .ok (.num (.fin true 5 0)) ∧
    (persisted (newLand registrarCtx negativeArgs)).get "marketValue" =
      .ok (.num (.fin true 1 0)) := by
  have h := CreateLand_of_registrar_free registrarCtx emptyWorld negativeArgs
    registrarCtx_isRegistrar (Or.inl rfl)
  refine ⟨by decide, by decide, by decide, by decide, registrarCtx_isRegistrar, rfl,
    ⟨_, by rw [h]⟩, ?_, ?_, ?_⟩
  · rw [h]
    simp [putState, negativeArgs]
  · obtain ⟨ps, h1, h2⟩ := persisted_newLand_get registrarCtx negativeArgs "area"
    rw [h2]; cases h1; rfl
  · obtain ⟨ps, h1, h2⟩ := persisted_newLand_get registrarCtx negativeArgs "marketValue"
    rw [h2]; cases h1; rfl

/-! ## Exhaustive case analysis of the transfer operations -/

theorem getD_strictEqStr_false (o : Option JSValue) (s : String)
    (h : o ≠ some (.str s)) : (o.getD .undefined).strictEqStr s = false := by
  rw [strictEqStr_eq_false]
  intro he
  apply h
  cases o with
  | none => cases he
  | some v =>
    simp only [Option.getD_some] at he
    rw [he]

/-- Either `InitiateTransfer` throws after its read, leaving the ledger as it was, or the
key holds a JSON object owned by the caller, not PENDING_TRANSFER, with a history list. -/
theorem InitiateTransfer_cases (ctx : Context) (w : World)
    (landId proposedBuyer price agreementHash : String) :
    (∃ e, InitiateTransfer ctx w landId proposedBuyer price agreementHash =
      ⟨.error e, w, [.getState landId]⟩) ∨
    (∃ props hist, w landId = some (.json (.obj props)) ∧
      lookupProp "owner" props = some (.str ctx.clientIdentity.getID) ∧
      lookupProp "legalStatus" props ≠ some (.str "PENDING_TRANSFER") ∧
      lookupProp "history" props = some (.arr hist)) := by
  cases hw : w landId with
  | none =>
    refine Or.inl ⟨.error ("❌ Land " ++ landId ++ " not found"), ?_⟩
    simp [InitiateTransfer, hw]
  | some b =>
    cases b with
    | raw s =>
      by_cases hs : s = ""
      · refine Or.inl ⟨.error ("❌ Land " ++ landId ++ " not found"), ?_⟩
        simp [InitiateTransfer, hw, Text.isEmpty, hs]
      · refine Or.inl ⟨.syntaxError, ?_⟩
        simp [InitiateTransfer, hw, Text.isEmpty, hs, Buffer.toString, JSON.parse,
          bind, Except.bind]
    | json land =>
      cases land with
      | undefined =>
        refine Or.inl ⟨.typeError, ?_⟩
        simp [InitiateTransfer, hw, Text.isEmpty, Buffer.toString, JSON.parse,
          JSValue.get, bind, Except.bind]
      | null =>
        refine Or.inl ⟨.typeError, ?_⟩
        simp [InitiateTransfer, hw, Text.isEmpty, Buffer.toString, JSON.parse,
          JSValue.get, bind, Except.bind]
      | bool b =>
        refine Or.inl ⟨.error "❌ Only current owner can initiate a transfer", ?_⟩
        simp [InitiateTransfer, hw, Text.isEmpty, Buffer.toString, JSON.parse,
          JSValue.get, JSValue.strictEqStr, bind, Except.bind, throw, throwThe,
          MonadExceptOf.throw]
      | num n =>
        refine Or.inl ⟨.error "❌ Only current owner can initiate a transfer", ?_⟩
        simp [InitiateTransfer, hw, Text.isEmpty, Buffer.toString, JSON.parse,
          JSValue.get, JSValue.strictEqStr, bind, Except.bind, throw, throwThe,
          MonadExceptOf.throw]
      | str s =>
        refine Or.inl ⟨.error "❌ Only current owner can initiate a transfer", ?_⟩
        simp [InitiateTransfer, hw, Text.isEmpty, Buffer.toString, JSON.parse,
          JSValue.get, JSValue.strictEqStr, bind, Except.bind, throw, throwThe,
          MonadExceptOf.throw]
      | arr xs =>
        refine Or.inl ⟨.error "❌ Only current owner can initiate a transfer", ?_⟩
        simp [InitiateTransfer, hw, Text.isEmpty, Buffer.toString, JSON.parse,
          JSValue.get, JSValue.strictEqStr, bind, Except.bind, throw, throwThe,
          MonadExceptOf.throw]
      | obj props =>
        by_cases hown : lookupProp "owner" props = some (.str ctx.clientIdentity.getID)
        · have h1 : ((lookupProp "owner" props).getD .undefined).strictEqStr
              ctx.clientIdentity.getID = true := by
            rw [hown]
            simp [JSValue.strictEqStr]
          by_cases hst : lookupProp "legalStatus" props = some (.str "PENDING_TRANSFER")
          · refine Or.inl ⟨.error "⚠️ Transfer already initiated for this land", ?_⟩
            have h2 : ((lookupProp "legalStatus" props).getD .undefined).strictEqStr
                "PENDING_TRANSFER" = true := by
              rw [hst]
              simp [JSValue.strictEqStr]
            simp [InitiateTransfer, hw, Text.isEmpty, Buffer.toString, JSON.parse,
              JSValue.get, _getClientId, h1, h2, bind, Except.bind, pure, Except.pure,
              throw, throwThe, MonadExceptOf.throw]
          · have h2 := getD_strictEqStr_false _ _ hst
            cases hh : lookupProp "history" props with
            | none =>
              refine Or.inl ⟨.typeError, ?_⟩
              simp [InitiateTransfer, hw, Text.isEmpty, Buffer.toString, JSON.parse,
                JSValue.get, JSValue.set, JSValue.push, _getClientId, h1, h2, hh,
                lookupProp_assignProp, bind, Except.bind, pure, Except.pure,
                throw, throwThe, MonadExceptOf.throw]
            | some v =>
              cases v with
              | arr hist => exact Or.inr ⟨props, hist, rfl, hown, hst, hh⟩
              | _ =>
                refine Or.inl ⟨.typeError, ?_⟩
                simp [InitiateTransfer, hw, Text.isEmpty, Buffer.toString, JSON.parse,
                  JSValue.get, JSValue.set, JSValue.push, _getClientId, h1, h2, hh,
                  lookupProp_assignProp, bind, Except.bind, pure, Except.pure,
                  throw, throwThe, MonadExceptOf.throw]
        · refine Or.inl ⟨.error "❌ Only current owner can initiate a transfer", ?_⟩
          have h1 := getD_strictEqStr_false _ _ hown
          simp [InitiateTransfer, hw, Text.isEmpty, Buffer.toString, JSON.parse,
            JSValue.get, _getClientId, h1, bind, Except.bind, pure, Except.pure,
            throw, throwThe, MonadExceptOf.throw]

theorem registrar_check_false (ctx : Context) (h : ctx.isRegistrar) :
    ¬ (_getMSP ctx ≠ "Org1MSP" ∨ _getAttr ctx "role" ≠ some "gov") := by
  rw [registrar_check]
  exact not_not.2 h

theorem get_obj (props : List (String × JSValue)) (name : String) :
    (JSValue.obj props).get name = .ok ((lookupProp name props).getD .undefined) := rfl

theorem truthy_get (v : JSValue) (name : String) (h : v.truthy = true) :
    ∃ x, v.get name = .ok x := by
  cases v <;> simp [JSValue.truthy] at h <;> exact ⟨_, rfl⟩

/-- The record that `ApproveTransfer` builds, returns and stores for a registrar, from a
stored object with a truthy `pendingTransfer`, a list of previous owners and a history. -/
theorem ApproveTransfer_of_truthy (ctx : Context) (w : World) (landId : String)
    (props : List (String × JSValue)) (prev hist : List JSValue) (ptv newOwner : JSValue)
    (hreg : ctx.isRegistrar)
    (hrec : w landId = some (.json (.obj props)))
    (hpt : lookupProp "pendingTransfer" props = some ptv)
    (htruthy : ptv.truthy = true)
    (hbuyer : ptv.get "proposedBuyer" = .ok newOwner)
    (hprev : lookupProp "previousOwners" props = some (.arr prev))
    (hhist : lookupProp "history" props = some (.arr hist)) :
    ∃ ps, ps =
        assignProp "lastUpdated" (.str (ctx.now 2))
        (assignProp "history" (.arr (hist ++ [.obj [
            ("txId", .str ctx.stub.getTxID),
            ("action", .str "TRANSFER_APPROVED"),
            ("from", (lookupProp "owner" props).getD .undefined),
            ("to", newOwner),
            ("timestamp", .str (ctx.now 1))]]))
        (assignProp "pendingTransfer" .null
        (assignProp "currentStatus" (.str "OWNED")
        (assignProp "legalStatus" (.str "REGISTERED")
        (assignProp "ownerName" newOwner
        (assignProp "owner" newOwner
        (assignProp "previousOwners" (.arr (prev ++ [.obj [
            ("owner", (lookupProp "owner" props).getD .undefined),
            ("to", .str (ctx.now 0))]])) props))))))) ∧
      ApproveTransfer ctx w landId =
        ⟨.ok (some (.json (serialized (.obj ps)))),
          putState w landId (.json (persisted (.obj ps))),
          [.getState landId, .putState landId (.json (persisted (.obj ps)))]⟩ := by
  refine ⟨_, rfl, ?_⟩
  have hc := registrar_check_false ctx hreg
  unfold ApproveTransfer
  simp [hc, hrec, Text.isEmpty, Buffer.toString, JSON.parse, get_obj, JSValue.set,
    JSValue.push, htruthy, hbuyer, hpt, hprev, hhist, lookupProp_assignProp,
    from_stringify_eq_persisted, JSON.stringify, toJSON, serialized,
    bind, Except.bind, pure, Except.pure, throw, throwThe, MonadExceptOf.throw]

/-- Either `ApproveTransfer` throws, leaving the ledger as it was and having at most read
the key, or the caller is a registrar and the key holds a JSON object with a truthy
`pendingTransfer`, a list of previous owners and a history list. -/
theorem ApproveTransfer_cases (ctx : Context) (w : World) (landId : String) :
    (∃ e, ApproveTransfer ctx w landId = ⟨.error e, w, []⟩) ∨
    (∃ e, ApproveTransfer ctx w landId = ⟨.error e, w, [.getState landId]⟩) ∨
    (∃ props ptv prev hist, ctx.isRegistrar ∧ w landId = some (.json (.obj props)) ∧
      lookupProp "pendingTransfer" props = some ptv ∧ ptv.truthy = true ∧
      lookupProp "previousOwners" props = some (.arr prev) ∧
      lookupProp "history" props = some (.arr hist)) := by
  by_cases hreg : ctx.isRegistrar
  swap
  · exact Or.inl ⟨_, ApproveTransfer_of_not_registrar ctx w landId hreg⟩
  right
  have hc := registrar_check_false ctx hreg
  cases hw : w landId with
  | none =>
    refine Or.inl ⟨.error ("❌ Land " ++ landId ++ " not found"), ?_⟩
    simp [ApproveTransfer, hc, hw]
  | some b =>
    cases b with
    | raw s =>
      by_cases hs : s = ""
      · refine Or.inl ⟨.error ("❌ Land " ++ landId ++ " not found"), ?_⟩
        simp [ApproveTransfer, hc, hw, Text.isEmpty, hs]
      · refine Or.inl ⟨.syntaxError, ?_⟩
        simp [ApproveTransfer, hc, hw, Text.isEmpty, hs, Buffer.toString, JSON.parse,
          bind, Except.bind]
    | json land =>
      cases land with
      | undefined =>
        refine Or.inl ⟨.typeError, ?_⟩
        simp [ApproveTransfer, hc, hw, Text.isEmpty, Buffer.toString, JSON.parse,
          JSValue.get, bind, Except.bind]
      | null =>
        refine Or.inl ⟨.typeError, ?_⟩
        simp [ApproveTransfer, hc, hw, Text.isEmpty, Buffer.toString, JSON.parse,
          JSValue.get, bind, Except.bind]
      | bool b =>
        refine Or.inl ⟨.error "⚠️ No transfer request pending for this land", ?_⟩
        simp [ApproveTransfer, hc, hw, Text.isEmpty, Buffer.toString, JSON.parse,
          JSValue.get, JSValue.truthy, bind, Except.bind, throw, throwThe,
          MonadExceptOf.throw]
      | num n =>
        refine Or.inl ⟨.error "⚠️ No transfer request pending for this land", ?_⟩
        simp [ApproveTransfer, hc, hw, Text.isEmpty, Buffer.toString, JSON.parse,
          JSValue.get, JSValue.truthy, bind, Except.bind, throw, throwThe,
          MonadExceptOf.throw]
      | str s =>
        refine Or.inl ⟨.error "⚠️ No transfer request pending for this land", ?_⟩
        simp [ApproveTransfer, hc, hw, Text.isEmpty, Buffer.toString, JSON.parse,
          JSValue.get, JSValue.truthy, bind, Except.bind, throw, throwThe,
          MonadExceptOf.throw]
      | arr xs =>
        refine Or.inl ⟨.error "⚠️ No transfer request pending for this land", ?_⟩
        simp [ApproveTransfer, hc, hw, Text.isEmpty, Buffer.toString, JSON.parse,
          JSValue.get, JSValue.truthy, bind, Except.bind, throw, throwThe,
          MonadExceptOf.throw]
      | obj props =>
        cases hpt : lookupProp "pendingTransfer" props with
        | none =>
          refine Or.inl ⟨.error "⚠️ No transfer request pending for this land", ?_⟩
          simp [ApproveTransfer, hc, hw, Text.isEmpty, Buffer.toString, JSON.parse,
            JSValue.get, hpt, JSValue.truthy, bind, Except.bind, throw, throwThe,
            MonadExceptOf.throw]
        | some ptv =>
          cases ht : ptv.truthy with
          | false =>
            refine Or.inl ⟨.error "⚠️ No transfer request pending for this land", ?_⟩
            simp [ApproveTransfer, hc, hw, Text.isEmpty, Buffer.toString, JSON.parse,
              JSValue.get, hpt, ht, bind, Except.bind, throw, throwThe,
              MonadExceptOf.throw]
          | true =>
            obtain ⟨newOwner, hnew⟩ := truthy_get ptv "proposedBuyer" ht
            cases hp : lookupProp "previousOwners" props with
            | none =>
              refine Or.inl ⟨.typeError, ?_⟩
              simp [ApproveTransfer, hc, hw, Text.isEmpty, Buffer.toString, JSON.parse,
                get_obj, JSValue.set, JSValue.push, hpt, ht, hnew, hp,
                bind, Except.bind, pure, Except.pure, throw, throwThe,
                MonadExceptOf.throw]
            | some pv =>
              cases pv with
              | arr prev =>
                cases hh : lookupProp "history" props with
                | none =>
                  refine Or.inl ⟨.typeError, ?_⟩
                  simp [ApproveTransfer, hc, hw, Text.isEmpty, Buffer.toString,
                    JSON.parse, get_obj, JSValue.set, JSValue.push, hpt, ht, hnew,
                    hp, hh, lookupProp_assignProp, bind, Except.bind, pure, Except.pure,
                    throw, throwThe, MonadExceptOf.throw]
                | some hv =>
                  cases hv with
                  | arr hist => exact Or.inr ⟨props, ptv, prev, hist, hreg, rfl, hpt, ht, hp, hh⟩
                  | _ =>
                    refine Or.inl ⟨.typeError, ?_⟩
                    simp [ApproveTransfer, hc, hw, Text.isEmpty, Buffer.toString,
                      JSON.parse, get_obj, JSValue.set, JSValue.push, hpt, ht, hnew,
                      hp, hh, lookupProp_assignProp, bind, Except.bind, pure, Except.pure,
                      throw, throwThe, MonadExceptOf.throw]
              | _ =>
                refine Or.inl ⟨.typeError, ?_⟩
                simp [ApproveTransfer, hc, hw, Text.isEmpty, Buffer.toString, JSON.parse,
                  get_obj, JSValue.set, JSValue.push, hpt, ht, hnew, hp,
                  bind, Except.bind, pure, Except.pure, throw, throwThe,
                  MonadExceptOf.throw]

/-! ## Every reachable ledger is well formed -/

theorem persisted_arr (xs : List JSValue) :
    persisted (.arr xs) = .arr (toJSONElems (sortKeysElems xs)) := rfl

theorem goodWorld_empty : GoodWorld emptyWorld := by
  intro key b h
  cases h

theorem goodWorld_putState (w : World) (key : String) (props : List (String × JSValue))
    (hw : GoodWorld w) (hp : WellFormed key props) :
    GoodWorld (putState w key (.json (.obj props))) := by
  intro k b h
  by_cases hk : k = key
  · subst hk
    simp only [putState, if_true, Option.some.injEq] at h
    exact ⟨props, h.symm, hp⟩
  · simp only [putState, hk, if_false] at h
    exact hw k b h

theorem storedProps_arr (name : String) (ps : List (String × JSValue)) (xs : List JSValue)
    (h : lookupProp name ps = some (.arr xs)) :
    ∃ ys, lookupProp name (storedProps ps) = some (.arr ys) :=
  ⟨_, (lookupProp_storedProps_some name ps _ h JSValue.noConfusion).trans
    (congrArg some (persisted_arr xs))⟩

theorem storedProps_str (name : String) (ps : List (String × JSValue)) (s : String)
    (h : lookupProp name ps = some (.str s)) :
    lookupProp name (storedProps ps) = some (.str s) :=
  lookupProp_storedProps_some name ps _ h JSValue.noConfusion

theorem wellFormed_newLand (ctx : Context) (a : CreateLandArgs) :
    ∃ ps, persisted (newLand ctx a) = .obj (storedProps ps) ∧
      WellFormed a.landId (storedProps ps) := by
  refine ⟨_, rfl, ?_⟩
  refine ⟨allJSONProps_storedProps _, ?_, ⟨a.owner, ?_⟩, ?_, ?_, Or.inl ⟨?_, Or.inl ?_⟩⟩
  · exact storedProps_str "landId" _ _ rfl
  · exact storedProps_str "owner" _ _ rfl
  · apply storedProps_arr "previousOwners"
    rfl
  · apply storedProps_arr "history"
    rfl
  · exact storedProps_str "legalStatus" _ _ rfl
  · exact lookupProp_storedProps_none "pendingTransfer" _ rfl

theorem wellFormed_initialLand (ctx : Context) :
    ∃ ps, initialLands ctx = [.obj ps] ∧ WellFormed "LAND0001" (storedProps ps) := by
  refine ⟨_, rfl, ?_⟩
  refine ⟨allJSONProps_storedProps _, ?_, ⟨"Aadhar_1234", ?_⟩, ?_, ?_,
    Or.inl ⟨?_, Or.inl ?_⟩⟩
  · exact storedProps_str "landId" _ _ rfl
  · exact storedProps_str "owner" _ _ rfl
  · apply storedProps_arr "previousOwners"
    rfl
  · apply storedProps_arr "history"
    rfl
  · exact storedProps_str "legalStatus" _ _ rfl
  · exact lookupProp_storedProps_none "pendingTransfer" _ rfl

theorem wellFormed_initiated (key : String) (props : List (String × JSValue))
    (hist : List JSValue) (entry : JSValue) (buyer : String)
    (pt : List (String × JSValue)) (hbuyer : lookupProp "proposedBuyer" pt = some (.str buyer))
    (hp : WellFormed key props) :
    WellFormed key (storedProps
      (assignProp "history" (.arr (hist ++ [entry]))
        (assignProp "legalStatus" (.str "PENDING_TRANSFER")
          (assignProp "pendingTransfer" (.obj pt) props)))) := by
  obtain ⟨o, ho⟩ := hp.owner
  obtain ⟨prev, hprev⟩ := hp.previousOwners
  refine ⟨allJSONProps_storedProps _, ?_, ⟨o, ?_⟩, ?_, ?_, Or.inr ⟨?_, storedProps pt, buyer, ?_, ?_⟩⟩
  · apply storedProps_str
    simp only [lookupProp_assignProp]
    exact hp.landId
  · apply storedProps_str
    simp only [lookupProp_assignProp]
    exact ho
  · apply storedProps_arr "previousOwners" _ prev
    simp only [lookupProp_assignProp]
    exact hprev
  · apply storedProps_arr "history" _ (hist ++ [entry])
    simp only [lookupProp_assignProp]
    rfl
  · apply storedProps_str
    simp only [lookupProp_assignProp]
    rfl
  · rw [← persisted_obj]
    apply lookupProp_storedProps_some _ _ _ _ JSValue.noConfusion
    simp only [lookupProp_assignProp]
    rfl
  · exact storedProps_str _ _ _ hbuyer

theorem wellFormed_approved (key : String) (props : List (String × JSValue))
    (prev hist : List JSValue) (e1 e2 : JSValue) (newOwner lastUpdated : String)
    (hp : WellFormed key props) :
    WellFormed key (storedProps
      (assignProp "lastUpdated" (.str lastUpdated)
        (assignProp "history" (.arr (hist ++ [e2]))
        (assignProp "pendingTransfer" .null
        (assignProp "currentStatus" (.str "OWNED")
        (assignProp "legalStatus" (.str "REGISTERED")
        (assignProp "ownerName" (.str newOwner)
        (assignProp "owner" (.str newOwner)
        (assignProp "previousOwners" (.arr (prev ++ [e1])) props))))))))) := by
  refine ⟨allJSONProps_storedProps _, ?_, ⟨newOwner, ?_⟩, ?_, ?_, Or.inl ⟨?_, Or.inr ?_⟩⟩
  · apply storedProps_str
    simp only [lookupProp_assignProp]
    exact hp.landId
  · apply storedProps_str
    simp only [lookupProp_assignProp]
    rfl
  · apply storedProps_arr "previousOwners" _ (prev ++ [e1])
    simp only [lookupProp_assignProp]
    rfl
  · apply storedProps_arr "history" _ (hist ++ [e2])
    simp only [lookupProp_assignProp]
    rfl
  · apply storedProps_str
    simp only [lookupProp_assignProp]
    rfl
  · have h := lookupProp_storedProps_some "pendingTransfer"
      (assignProp "lastUpdated" (.str lastUpdated)
        (assignProp "history" (.arr (hist ++ [e2]))
        (assignProp "pendingTransfer" .null
        (assignProp "currentStatus" (.str "OWNED")
        (assignProp "legalStatus" (.str "REGISTERED")
        (assignProp "ownerName" (.str newOwner)
        (assignProp "owner" (.str newOwner)
        (assignProp "previousOwners" (.arr (prev ++ [e1])) props)))))))) .null
      (by simp only [lookupProp_assignProp]; rfl) JSValue.noConfusion
    exact h

/-- In a well-formed record a truthy `pendingTransfer` is an object that names a proposed
buyer, and the record is PENDING_TRANSFER. -/
theorem wellFormed_pending (key : String) (props : List (String × JSValue)) (ptv : JSValue)
    (hp : WellFormed key props) (hpt : lookupProp "pendingTransfer" props = some ptv)
    (ht : ptv.truthy = true) :
    lookupProp "legalStatus" props = some (.str "PENDING_TRANSFER") ∧
    ∃ pt buyer, ptv = .obj pt ∧ lookupProp "proposedBuyer" pt = some (.str buyer) ∧
      ptv.get "proposedBuyer" = .ok (.str buyer) := by
  rcases hp.status with ⟨_, h | h⟩ | ⟨hs, pt, buyer, h1, h2⟩
  · rw [h] at hpt
    cases hpt
  · rw [h] at hpt
    injection hpt with hpt
    subst hpt
    simp [JSValue.truthy] at ht
  · rw [h1] at hpt
    injection hpt with hpt
    subst hpt
    exact ⟨hs, pt, buyer, rfl, h2, by simp [JSValue.get, h2]⟩

theorem ReadLand_state (ctx : Context) (w : World) (landId : String) :
    (ReadLand ctx w landId).state = w := by
  unfold ReadLand
  cases w landId with
  | none => rfl
  | some data =>
    simp only
    split <;> rfl

/-- Either `CreateLand` throws, leaving the ledger as it was and having at most read the
key, or the caller is a registrar and the key holds no record. -/
theorem CreateLand_cases (ctx : Context) (w : World) (a : CreateLandArgs) :
    (∃ e, CreateLand ctx w a = ⟨.error e, w, []⟩) ∨
    (∃ e, CreateLand ctx w a = ⟨.error e, w, [.getState a.landId]⟩) ∨
    (ctx.isRegistrar ∧ (w a.landId = none ∨ w a.landId = some (.raw ""))) := by
  by_cases hreg : ctx.isRegistrar
  · right
    cases hw : w a.landId with
    | none => exact Or.inr ⟨hreg, Or.inl rfl⟩
    | some b =>
      cases hb : b.isEmpty with
      | true =>
        have hraw : b = .raw "" := by
          cases b with
          | raw s => simpa [Text.isEmpty] using hb
          | json v => simp [Text.isEmpty] at hb
        exact Or.inr ⟨hreg, Or.inr (by rw [hraw])⟩
      | false => exact Or.inl ⟨_, CreateLand_of_registrar_taken ctx w a hreg b hw hb⟩
  · left
    have hc : _getMSP ctx ≠ "Org1MSP" ∨ _getAttr ctx "role" ≠ some "gov" :=
      (registrar_check ctx).2 hreg
    refine ⟨.error "❌ Only Government registrar (Org1, role=gov) can create land records", ?_⟩
    unfold CreateLand
    simp only [hc, if_true]

theorem goodWorld_run (w : World) (c : Call) (hw : GoodWorld w) : GoodWorld (c.run w) := by
  cases c with
  | initLedger ctx =>
    obtain ⟨ps, hps, _, hrun⟩ := InitLedger_eq ctx w
    obtain ⟨ps2, hps2, hwf⟩ := wellFormed_initialLand ctx
    rw [hps] at hps2
    injection hps2 with h1 _
    injection h1 with h1
    subst h1
    simp only [Call.run, hrun]
    exact goodWorld_putState w _ _ hw hwf
  | createLand ctx a =>
    rcases CreateLand_cases ctx w a with ⟨e, h⟩ | ⟨e, h⟩ | ⟨hreg, hfree⟩
    · simp only [Call.run, h]
      exact hw
    · simp only [Call.run, h]
      exact hw
    · obtain ⟨ps, hps, hwf⟩ := wellFormed_newLand ctx a
      simp only [Call.run, CreateLand_of_registrar_free ctx w a hreg hfree, hps]
      exact goodWorld_putState w _ _ hw hwf
  | readLand ctx landId =>
    simp only [Call.run, ReadLand_state]
    exact hw
  | initiateTransfer ctx landId proposedBuyer price agreementHash =>
    rcases InitiateTransfer_cases ctx w landId proposedBuyer price agreementHash with
      ⟨e, h⟩ | ⟨props, hist, hrec, hown, hst, hhist⟩
    · simp only [Call.run, h]
      exact hw
    · obtain ⟨props2, hb, hwf⟩ := hw landId _ hrec
      injection hb with hb
      injection hb with hb
      subst hb
      obtain ⟨ps, hps, hrun⟩ := InitiateTransfer_of_owner ctx w landId proposedBuyer price
        agreementHash props hist hrec hown hst hhist
      simp only [Call.run, hrun, persisted_obj, hps]
      exact goodWorld_putState w _ _ hw
        (wellFormed_initiated landId props hist _ proposedBuyer _ rfl hwf)
  | approveTransfer ctx landId =>
    rcases ApproveTransfer_cases ctx w landId with
      ⟨e, h⟩ | ⟨e, h⟩ | ⟨props, ptv, prev, hist, hreg, hrec, hpt, ht, hprev, hhist⟩
    · simp only [Call.run, h]
      exact hw
    · simp only [Call.run, h]
      exact hw
    · obtain ⟨props2, hb, hwf⟩ := hw landId _ hrec
      injection hb with hb
      injection hb with hb
      subst hb
      obtain ⟨_, pt, buyer, hptv, _, hget⟩ := wellFormed_pending landId props ptv hwf hpt ht
      obtain ⟨ps, hps, hrun⟩ := ApproveTransfer_of_truthy ctx w landId props prev hist ptv
        (.str buyer) hreg hrec hpt ht hget hprev hhist
      simp only [Call.run, hrun, persisted_obj, hps]
      exact goodWorld_putState w _ _ hw
        (wellFormed_approved landId props prev hist _ _ buyer _ hwf)

theorem goodWorld_runAll (cs : List Call) (w : World) (hw : GoodWorld w) :
    GoodWorld (runAll w cs) := by
  induction cs generalizing w with
  | nil => exact hw
  | cons c cs ih => exact ih (c.run w) (goodWorld_run w c hw)

/-- C15: in every ledger state reached from the empty ledger by any sequence of
`InitLedger`, `CreateLand`, `ReadLand`, `InitiateTransfer` and `ApproveTransfer` calls,
by any callers, successful or not, every stored value is a JSON object whose
`legalStatus` is PENDING_TRANSFER if and only if its `pendingTransfer` is present and not
`null`. -/
theorem pending_iff_status (cs : List Call) (key : String) (b : Buffer)
    (h : runAll emptyWorld cs key = some b) :
    ∃ props, b = .json (.obj props) ∧
      ((JSValue.obj props).get "legalStatus" = .ok (.str "PENDING_TRANSFER") ↔
        ∃ v, lookupProp "pendingTransfer" props = some v ∧ v ≠ .null) := by
  obtain ⟨props, hb, hwf⟩ := goodWorld_runAll cs emptyWorld goodWorld_empty key b h
  refine ⟨props, hb, ?_⟩
  rcases hwf.status with ⟨hs, hpt⟩ | ⟨hs, pt, buyer, hpt, _⟩
  · constructor
    · intro hl
      simp only [JSValue.get, hs, Option.getD_some, Except.ok.injEq, JSValue.str.injEq] at hl
      exact absurd hl (by decide)
    · rintro ⟨v, hv, hne⟩
      rcases hpt with hpt | hpt
      · rw [hpt] at hv
        cases hv
      · rw [hpt] at hv
        injection hv with hv
        exact absurd hv.symm hne
  · constructor
    · intro _
      exact ⟨_, hpt, JSValue.noConfusion⟩
    · intro _
      simp only [JSValue.get, hs, Option.getD_some]

theorem pending_iff_status_witness :
    runAll emptyWorld [.createLand registrarCtx sampleArgs,
      .initiateTransfer ownerCtx "LAND0010" "Aadhar_7777" "500000" "sha256:x"] "LAND0010" =
      some (.json (.obj pendingLandProps)) ∧
    ∃ props, Text.json (.obj pendingLandProps) = .json (.obj props) ∧
      ((JSValue.obj props).get "legalStatus" = .ok (.str "PENDING_TRANSFER") ↔
        ∃ v, lookupProp "pendingTransfer" props = some v ∧ v ≠ .null) :=
  ⟨rfl, pending_iff_status [.createLand registrarCtx sampleArgs,
      .initiateTransfer ownerCtx "LAND0010" "Aadhar_7777" "500000" "sha256:x"] "LAND0010"
      (.json (.obj pendingLandProps)) rfl⟩

theorem putState_other (w : World) (key : String) (b : Buffer) (k : String) (h : k ≠ key) :
    putState w key b k = w k := by
  simp [putState, h]

theorem persisted_newLand_landId (ctx : Context) (a : CreateLandArgs) :
    (persisted (newLand ctx a)).get "landId" = .ok (.str a.landId) := by
  obtain ⟨ps, h1, h2⟩ := persisted_newLand_get ctx a "landId"
  rw [h2]; cases h1; rfl

/-- C21: every successful `CreateLand`, `InitiateTransfer` and `ApproveTransfer` makes
exactly two stub calls, a read of the key `landId` given as argument followed by a write
of that key, so that the value stored at every other key is unchanged. The record written
by `CreateLand` has its `landId` equal to the key; the transfer operations write back the
`landId` of the stored record, which equals the key in every ledger state reached from the
empty ledger by calls of the contract. -/
theorem one_read_one_write (w : World) :
    (∀ (ctx : Context) (a : CreateLandArgs) (ret : Option Text),
      (CreateLand ctx w a).result = .ok ret →
      ∃ rec : JSValue,
        CreateLand ctx w a = ⟨.ok ret, putState w a.landId (.json rec),
          [.getState a.landId, .putState a.landId (.json rec)]⟩ ∧
        (∀ k, k ≠ a.landId → (CreateLand ctx w a).state k = w k) ∧
        rec.get "landId" = .ok (.str a.landId)) ∧
    (∀ (ctx : Context) (landId proposedBuyer price agreementHash : String)
      (ret : Option Text),
      (InitiateTransfer ctx w landId proposedBuyer price agreementHash).result = .ok ret →
      ∃ rec : JSValue,
        InitiateTransfer ctx w landId proposedBuyer price agreementHash =
          ⟨.ok ret, putState w landId (.json rec),
            [.getState landId, .putState landId (.json rec)]⟩ ∧
        (∀ k, k ≠ landId →
          (InitiateTransfer ctx w landId proposedBuyer price agreementHash).state k = w k) ∧
        ((∃ cs, w = runAll emptyWorld cs) → rec.get "landId" = .ok (.str landId))) ∧
    (∀ (ctx : Context) (landId : String) (ret : Option Text),
      (ApproveTransfer ctx w landId).result = .ok ret →
      ∃ rec : JSValue,
        ApproveTransfer ctx w landId =
          ⟨.ok ret, putState w landId (.json rec),
            [.getState landId, .putState landId (.json rec)]⟩ ∧
        (∀ k, k ≠ landId → (ApproveTransfer ctx w landId).state k = w k) ∧
        ((∃ cs, w = runAll emptyWorld cs) → rec.get "landId" = .ok (.str landId))) := by
  refine ⟨?_, ?_, ?_⟩
  · intro ctx a ret hret
    rcases CreateLand_cases ctx w a with ⟨e, h⟩ | ⟨e, h⟩ | ⟨hreg, hfree⟩
    · rw [h] at hret
      cases hret
    · rw [h] at hret
      cases hret
    · have hrun := CreateLand_of_registrar_free ctx w a hreg hfree
      rw [hrun] at hret
      injection hret with hret
      subst hret
      refine ⟨persisted (newLand ctx a), hrun, ?_, persisted_newLand_landId ctx a⟩
      intro k hk
      rw [hrun]
      exact putState_other _ _ _ _ hk
  · intro ctx landId proposedBuyer price agreementHash ret hret
    rcases InitiateTransfer_cases ctx w landId proposedBuyer price agreementHash with
      ⟨e, h⟩ | ⟨props, hist, hrec, hown, hst, hhist⟩
    · rw [h] at hret
      cases hret
    · obtain ⟨ps, hps, hrun⟩ := InitiateTransfer_of_owner ctx w landId proposedBuyer price
        agreementHash props hist hrec hown hst hhist
      rw [hrun] at hret
      injection hret with hret
      subst hret
      refine ⟨persisted (.obj ps), hrun, ?_, ?_⟩
      · intro k hk
        rw [hrun]
        exact putState_other _ _ _ _ hk
      · rintro ⟨cs, hcs⟩
        obtain ⟨props2, hb, hwf⟩ := goodWorld_runAll cs emptyWorld goodWorld_empty landId _
          (hcs ▸ hrec)
        injection hb with hb
        injection hb with hb
        subst hb
        rw [persisted_obj, get_obj, storedProps_str "landId" ps landId
          (by rw [hps]; simp only [lookupProp_assignProp]; exact hwf.landId)]
        rfl
  · intro ctx landId ret hret
    rcases ApproveTransfer_cases ctx w landId with
      ⟨e, h⟩ | ⟨e, h⟩ | ⟨props, ptv, prev, hist, hreg, hrec, hpt, ht, hprev, hhist⟩
    · rw [h] at hret
      cases hret
    · rw [h] at hret
      cases hret
    · obtain ⟨newOwner, hnew⟩ := truthy_get ptv "proposedBuyer" ht
      obtain ⟨ps, hps, hrun⟩ := ApproveTransfer_of_truthy ctx w landId props prev hist ptv
        newOwner hreg hrec hpt ht hnew hprev hhist
      rw [hrun] at hret
      injection hret with hret
      subst hret
      refine ⟨persisted (.obj ps), hrun, ?_, ?_⟩
      · intro k hk
        rw [hrun]
        exact putState_other _ _ _ _ hk
      · rintro ⟨cs, hcs⟩
        obtain ⟨props2, hb, hwf⟩ := goodWorld_runAll cs emptyWorld goodWorld_empty landId _
          (hcs ▸ hrec)
        injection hb with hb
        injection hb with hb
        subst hb
        rw [persisted_obj, get_obj, storedProps_str "landId" ps landId
          (by rw [hps]; simp only [lookupProp_assignProp]; exact hwf.landId)]
        rfl

theorem one_read_one_write_witness :
    sampleWorld = runAll emptyWorld [.createLand registrarCtx sampleArgs] ∧
    ∃ (rec : JSValue) (ret : Option Text),
      InitiateTransfer ownerCtx sampleWorld "LAND0010" "Aadhar_7777" "500000" "sha256:x" =
        ⟨.ok ret, putState sampleWorld "LAND0010" (.json rec),
          [.getState "LAND0010", .putState "LAND0010" (.json rec)]⟩ ∧
      rec.get "landId" = .ok (.str "LAND0010") := by
  obtain ⟨rec, hrun, _, hid⟩ := (one_read_one_write sampleWorld).2.1 ownerCtx "LAND0010"
    "Aadhar_7777" "500000" "sha256:x" _ rfl
  exact ⟨rfl, rec, _, hrun, hid ⟨[.createLand registrarCtx sampleArgs], rfl⟩⟩

/-! ## Typed steps: what each operation stores -/

/-- What `InitiateTransfer` does when the caller is not the stored owner. -/
theorem InitiateTransfer_of_other (ctx : Context) (w : World)
    (landId proposedBuyer price agreementHash : String) (props : List (String × JSValue))
    (hrec : w landId = some (.json (.obj props)))
    (hown : lookupProp "owner" props ≠ some (.str ctx.clientIdentity.getID)) :
    InitiateTransfer ctx w landId proposedBuyer price agreementHash =
      ⟨.error (.error "❌ Only current owner can initiate a transfer"), w,
        [.getState landId]⟩ := by
  have h1 := getD_strictEqStr_false _ _ hown
  simp [InitiateTransfer, hrec, Text.isEmpty, Buffer.toString, JSON.parse,
    JSValue.get, _getClientId, h1, bind, Except.bind, pure, Except.pure,
    throw, throwThe, MonadExceptOf.throw]

/-- The record stored by `CreateLand`, property by property. -/
theorem newLand_stored (ctx : Context) (a : CreateLandArgs) :
    ∃ p1, persisted (newLand ctx a) = .obj p1 ∧
      lookupProp "docType" p1 = some (.str "land") ∧
      lookupProp "landId" p1 = some (.str a.landId) ∧
      lookupProp "owner" p1 = some (.str a.owner) ∧
      lookupProp "legalStatus" p1 = some (.str "REGISTERED") ∧
      lookupProp "pendingTransfer" p1 = none ∧
      lookupProp "previousOwners" p1 = some (.arr []) ∧
      lookupProp "lastUpdated" p1 = some (.str (ctx.now 0)) ∧
      lookupProp "history" p1 = some (.arr [.obj [("action", .str "CREATED"),
        ("by", .str "Registrar_001"), ("timestamp", .str (ctx.now 0)),
        ("txId", .str ctx.stub.getTxID)]]) := by
  refine ⟨storedProps _, rfl, ?_, ?_, ?_, ?_, ?_, ?_, ?_, ?_⟩
  · exact storedProps_str "docType" _ _ rfl
  · exact storedProps_str "landId" _ _ rfl
  · exact storedProps_str "owner" _ _ rfl
  · exact storedProps_str "legalStatus" _ _ rfl
  · exact lookupProp_storedProps_none "pendingTransfer" _ rfl
  · refine (lookupProp_storedProps_some "previousOwners" _ (.arr []) ?_
      JSValue.noConfusion).trans ?_
    · rfl
    · rfl
  · exact storedProps_str "lastUpdated" _ _ rfl
  · refine (lookupProp_storedProps_some "history" _ (.arr [.obj [
      ("txId", .str ctx.stub.getTxID), ("action", .str "CREATED"),
      ("by", .str "Registrar_001"), ("timestamp", .str (ctx.now 0))]]) ?_
      JSValue.noConfusion).trans ?_
    · rfl
    · rfl

/-- The record stored by a successful `InitiateTransfer`, property by property. -/
theorem InitiateTransfer_stored (ctx : Context) (w : World)
    (landId proposedBuyer price agreementHash : String) (props : List (String × JSValue))
    (hist : List JSValue)
    (hrec : w landId = some (.json (.obj props)))
    (hown : lookupProp "owner" props = some (.str ctx.clientIdentity.getID))
    (hstatus : lookupProp "legalStatus" props ≠ some (.str "PENDING_TRANSFER"))
    (hhist : lookupProp "history" props = some (.arr hist)) :
    ∃ (p2 : List (String × JSValue)) (r2 : Option Text),
      InitiateTransfer ctx w landId proposedBuyer price agreementHash =
        ⟨.ok r2, putState w landId (.json (.obj p2)),
          [.getState landId, .putState landId (.json (.obj p2))]⟩ ∧
      (∀ name, name ≠ "pendingTransfer" → name ≠ "legalStatus" → name ≠ "history" →
        lookupProp name props ≠ some .undefined →
        lookupProp name p2 = (lookupProp name props).map persisted) ∧
      lookupProp "legalStatus" p2 = some (.str "PENDING_TRANSFER") ∧
      lookupProp "pendingTransfer" p2 = some (.obj [
        ("agreementHash", .str agreementHash),
        ("initiatedAt", .str (ctx.now 0)),
        ("initiatedBy", .str ctx.clientIdentity.getID),
        ("price", if (Number price).isFinite = true then .num (Number price) else .null),
        ("proposedBuyer", .str proposedBuyer)]) ∧
      lookupProp "history" p2 = some (.arr (toJSONElems (sortKeysElems hist) ++ [.obj [
        ("action", .str "TRANSFER_INITIATED"),
        ("by", .str ctx.clientIdentity.getID),
        ("timestamp", .str (ctx.now 1)),
        ("txId", .str ctx.stub.getTxID)]])) := by
  obtain ⟨ps, hps, hrun⟩ := InitiateTransfer_of_owner ctx w landId proposedBuyer price
    agreementHash props hist hrec hown hstatus hhist
  refine ⟨storedProps ps, _, hrun, ?_, ?_, ?_, ?_⟩
  · intro name n1 n2 n3 hdef
    have hl : lookupProp name ps = lookupProp name props := by
      rw [hps]
      simp only [lookupProp_assignProp, if_neg (Ne.symm n1), if_neg (Ne.symm n2),
        if_neg (Ne.symm n3)]
    rw [lookupProp_storedProps name ps (by rw [hl]; exact hdef), hl]
  · apply storedProps_str
    rw [hps]
    simp only [lookupProp_assignProp]
    rfl
  · refine (lookupProp_storedProps_some "pendingTransfer" ps (.obj [
        ("proposedBuyer", .str proposedBuyer),
        ("price", .num (Number price)),
        ("agreementHash", .str agreementHash),
        ("initiatedBy", .str ctx.clientIdentity.getID),
        ("initiatedAt", .str (ctx.now 0))]) ?_ JSValue.noConfusion).trans ?_
    · rw [hps]
      simp only [lookupProp_assignProp]
      rfl
    · rfl
  · refine (lookupProp_storedProps_some "history" ps (.arr (hist ++ [.obj [
        ("txId", .str ctx.stub.getTxID),
        ("action", .str "TRANSFER_INITIATED"),
        ("by", .str ctx.clientIdentity.getID),
        ("timestamp", .str (ctx.now 1))]])) ?_ JSValue.noConfusion).trans ?_
    · rw [hps]
      simp only [lookupProp_assignProp]
      rfl
    · rw [persisted_arr, sortKeysElems_append, toJSONElems_append]
      rfl

/-- The record stored by a successful `ApproveTransfer`, property by property. -/
theorem ApproveTransfer_stored (ctx : Context) (w : World) (landId : String)
    (props pt : List (String × JSValue)) (prev hist : List JSValue)
    (oldOwner newOwner : String)
    (hreg : ctx.isRegistrar)
    (hrec : w landId = some (.json (.obj props)))
    (hown : lookupProp "owner" props = some (.str oldOwner))
    (hpt : lookupProp "pendingTransfer" props = some (.obj pt))
    (hbuyer : lookupProp "proposedBuyer" pt = some (.str newOwner))
    (hprev : lookupProp "previousOwners" props = some (.arr prev))
    (hhist : lookupProp "history" props = some (.arr hist)) :
    ∃ (p3 : List (String × JSValue)) (r3 : Option Text),
      ApproveTransfer ctx w landId =
        ⟨.ok r3, putState w landId (.json (.obj p3)),
          [.getState landId, .putState landId (.json (.obj p3))]⟩ ∧
      (∀ name, name ≠ "previousOwners" → name ≠ "owner" → name ≠ "ownerName" →
        name ≠ "legalStatus" → name ≠ "currentStatus" → name ≠ "pendingTransfer" →
        name ≠ "history" → name ≠ "lastUpdated" →
        lookupProp name props ≠ some .undefined →
        lookupProp name p3 = (lookupProp name props).map persisted) ∧
      lookupProp "owner" p3 = some (.str newOwner) ∧
      lookupProp "ownerName" p3 = some (.str newOwner) ∧
      lookupProp "legalStatus" p3 = some (.str "REGISTERED") ∧
      lookupProp "currentStatus" p3 = some (.str "OWNED") ∧
      lookupProp "pendingTransfer" p3 = some .null ∧
      lookupProp "lastUpdated" p3 = some (.str (ctx.now 2)) ∧
      lookupProp "previousOwners" p3 = some (.arr (toJSONElems (sortKeysElems prev) ++ [.obj [
        ("owner", .str oldOwner), ("to", .str (ctx.now 0))]])) ∧
      lookupProp "history" p3 = some (.arr (toJSONElems (sortKeysElems hist) ++ [.obj [
        ("action", .str "TRANSFER_APPROVED"),
        ("from", .str oldOwner),
        ("timestamp", .str (ctx.now 1)),
        ("to", .str newOwner),
        ("txId", .str ctx.stub.getTxID)]])) := by
  obtain ⟨ps, hps, hrun⟩ := ApproveTransfer_of_pending ctx w landId props pt prev hist
    (.str oldOwner) (.str newOwner) hreg hrec hown hpt hbuyer hprev hhist
  refine ⟨storedProps ps, _, hrun, ?_, ?_, ?_, ?_, ?_, ?_, ?_, ?_, ?_⟩
  · intro name n1 n2 n3 n4 n5 n6 n7 n8 hdef
    have hl : lookupProp name ps = lookupProp name props := by
      rw [hps]
      simp only [lookupProp_assignProp, if_neg (Ne.symm n1), if_neg (Ne.symm n2),
        if_neg (Ne.symm n3), if_neg (Ne.symm n4), if_neg (Ne.symm n5), if_neg (Ne.symm n6),
        if_neg (Ne.symm n7), if_neg (Ne.symm n8)]
    rw [lookupProp_storedProps name ps (by rw [hl]; exact hdef), hl]
  · apply storedProps_str
    rw [hps]
    simp only [lookupProp_assignProp]
    rfl
  · apply storedProps_str
    rw [hps]
    simp only [lookupProp_assignProp]
    rfl
  · apply storedProps_str
    rw [hps]
    simp only [lookupProp_assignProp]
    rfl
  · apply storedProps_str
    rw [hps]
    simp only [lookupProp_assignProp]
    rfl
  · refine (lookupProp_storedProps_some "pendingTransfer" ps .null ?_
      JSValue.noConfusion).trans rfl
    rw [hps]
    simp only [lookupProp_assignProp]
    rfl
  · apply storedProps_str
    rw [hps]
    simp only [lookupProp_assignProp]
    rfl
  · refine (lookupProp_storedProps_some "previousOwners" ps (.arr (prev ++ [.obj [
        ("owner", .str oldOwner), ("to", .str (ctx.now 0))]])) ?_
      JSValue.noConfusion).trans ?_
    · rw [hps]
      simp only [lookupProp_assignProp]
      rfl
    · rw [persisted_arr, sortKeysElems_append, toJSONElems_append]
      rfl
  · refine (lookupProp_storedProps_some "history" ps (.arr (hist ++ [.obj [
        ("txId", .str ctx.stub.getTxID),
        ("action", .str "TRANSFER_APPROVED"),
        ("from", .str oldOwner),
        ("to", .str newOwner),
        ("timestamp", .str (ctx.now 1))]])) ?_ JSValue.noConfusion).trans ?_
    · rw [hps]
      simp only [lookupProp_assignProp]
      rfl
    · rw [persisted_arr, sortKeysElems_append, toJSONElems_append]
      rfl

/-- The three calls of a transfer on a fresh record: a registrar creates the record, its
owner initiates a transfer, a registrar approves it. All three succeed, each with one read
and one write of the key; `p1`, `p2` and `p3` are the records stored in turn. -/
theorem create_initiate_approve (ctx ctxA ctxR : Context) (w : World) (a : CreateLandArgs)
    (buyer price agreementHash : String)
    (hreg : ctx.isRegistrar) (hfree : w a.landId = none ∨ w a.landId = some (.raw ""))
    (hA : ctxA.clientIdentity.getID = a.owner) (hR : ctxR.isRegistrar) :
    ∃ (p1 p2 p3 : List (String × JSValue)) (r1 r2 r3 : Option Text),
      CreateLand ctx w a =
        ⟨.ok r1, putState w a.landId (.json (.obj p1)),
          [.getState a.landId, .putState a.landId (.json (.obj p1))]⟩ ∧
      InitiateTransfer ctxA (putState w a.landId (.json (.obj p1))) a.landId buyer price
          agreementHash =
        ⟨.ok r2, putState (putState w a.landId (.json (.obj p1))) a.landId (.json (.obj p2)),
          [.getState a.landId, .putState a.landId (.json (.obj p2))]⟩ ∧
      ApproveTransfer ctxR
          (putState (putState w a.landId (.json (.obj p1))) a.landId (.json (.obj p2)))
          a.landId =
        ⟨.ok r3,
          putState (putState (putState w a.landId (.json (.obj p1))) a.landId
            (.json (.obj p2))) a.landId (.json (.obj p3)),
          [.getState a.landId, .putState a.landId (.json (.obj p3))]⟩ ∧
      lookupProp "previousOwners" p1 = some (.arr []) ∧
      lookupProp "legalStatus" p2 = some (.str "PENDING_TRANSFER") ∧
      lookupProp "owner" p2 = some (.str a.owner) ∧
      lookupProp "docType" p3 = some (.str "land") ∧
      lookupProp "landId" p3 = some (.str a.landId) ∧
      lookupProp "owner" p3 = some (.str buyer) ∧
      lookupProp "legalStatus" p3 = some (.str "REGISTERED") ∧
      lookupProp "pendingTransfer" p3 = some .null ∧
      lookupProp "previousOwners" p3 = some (.arr [.obj [
        ("owner", .str a.owner), ("to", .str (ctxR.now 0))]]) ∧
      (∃ hist, lookupProp "history" p3 = some (.arr hist)) := by
  obtain ⟨p1, hp1, h1doc, h1id, h1own, h1st, _, h1prev, _, h1hist⟩ := newLand_stored ctx a
  have hc := CreateLand_of_registrar_free ctx w a hreg hfree
  rw [hp1] at hc
  obtain ⟨p2, r2, hrun2, h2other, h2st, h2pt, h2hist⟩ :=
    InitiateTransfer_stored ctxA (putState w a.landId (.json (.obj p1))) a.landId buyer
      price agreementHash p1 _ (by simp [putState]) (by rw [hA]; exact h1own)
      (by rw [h1st]; simp) h1hist
  have h2own : lookupProp "owner" p2 = some (.str a.owner) := by
    rw [h2other "owner" (by decide) (by decide) (by decide) (by rw [h1own]; simp), h1own]
    rfl
  have h2doc : lookupProp "docType" p2 = some (.str "land") := by
    rw [h2other "docType" (by decide) (by decide) (by decide) (by rw [h1doc]; simp), h1doc]
    rfl
  have h2id : lookupProp "landId" p2 = some (.str a.landId) := by
    rw [h2other "landId" (by decide) (by decide) (by decide) (by rw [h1id]; simp), h1id]
    rfl
  have h2prev : lookupProp "previousOwners" p2 = some (.arr []) := by
    rw [h2other "previousOwners" (by decide) (by decide) (by decide)
      (by rw [h1prev]; simp), h1prev]
    rfl
  obtain ⟨p3, r3, hrun3, h3other, h3own, _, h3st, _, h3pt, _, h3prev, h3hist⟩ :=
    ApproveTransfer_stored ctxR
      (putState (putState w a.landId (.json (.obj p1))) a.landId (.json (.obj p2)))
      a.landId p2 _ [] _ a.owner buyer hR (by simp [putState]) h2own h2pt rfl h2prev h2hist
  refine ⟨p1, p2, p3, _, r2, r3, hc, hrun2, hrun3, h1prev, h2st, h2own, ?_, ?_, h3own, h3st, h3pt,
    h3prev, ⟨_, h3hist⟩⟩
  · rw [h3other "docType" (by decide) (by decide) (by decide) (by decide) (by decide)
      (by decide) (by decide) (by decide) (by rw [h2doc]; simp), h2doc]
    rfl
  · rw [h3other "landId" (by decide) (by decide) (by decide) (by decide) (by decide)
      (by decide) (by decide) (by decide) (by rw [h2id]; simp), h2id]
    rfl

/-- C11: round trip. A registrar creates a record with owner A on a free key, A initiates
a transfer to any buyer B, a registrar approves it. Both transfer calls succeed and the
record finally stored has `owner` B, `legalStatus` REGISTERED, `pendingTransfer` null, and
`previousOwners` made of exactly one entry, whose owner is A (the created record had
none). -/
theorem transfer_roundTrip (ctx ctxA ctxR : Context) (w : World) (a : CreateLandArgs)
    (buyer price agreementHash : String)
    (hreg : ctx.isRegistrar) (hfree : w a.landId = none ∨ w a.landId = some (.raw ""))
    (hA : ctxA.clientIdentity.getID = a.owner) (hR : ctxR.isRegistrar) :
    (∃ rec0, (CreateLand ctx w a).state a.landId = some (.json rec0) ∧
      rec0.get "previousOwners" = .ok (.arr [])) ∧
    (∃ r2, (InitiateTransfer ctxA (CreateLand ctx w a).state a.landId buyer price
      agreementHash).result = .ok r2) ∧
    (∃ r3, (ApproveTransfer ctxR (InitiateTransfer ctxA (CreateLand ctx w a).state a.landId
      buyer price agreementHash).state a.landId).result = .ok r3) ∧
    ∃ rec, (ApproveTransfer ctxR (InitiateTransfer ctxA (CreateLand ctx w a).state a.landId
        buyer price agreementHash).state a.landId).state a.landId = some (.json rec) ∧
      rec.get "owner" = .ok (.str buyer) ∧
      rec.get "legalStatus" = .ok (.str "REGISTERED") ∧
      rec.get "pendingTransfer" = .ok .null ∧
      rec.get "previousOwners" = .ok (.arr [.obj [
        ("owner", .str a.owner), ("to", .str (ctxR.now 0))]]) := by
  obtain ⟨p1, p2, p3, r1, r2, r3, h1, h2, h3, h1prev, _, _, _, _, hown, hst, hpt, hprev, _⟩ :=
    create_initiate_approve ctx ctxA ctxR w a buyer price agreementHash hreg hfree hA hR
  have hp : (CreateLand ctx w a).state = putState w a.landId (.json (.obj p1)) := by
    rw [h1]
  rw [hp, h2, h3]
  refine ⟨⟨.obj p1, by simp [putState], by rw [get_obj, h1prev]; rfl⟩, ⟨r2, rfl⟩, ⟨r3, rfl⟩,
    .obj p3, by simp [putState], ?_, ?_, ?_, ?_⟩
  · rw [get_obj, hown]
    rfl
  · rw [get_obj, hst]
    rfl
  · rw [get_obj, hpt]
    rfl
  · rw [get_obj, hprev]
    rfl

theorem transfer_roundTrip_witness :
    registrarCtx.isRegistrar ∧ emptyWorld sampleArgs.landId = none ∧
    ownerCtx.clientIdentity.getID = sampleArgs.owner ∧
    ∃ rec, (ApproveTransfer registrarCtx (InitiateTransfer ownerCtx
        (CreateLand registrarCtx emptyWorld sampleArgs).state "LAND0010" "Aadhar_7777"
        "500000" "sha256:x").state "LAND0010").state "LAND0010" = some (.json rec) ∧
      rec.get "owner" = .ok (.str "Aadhar_7777") ∧
      rec.get "legalStatus" = .ok (.str "REGISTERED") ∧
      rec.get "pendingTransfer" = .ok .null ∧
      rec.get "previousOwners" = .ok (.arr [.obj [
        ("owner", .str "Aadhar_5555"), ("to", .str "2025-11-04T10:00:00.000Z")]]) :=
  ⟨registrarCtx_isRegistrar, rfl, rfl,
    (transfer_roundTrip registrarCtx ownerCtx registrarCtx emptyWorld sampleArgs
      "Aadhar_7777" "500000" "sha256:x" registrarCtx_isRegistrar (Or.inl rfl) rfl
      registrarCtx_isRegistrar).2.2.2⟩

/-- C23: hand-over of the right to transfer. Take a stored record with owner A and a
pending transfer to B, different from A, and let a registrar approve it. The approval
succeeds; afterwards every `InitiateTransfer` on that record by A fails with the owner-only
error and leaves the ledger unchanged, while an `InitiateTransfer` by B succeeds and
stores the record with `legalStatus` PENDING_TRANSFER again. -/
theorem transfer_right_handed_over (ctxR ctxA ctxB : Context) (w : World) (landId : String)
    (props pt : List (String × JSValue)) (prev hist : List JSValue) (ownerA buyerB : String)
    (hreg : ctxR.isRegistrar)
    (hrec : w landId = some (.json (.obj props)))
    (hown : (JSValue.obj props).get "owner" = .ok (.str ownerA))
    (hpt : (JSValue.obj props).get "pendingTransfer" = .ok (.obj pt))
    (hbuyer : (JSValue.obj pt).get "proposedBuyer" = .ok (.str buyerB))
    (hprev : (JSValue.obj props).get "previousOwners" = .ok (.arr prev))
    (hhist : (JSValue.obj props).get "history" = .ok (.arr hist))
    (hne : ownerA ≠ buyerB)
    (hA : ctxA.clientIdentity.getID = ownerA) (hB : ctxB.clientIdentity.getID = buyerB) :
    (∃ r, (ApproveTransfer ctxR w landId).result = .ok r) ∧
    (∀ proposedBuyer price agreementHash,
      InitiateTransfer ctxA (ApproveTransfer ctxR w landId).state landId proposedBuyer price
          agreementHash =
        ⟨.error (.error "❌ Only current owner can initiate a transfer"),
          (ApproveTransfer ctxR w landId).state, [.getState landId]⟩) ∧
    (∀ proposedBuyer price agreementHash,
      (∃ r, (InitiateTransfer ctxB (ApproveTransfer ctxR w landId).state landId
        proposedBuyer price agreementHash).result = .ok r) ∧
      ∃ rec, (InitiateTransfer ctxB (ApproveTransfer ctxR w landId).state landId
          proposedBuyer price agreementHash).state landId = some (.json rec) ∧
        rec.get "legalStatus" = .ok (.str "PENDING_TRANSFER") ∧
        rec.get "owner" = .ok (.str buyerB)) := by
  have hown2 := lookupProp_of_get _ _ _ hown JSValue.noConfusion
  have hpt2 := lookupProp_of_get _ _ _ hpt JSValue.noConfusion
  have hbuyer2 := lookupProp_of_get _ _ _ hbuyer JSValue.noConfusion
  have hprev2 := lookupProp_of_get _ _ _ hprev JSValue.noConfusion
  have hhist2 := lookupProp_of_get _ _ _ hhist JSValue.noConfusion
  obtain ⟨p3, r3, hrun3, _, h3own, _, h3st, _, _, _, _, h3hist⟩ :=
    ApproveTransfer_stored ctxR w landId props pt prev hist ownerA buyerB hreg hrec hown2
      hpt2 hbuyer2 hprev2 hhist2
  rw [hrun3]
  have hrec3 : putState w landId (.json (.obj p3)) landId = some (.json (.obj p3)) := by
    simp [putState]
  refine ⟨⟨r3, rfl⟩, ?_, ?_⟩
  · intro proposedBuyer price agreementHash
    apply InitiateTransfer_of_other ctxA _ landId proposedBuyer price agreementHash p3 hrec3
    rw [h3own, hA]
    intro h
    injection h with h
    injection h with h
    exact hne h.symm
  · intro proposedBuyer price agreementHash
    obtain ⟨p4, r4, hrun4, h4other, h4st, _, _⟩ :=
      InitiateTransfer_stored ctxB (putState w landId (.json (.obj p3))) landId
        proposedBuyer price agreementHash p3 _ hrec3 (by rw [h3own, hB])
        (by rw [h3st]; simp) h3hist
    rw [hrun4]
    refine ⟨⟨r4, rfl⟩, .obj p4, by simp [putState], by rw [get_obj, h4st]; rfl, ?_⟩
    rw [get_obj, h4other "owner" (by decide) (by decide) (by decide)
      (by rw [h3own]; simp), h3own]
    rfl

theorem transfer_right_handed_over_witness :
    registrarCtx.isRegistrar ∧
    pendingWorld "LAND0010" = some (.json (.obj pendingLandProps)) ∧
    (JSValue.obj pendingLandProps).get "owner" = .ok (.str "Aadhar_5555") ∧
    ownerCtx.clientIdentity.getID = "Aadhar_5555" ∧
    InitiateTransfer ownerCtx (ApproveTransfer registrarCtx pendingWorld "LAND0010").state
        "LAND0010" "Aadhar_9999" "1" "sha256:y" =
      ⟨.error (.error "❌ Only current owner can initiate a transfer"),
        (ApproveTransfer registrarCtx pendingWorld "LAND0010").state,
        [.getState "LAND0010"]⟩ :=
  ⟨registrarCtx_isRegistrar, rfl, rfl, rfl,
    (transfer_right_handed_over registrarCtx ownerCtx
      ⟨⟨"Org2MSP", "Aadhar_7777", fun _ => .ok none⟩, ⟨"TX12348", "2025-11-07T00:00:00.000Z"⟩,
        fun _ => "2025-11-07T09:00:00.000Z"⟩
      pendingWorld "LAND0010" pendingLandProps
      [("agreementHash", .str "sha256:x"),
        ("initiatedAt", .str "2025-11-06T09:00:00.000Z"), ("initiatedBy", .str "Aadhar_5555"),
        ("price", .num (.fin false 500000 0)), ("proposedBuyer", .str "Aadhar_7777")]
      []
      [.obj [("action", .str "CREATED"), ("by", .str "Registrar_001"),
          ("timestamp", .str "2025-11-04T10:00:00.000Z"), ("txId", .str "TX12345")],
        .obj [("action", .str "TRANSFER_INITIATED"), ("by", .str "Aadhar_5555"),
          ("timestamp", .str "2025-11-06T09:00:00.001Z"), ("txId", .str "TX12347")]]
      "Aadhar_5555" "Aadhar_7777" registrarCtx_isRegistrar rfl rfl rfl rfl rfl rfl
      (by decide) rfl rfl).2.1 "Aadhar_9999" "1" "sha256:y"⟩

/-- C12: no operation partially applies. Whenever `CreateLand`, `ReadLand`,
`InitiateTransfer` or `ApproveTransfer` fails, with any error, for any caller, arguments
and ledger state, it has made no write call and the ledger state is the one before the
call. -/
theorem no_partial_application (ctx : Context) (w : World) :
    (∀ (a : CreateLandArgs) (e : JSError), (CreateLand ctx w a).result = .error e →
      (CreateLand ctx w a).state = w ∧
        ∀ c ∈ (CreateLand ctx w a).calls, c.isWrite = false) ∧
    (∀ (landId : String) (e : JSError), (ReadLand ctx w landId).result = .error e →
      (ReadLand ctx w landId).state = w ∧
        ∀ c ∈ (ReadLand ctx w landId).calls, c.isWrite = false) ∧
    (∀ (landId proposedBuyer price agreementHash : String) (e : JSError),
      (InitiateTransfer ctx w landId proposedBuyer price agreementHash).result = .error e →
      (InitiateTransfer ctx w landId proposedBuyer price agreementHash).state = w ∧
        ∀ c ∈ (InitiateTransfer ctx w landId proposedBuyer price agreementHash).calls,
          c.isWrite = false) ∧
    (∀ (landId : String) (e : JSError), (ApproveTransfer ctx w landId).result = .error e →
      (ApproveTransfer ctx w landId).state = w ∧
        ∀ c ∈ (ApproveTransfer ctx w landId).calls, c.isWrite = false) := by
  refine ⟨?_, ?_, ?_, ?_⟩
  · intro a e he
    rcases CreateLand_cases ctx w a with ⟨e2, h⟩ | ⟨e2, h⟩ | ⟨hreg, hfree⟩
    · rw [h]
      exact ⟨rfl, by simp⟩
    · rw [h]
      exact ⟨rfl, by simp [StubCall.isWrite]⟩
    · rw [CreateLand_of_registrar_free ctx w a hreg hfree] at he
      cases he
  · intro landId e _
    refine ⟨ReadLand_state ctx w landId, ?_⟩
    unfold ReadLand
    cases w landId with
    | none => simp [StubCall.isWrite]
    | some data =>
      simp only
      split <;> simp [StubCall.isWrite]
  · intro landId proposedBuyer price agreementHash e he
    rcases InitiateTransfer_cases ctx w landId proposedBuyer price agreementHash with
      ⟨e2, h⟩ | ⟨props, hist, hrec, hown, hst, hhist⟩
    · rw [h]
      exact ⟨rfl, by simp [StubCall.isWrite]⟩
    · obtain ⟨ps, _, hrun⟩ := InitiateTransfer_of_owner ctx w landId proposedBuyer price
        agreementHash props hist hrec hown hst hhist
      rw [hrun] at he
      cases he
  · intro landId e he
    rcases ApproveTransfer_cases ctx w landId with
      ⟨e2, h⟩ | ⟨e2, h⟩ | ⟨props, ptv, prev, hist, hreg, hrec, hpt, ht, hprev, hhist⟩
    · rw [h]
      exact ⟨rfl, by simp⟩
    · rw [h]
      exact ⟨rfl, by simp [StubCall.isWrite]⟩
    · obtain ⟨newOwner, hnew⟩ := truthy_get ptv "proposedBuyer" ht
      obtain ⟨ps, _, hrun⟩ := ApproveTransfer_of_truthy ctx w landId props prev hist ptv
        newOwner hreg hrec hpt ht hnew hprev hhist
      rw [hrun] at he
      cases he

theorem no_partial_application_witness :
    (InitiateTransfer userCtx sampleWorld "LAND0010" "Aadhar_9876" "6000000"
      "sha256:agree").result =
      .error (.error "❌ Only current owner can initiate a transfer") ∧
    (InitiateTransfer userCtx sampleWorld "LAND0010" "Aadhar_9876" "6000000"
      "sha256:agree").state = sampleWorld ∧
    (ApproveTransfer registrarCtx sampleWorld "LAND0010").result =
      .error (.error "⚠️ No transfer request pending for this land") ∧
    (ApproveTransfer registrarCtx sampleWorld "LAND0010").state = sampleWorld :=
  ⟨rfl,
    ((no_partial_application userCtx sampleWorld).2.2.1 "LAND0010" "Aadhar_9876" "6000000"
      "sha256:agree" _ rfl).1,
    rfl,
    ((no_partial_application registrarCtx sampleWorld).2.2.2 "LAND0010" _ rfl).1⟩

/-- C13, the code at the failing input: `LAND0010` was created with the clock at
`2025-11-04T10:00:00.000Z`; its owner initiates a transfer two days later. The call
succeeds and appends a history entry stamped `2025-11-06T09:00:00.001Z`, but the stored
`lastUpdated` is still the creation time: `InitiateTransfer` never assigns
`lastUpdated`. -/
theorem InitiateTransfer_keeps_lastUpdated :
    sampleWorld "LAND0010" = some (.json (.obj sampleLandProps)) ∧
    (JSValue.obj sampleLandProps).get "lastUpdated" =
      .ok (.str "2025-11-04T10:00:00.000Z") ∧
    ownerCtx.now 0 = "2025-11-06T09:00:00.000Z" ∧
    ownerCtx.now 1 = "2025-11-06T09:00:00.001Z" ∧
    (∃ r, (InitiateTransfer ownerCtx sampleWorld "LAND0010" "Aadhar_7777" "500000"
      "sha256:x").result = .ok r) ∧
    (InitiateTransfer ownerCtx sampleWorld "LAND0010" "Aadhar_7777" "500000"
      "sha256:x").state "LAND0010" = some (.json (.obj pendingLandProps)) ∧
    (JSValue.obj pendingLandProps).get "lastUpdated" =
      .ok (.str "2025-11-04T10:00:00.000Z") ∧
    (JSValue.obj pendingLandProps).get "history" = .ok (.arr [
      .obj [("action", .str "CREATED"), ("by", .str "Registrar_001"),
        ("timestamp", .str "2025-11-04T10:00:00.000Z"), ("txId", .str "TX12345")],
      .obj [("action", .str "TRANSFER_INITIATED"), ("by", .str "Aadhar_5555"),
        ("timestamp", .str "2025-11-06T09:00:00.001Z"), ("txId", .str "TX12347")]]) ∧
    "2025-11-04T10:00:00.000Z" ≠ "2025-11-06T09:00:00.001Z" :=
  ⟨rfl, rfl, rfl, rfl, ⟨_, rfl⟩, rfl, rfl, rfl, by decide⟩

theorem sortKeysElems_of_canonical (name : String) (props : List (String × JSValue))
    (xs : List JSValue) (hcanon : sortKeysRecursive (.obj props) = .obj props)
    (h : lookupProp name props = some (.arr xs)) : sortKeysElems xs = xs := by
  have h1 := sortKeysRecursive_get name props
  rw [hcanon, get_obj, h] at h1
  simp only [Option.getD_some, Option.map_some', sortKeysRecursive, Except.ok.injEq,
    JSValue.arr.injEq] at h1
  exact h1.symm

theorem persisted_get_str (name : String) (ps : List (String × JSValue)) (s : String)
    (h : lookupProp name ps = some (.str s)) :
    (persisted (.obj ps)).get name = .ok (.str s) := by
  rw [persisted_obj, get_obj, storedProps_str name ps s h]
  rfl

/-- A failing `InitiateTransfer` leaves the ledger as it was. -/
theorem InitiateTransfer_error_state (ctx : Context) (w : World)
    (landId proposedBuyer price agreementHash : String) (e : JSError)
    (he : (InitiateTransfer ctx w landId proposedBuyer price agreementHash).result =
      .error e) :
    (InitiateTransfer ctx w landId proposedBuyer price agreementHash).state = w := by
  rcases InitiateTransfer_cases ctx w landId proposedBuyer price agreementHash with
    ⟨e2, h⟩ | ⟨props, hist, hrec, hown, hst, hhist⟩
  · rw [h]
  · obtain ⟨ps, _, hrun⟩ := InitiateTransfer_of_owner ctx w landId proposedBuyer price
      agreementHash props hist hrec hown hst hhist
    rw [hrun] at he
    cases he

/-- A failing `ApproveTransfer` leaves the ledger as it was. -/
theorem ApproveTransfer_error_state (ctx : Context) (w : World) (landId : String)
    (e : JSError) (he : (ApproveTransfer ctx w landId).result = .error e) :
    (ApproveTransfer ctx w landId).state = w := by
  rcases ApproveTransfer_cases ctx w landId with
    ⟨e2, h⟩ | ⟨e2, h⟩ | ⟨props, ptv, prev, hist, hreg, hrec, hpt, ht, hprev, hhist⟩
  · rw [h]
  · rw [h]
  · obtain ⟨newOwner, hnew⟩ := truthy_get ptv "proposedBuyer" ht
    obtain ⟨ps, _, hrun⟩ := ApproveTransfer_of_truthy ctx w landId props prev hist ptv
      newOwner hreg hrec hpt ht hnew hprev hhist
    rw [hrun] at he
    cases he

/-- C14: the history of a record is append-only. For every stored JSON record, a
successful `InitiateTransfer` or `ApproveTransfer` stores a record whose history is the
previous history followed by exactly one new entry, of action TRANSFER_INITIATED or
TRANSFER_APPROVED. The previous entries are unchanged, up to the order of their keys,
which the stored form sorts: they are literally unchanged when the record was already
stored with sorted keys. A failing call leaves the ledger, hence the history, as it
was. -/
theorem history_append_only (w : World) (landId : String) (props : List (String × JSValue))
    (hrec : w landId = some (.json (.obj props)))
    (hjson : (JSValue.obj props).isJSON = true) :
    (∀ (ctx : Context) (proposedBuyer price agreementHash : String) (r : Option Text),
      (InitiateTransfer ctx w landId proposedBuyer price agreementHash).result = .ok r →
      ∃ (hist : List JSValue) (entry rec : JSValue),
        (JSValue.obj props).get "history" = .ok (.arr hist) ∧
        (InitiateTransfer ctx w landId proposedBuyer price agreementHash).state landId =
          some (.json rec) ∧
        rec.get "history" = .ok (.arr (sortKeysElems hist ++ [entry])) ∧
        entry.get "action" = .ok (.str "TRANSFER_INITIATED") ∧
        (sortKeysRecursive (.obj props) = .obj props → sortKeysElems hist = hist)) ∧
    (∀ (ctx : Context) (r : Option Text),
      (ApproveTransfer ctx w landId).result = .ok r →
      ∃ (hist : List JSValue) (entry rec : JSValue),
        (JSValue.obj props).get "history" = .ok (.arr hist) ∧
        (ApproveTransfer ctx w landId).state landId = some (.json rec) ∧
        rec.get "history" = .ok (.arr (sortKeysElems hist ++ [entry])) ∧
        entry.get "action" = .ok (.str "TRANSFER_APPROVED") ∧
        (sortKeysRecursive (.obj props) = .obj props → sortKeysElems hist = hist)) ∧
    (∀ (ctx : Context) (proposedBuyer price agreementHash : String) (e : JSError),
      (InitiateTransfer ctx w landId proposedBuyer price agreementHash).result = .error e →
      (InitiateTransfer ctx w landId proposedBuyer price agreementHash).state = w) ∧
    (∀ (ctx : Context) (e : JSError),
      (ApproveTransfer ctx w landId).result = .error e →
      (ApproveTransfer ctx w landId).state = w) := by
  have hps : allJSONProps props = true := by
    simpa only [JSValue.isJSON] using hjson
  refine ⟨?_, ?_, ?_, ?_⟩
  · intro ctx proposedBuyer price agreementHash r hr
    rcases InitiateTransfer_cases ctx w landId proposedBuyer price agreementHash with
      ⟨e2, h⟩ | ⟨props2, hist, hrec2, hown, hst, hhist⟩
    · rw [h] at hr
      cases hr
    · rw [hrec] at hrec2
      injection hrec2 with hrec2
      injection hrec2 with hrec2
      injection hrec2 with hrec2
      subst hrec2
      have hhistJSON : allJSON hist = true := by
        have h := isJSON_of_lookupProp "history" props _ hps hhist
        simpa only [JSValue.isJSON] using h
      obtain ⟨p2, r2, hrun, _, _, _, h2hist⟩ := InitiateTransfer_stored ctx w landId
        proposedBuyer price agreementHash props hist hrec hown hst hhist
      rw [toJSONElems_of_allJSON _ (allJSON_sortKeysElems hist hhistJSON)] at h2hist
      refine ⟨hist, .obj [
          ("action", .str "TRANSFER_INITIATED"),
          ("by", .str ctx.clientIdentity.getID),
          ("timestamp", .str (ctx.now 1)),
          ("txId", .str ctx.stub.getTxID)], .obj p2, by rw [get_obj, hhist]; rfl,
        by rw [hrun]; simp [putState], by rw [get_obj, h2hist]; rfl, rfl, ?_⟩
      intro hcanon
      exact sortKeysElems_of_canonical "history" props hist hcanon hhist
  · intro ctx r hr
    rcases ApproveTransfer_cases ctx w landId with
      ⟨e2, h⟩ | ⟨e2, h⟩ | ⟨props2, ptv, prev, hist, hreg, hrec2, hpt, ht, hprev, hhist⟩
    · rw [h] at hr
      cases hr
    · rw [h] at hr
      cases hr
    · rw [hrec] at hrec2
      injection hrec2 with hrec2
      injection hrec2 with hrec2
      injection hrec2 with hrec2
      subst hrec2
      have hhistJSON : allJSON hist = true := by
        have h := isJSON_of_lookupProp "history" props _ hps hhist
        simpa only [JSValue.isJSON] using h
      obtain ⟨newOwner, hnew⟩ := truthy_get ptv "proposedBuyer" ht
      obtain ⟨ps, hps3, hrun⟩ := ApproveTransfer_of_truthy ctx w landId props prev hist ptv
        newOwner hreg hrec hpt ht hnew hprev hhist
      have hl : lookupProp "history" (storedProps ps) = some (persisted (.arr (hist ++ [.obj [
            ("txId", .str ctx.stub.getTxID),
            ("action", .str "TRANSFER_APPROVED"),
            ("from", (lookupProp "owner" props).getD .undefined),
            ("to", newOwner),
            ("timestamp", .str (ctx.now 1))]]))) := by
        apply lookupProp_storedProps_some _ _ _ _ JSValue.noConfusion
        rw [hps3]
        simp only [lookupProp_assignProp]
        rfl
      rw [persisted_arr, sortKeysElems_append, toJSONElems_append,
        toJSONElems_of_allJSON _ (allJSON_sortKeysElems hist hhistJSON)] at hl
      refine ⟨hist, persisted (.obj [
            ("txId", .str ctx.stub.getTxID),
            ("action", .str "TRANSFER_APPROVED"),
            ("from", (lookupProp "owner" props).getD .undefined),
            ("to", newOwner),
            ("timestamp", .str (ctx.now 1))]), .obj (storedProps ps),
        by rw [get_obj, hhist]; rfl, by rw [hrun]; simp [putState, persisted_obj],
        by rw [get_obj, hl]; rfl, ?_, ?_⟩
      · exact persisted_get_str "action" _ _ rfl
      · intro hcanon
        exact sortKeysElems_of_canonical "history" props hist hcanon hhist
  · intro ctx proposedBuyer price agreementHash e he
    exact InitiateTransfer_error_state ctx w landId proposedBuyer price agreementHash e he
  · intro ctx e he
    exact ApproveTransfer_error_state ctx w landId e he

theorem history_append_only_witness :
    sampleWorld "LAND0010" = some (.json (.obj sampleLandProps)) ∧
    (JSValue.obj sampleLandProps).isJSON = true ∧
    sortKeysRecursive (.obj sampleLandProps) = .obj sampleLandProps ∧
    ∃ (hist : List JSValue) (entry rec : JSValue),
      (JSValue.obj sampleLandProps).get "history" = .ok (.arr hist) ∧
      (InitiateTransfer ownerCtx sampleWorld "LAND0010" "Aadhar_7777" "500000"
        "sha256:x").state "LAND0010" = some (.json rec) ∧
      rec.get "history" = .ok (.arr (hist ++ [entry])) ∧
      entry.get "action" = .ok (.str "TRANSFER_INITIATED") := by
  obtain ⟨hist, entry, rec, h1, h2, h3, h4, h5⟩ :=
    (history_append_only sampleWorld "LAND0010" sampleLandProps rfl rfl).1 ownerCtx
      "Aadhar_7777" "500000" "sha256:x" _ rfl
  rw [h5 rfl] at h3
  exact ⟨rfl, rfl, rfl, hist, entry, rec, h1, h2, h3, h4⟩

/-! ## History and queries -/

/-- The loop over an iterator that yields the items `xs`, when every conversion
succeeds: all the items are collected, in order. -/
theorem whileNext_ofList {α β : Type} (convert : α → Except JSError β) (f : α → β)
    (doneWithLast : Bool) (xs : List α) (hf : ∀ x ∈ xs, convert x = .ok (f x))
    (acc : List β) :
    whileNext convert (Iterator.ofList doneWithLast xs) acc = .ok (acc ++ xs.map f) := by
  induction xs generalizing acc with
  | nil => simp [Iterator.ofList, whileNext]
  | cons x rest ih =>
    have hx : convert x = .ok (f x) := hf x (List.mem_cons_self _ _)
    cases rest with
    | nil =>
      cases doneWithLast <;> simp [Iterator.ofList, whileNext, hx]
    | cons y rest =>
      have ih2 := ih (fun z hz => hf z (List.mem_cons_of_mem _ hz)) (acc ++ [f x])
      simp only [Iterator.ofList, whileNext, hx]
      simp only [Bool.false_eq_true, if_false]
      rw [ih2]
      simp

theorem GetHistory_state (ctx : Context) (q : QueryStub) (w : World) (landId : String) :
    (GetHistory ctx q w landId).state = w ∧ (GetHistory ctx q w landId).calls = [] := by
  unfold GetHistory
  cases q.getHistoryForKey landId with
  | error e => exact ⟨rfl, rfl⟩
  | ok iterator =>
    simp only
    cases whileNext (fun v => Except.ok (historyEntry v)) iterator [] with
    | error e => exact ⟨rfl, rfl⟩
    | ok results => exact ⟨rfl, rfl⟩

/-- C19: when the history iterator of the key yields the N versions of the key,
`GetHistory` returns exactly N entries, in the order the iterator yields them; the i-th
entry carries the transaction id, the timestamp (`null` when absent), the deletion flag
and the text of the value of the i-th version; the iterator is closed. Whatever the
iterator does, `GetHistory` makes no read or write of a key and leaves the ledger
unchanged. -/
theorem GetHistory_entries (ctx : Context) (w : World) (landId : String) :
    (∀ (q : QueryStub) (versions : List KeyModification) (doneWithLast : Bool),
      q.getHistoryForKey landId = .ok (Iterator.ofList doneWithLast versions) →
      GetHistory ctx q w landId =
        ⟨.ok (versions.map historyEntry), w, [], true, true⟩ ∧
      (versions.map historyEntry).length = versions.length ∧
      ∀ i : Nat, (versions.map historyEntry)[i]? = (versions[i]?).map historyEntry) ∧
    (∀ v : KeyModification,
      (historyEntry v).txId = v.txId ∧ (historyEntry v).timestamp = v.timestamp ∧
      (historyEntry v).isDelete = v.isDelete ∧ (historyEntry v).value = v.value) ∧
    (∀ q : QueryStub,
      (GetHistory ctx q w landId).state = w ∧ (GetHistory ctx q w landId).calls = []) := by
  refine ⟨?_, ?_, fun q => GetHistory_state ctx q w landId⟩
  · intro q versions doneWithLast h
    refine ⟨?_, by simp, fun i => by simp⟩
    unfold GetHistory
    rw [h]
    simp only
    rw [whileNext_ofList (fun v => Except.ok (historyEntry v)) historyEntry doneWithLast
      versions (fun _ _ => rfl) []]
    simp
  · intro v
    refine ⟨rfl, ?_, rfl, rfl⟩
    cases h : v.timestamp <;> simp [historyEntry, h]

theorem GetHistory_entries_witness :
    GetHistory userCtx
        ⟨fun _ => .ok [.res (some ⟨"TX1", none, false, .raw "mockValue"⟩) false],
          fun _ => .ok []⟩ emptyWorld "LAND0001" =
      ⟨.ok [⟨"TX1", none, false, .raw "mockValue"⟩], emptyWorld, [], true, true⟩ :=
  ((GetHistory_entries userCtx emptyWorld "LAND0001").1
    ⟨fun _ => .ok [.res (some ⟨"TX1", none, false, .raw "mockValue"⟩) false],
      fun _ => .ok []⟩ [⟨"TX1", none, false, .raw "mockValue"⟩] false rfl).1

/-- C20, as the code behaves: `GetHistory`, `QueryLandsByOwner` and `QueryLandsByLocation`
call `iterator.close()` exactly when they succeed, that is when the loop ends on a `done`
answer; when a `next()` call fails, or when a hit cannot be parsed, they fail without
closing the iterator they acquired. -/
theorem iterator_closed_iff_success (ctx : Context) (q : QueryStub) (w : World)
    (arg : String) :
    (GetHistory ctx q w arg).closed = (GetHistory ctx q w arg).result.toBool ∧
    (QueryLandsByOwner ctx q w arg).closed = (QueryLandsByOwner ctx q w arg).result.toBool ∧
    (QueryLandsByLocation ctx q w arg).closed =
      (QueryLandsByLocation ctx q w arg).result.toBool ∧
    ((∃ it, q.getHistoryForKey arg = .ok it) → (GetHistory ctx q w arg).acquired = true) ∧
    ((∃ it, q.getQueryResult (JSON.stringify (.obj [("selector",
        .obj [("docType", .str "land"), ("owner", .str arg)])])) = .ok it) →
      (QueryLandsByOwner ctx q w arg).acquired = true) := by
  refine ⟨?_, ?_, ?_, ?_, ?_⟩
  · unfold GetHistory
    cases q.getHistoryForKey arg with
    | error e => rfl
    | ok iterator =>
      simp only
      cases whileNext (fun v => Except.ok (historyEntry v)) iterator [] <;> rfl
  · unfold QueryLandsByOwner
    simp only
    cases q.getQueryResult _ with
    | error e => rfl
    | ok iterator =>
      simp only
      cases whileNext parseHit iterator [] <;> rfl
  · unfold QueryLandsByLocation
    simp only
    cases q.getQueryResult _ with
    | error e => rfl
    | ok iterator =>
      simp only
      cases whileNext parseHit iterator [] <;> rfl
  · rintro ⟨it, hit⟩
    unfold GetHistory
    rw [hit]
    simp only
    cases whileNext (fun v => Except.ok (historyEntry v)) it [] <;> rfl
  · rintro ⟨it, hit⟩
    unfold QueryLandsByOwner
    simp only
    rw [hit]
    simp only
    cases whileNext parseHit it [] <;> rfl

/-- C20, counterexample: the query iterator yields a hit whose value is not a JSON text,
and the history iterator rejects its first `next()`. Both operations acquire the iterator
and fail without closing it. -/
theorem iterator_left_open_on_error :
    QueryLandsByOwner userCtx
        ⟨fun _ => .ok [], fun _ => .ok [.res (some ⟨"LAND0010", .raw "not json"⟩) false]⟩
        emptyWorld "Aadhar_1234" =
      ⟨.error .syntaxError, emptyWorld, [], true, false⟩ ∧
    QueryLandsByLocation userCtx
        ⟨fun _ => .ok [], fun _ => .ok [.res (some ⟨"LAND0010", .raw "not json"⟩) false]⟩
        emptyWorld "Kanpur" =
      ⟨.error .syntaxError, emptyWorld, [], true, false⟩ ∧
    GetHistory userCtx
        ⟨fun _ => .ok [.throws (.error "history unavailable")], fun _ => .ok []⟩
        emptyWorld "LAND0010" =
      ⟨.error (.error "history unavailable"), emptyWorld, [], true, false⟩ :=
  ⟨rfl, rfl, rfl⟩

/-- The result of `QueryLandsByOwner` on a ledger whose query mechanism is `richQuery`:
the parsed documents of the hits of the selector, in the ledger's order. -/
theorem QueryLandsByOwner_richQuery (ctx : Context) (hq : String → Except JSError
      (Iterator KeyModification)) (keys : List String) (w : World) (owner : String) :
    QueryLandsByOwner ctx ⟨hq, richQuery keys w⟩ w owner =
      ⟨.ok (JSON.stringify (.arr ((queryHits keys w
          [("docType", .str "land"), ("owner", .str owner)]).filterMap
            fun kv => match kv.value with
              | .json doc => some doc
              | .raw _ => none))), w, [], true, true⟩ := by
  have hdocs : ∀ kv ∈ queryHits keys w [("docType", .str "land"), ("owner", .str owner)],
      ∃ doc, kv.value = .json doc := by
    intro kv hkv
    simp only [queryHits, List.mem_filterMap] at hkv
    obtain ⟨k, _, hk⟩ := hkv
    cases hw : w k with
    | none => simp [hw] at hk
    | some b =>
      cases b with
      | raw s => simp [hw] at hk
      | json doc =>
        simp only [hw] at hk
        split at hk
        · cases hk
          exact ⟨doc, rfl⟩
        · cases hk
  have hconv : ∀ kv ∈ queryHits keys w [("docType", .str "land"), ("owner", .str owner)],
      parseHit kv = .ok (match kv.value with
        | .json doc => doc
        | .raw _ => .null) := by
    intro kv hkv
    obtain ⟨doc, hdoc⟩ := hdocs kv hkv
    simp [parseHit, hdoc, Buffer.toString, JSON.parse]
  have hmap : ∀ xs : List KV, (∀ kv ∈ xs, ∃ doc, kv.value = Text.json doc) →
      xs.map (fun kv => match kv.value with
        | .json doc => doc
        | .raw _ => JSValue.null) =
      xs.filterMap (fun kv => match kv.value with
        | .json doc => some doc
        | .raw _ => none) := by
    intro xs
    induction xs with
    | nil => intro _; rfl
    | cons x rest ih =>
      intro h
      obtain ⟨doc, hdoc⟩ := h x (List.mem_cons_self _ _)
      simp only [List.map_cons, List.filterMap_cons, hdoc]
      rw [ih (fun kv hkv => h kv (List.mem_cons_of_mem _ hkv))]
  have hloop := whileNext_ofList parseHit _ false _ hconv []
  rw [List.nil_append, hmap _ hdocs] at hloop
  have hsel : richQuery keys w (JSON.stringify (.obj [("selector",
      .obj [("docType", .str "land"), ("owner", .str owner)])])) =
      .ok (Iterator.ofList false (queryHits keys w
        [("docType", .str "land"), ("owner", .str owner)])) := rfl
  unfold QueryLandsByOwner
  simp only [hsel, hloop]

theorem isJSON_persisted (v : JSValue) : (persisted v).isJSON = true := by
  unfold persisted serialized
  cases h : toJSON (sortKeysRecursive v) with
  | none => rfl
  | some j => exact isJSON_toJSON _ _ h

theorem mem_toJSONElems (d : JSValue) (xs : List JSValue) (h : d ∈ xs) :
    serialized d ∈ toJSONElems xs := by
  induction xs with
  | nil => cases h
  | cons x rest ih =>
    simp only [toJSONElems, List.mem_cons]
    rcases List.mem_cons.1 h with h | h
    · exact Or.inl (by rw [h]; rfl)
    · exact Or.inr (ih h)

theorem of_mem_toJSONElems (j : JSValue) (xs : List JSValue) (h : j ∈ toJSONElems xs) :
    ∃ d ∈ xs, j = serialized d := by
  induction xs with
  | nil => cases h
  | cons x rest ih =>
    simp only [toJSONElems, List.mem_cons] at h
    rcases h with h | h
    · exact ⟨x, List.mem_cons_self _ _, h⟩
    · obtain ⟨d, hd, hj⟩ := ih h
      exact ⟨d, List.mem_cons_of_mem _ hd, hj⟩

/-- A document that matches the selector of `QueryLandsByOwner` is an object whose
`docType` is `land` and whose `owner` is the owner asked for. -/
theorem selectorMatches_owner (doc : JSValue) (owner : String) :
    selectorMatches [("docType", .str "land"), ("owner", .str owner)] doc = true ↔
      ∃ ps, doc = .obj ps ∧ lookupProp "docType" ps = some (.str "land") ∧
        lookupProp "owner" ps = some (.str owner) := by
  constructor
  · intro h
    cases doc with
    | obj ps =>
      simp only [selectorMatches, List.all_cons, List.all_nil, Bool.and_true, get_obj,
        Bool.and_eq_true, strictEqStr_eq_true] at h
      refine ⟨ps, rfl, ?_, ?_⟩
      · cases hl : lookupProp "docType" ps with
        | none => rw [hl] at h; exact absurd h.1 (by simp)
        | some v => rw [hl] at h; simpa using h.1
      · cases hl : lookupProp "owner" ps with
        | none => rw [hl] at h; exact absurd h.2 (by simp)
        | some v => rw [hl] at h; simpa using h.2
    | undefined => simp [selectorMatches, JSValue.get] at h
    | null => simp [selectorMatches, JSValue.get] at h
    | bool b => simp [selectorMatches, JSValue.get, JSValue.strictEqStr] at h
    | num n => simp [selectorMatches, JSValue.get, JSValue.strictEqStr] at h
    | str s => simp [selectorMatches, JSValue.get, JSValue.strictEqStr] at h
    | arr xs => simp [selectorMatches, JSValue.get, JSValue.strictEqStr] at h
  · rintro ⟨ps, rfl, h1, h2⟩
    simp [selectorMatches, get_obj, h1, h2, JSValue.strictEqStr]

/-- The hits of a selector are the stored JSON documents, under the keys enumerated, that
match the selector. -/
theorem mem_queryHits (keys : List String) (w : World) (selector : List (String × JSValue))
    (kv : KV) :
    kv ∈ queryHits keys w selector ↔
      ∃ doc, kv.key ∈ keys ∧ w kv.key = some (.json doc) ∧ kv.value = .json doc ∧
        selectorMatches selector doc = true := by
  simp only [queryHits, List.mem_filterMap]
  constructor
  · rintro ⟨k, hk, h⟩
    cases hw : w k with
    | none => simp [hw] at h
    | some b =>
      cases b with
      | raw s => simp [hw] at h
      | json doc =>
        simp only [hw] at h
        split at h
        · rename_i hm
          cases h
          exact ⟨doc, hk, hw, rfl, hm⟩
        · cases h
  · rintro ⟨doc, hk, hw, hv, hm⟩
    refine ⟨kv.key, hk, ?_⟩
    obtain ⟨key, value⟩ := kv
    simp only at hw hv
    simp only [hw, hm, if_true, hv]

/-- The documents that `QueryLandsByOwner` collects from the hits. -/
theorem mem_hit_documents (hits : List KV) (doc : JSValue) :
    doc ∈ hits.filterMap (fun kv => match kv.value with
      | .json doc => some doc
      | .raw _ => none) ↔ ∃ kv ∈ hits, kv.value = .json doc := by
  simp only [List.mem_filterMap]
  constructor
  · rintro ⟨kv, hkv, h⟩
    refine ⟨kv, hkv, ?_⟩
    cases hv : kv.value with
    | raw s => simp [hv] at h
    | json d => simp only [hv, Option.some.injEq] at h; rw [h]
  · rintro ⟨kv, hkv, h⟩
    exact ⟨kv, hkv, by simp [h]⟩

/-- When `ApproveTransfer` succeeds, the key holds a JSON object afterwards. -/
theorem ApproveTransfer_ok_json (ctx : Context) (w : World) (landId : String)
    (h : (ApproveTransfer ctx w landId).result.toBool = true) :
    ∃ props, (ApproveTransfer ctx w landId).state landId = some (.json (.obj props)) ∧
      allJSONProps props = true := by
  rcases ApproveTransfer_cases ctx w landId with ⟨e, he⟩ | ⟨e, he⟩ |
    ⟨props, ptv, prev, hist, hreg, hrec, hpt, htruthy, hprev, hhist⟩
  · rw [he] at h; cases h
  · rw [he] at h; cases h
  · obtain ⟨newOwner, hbuyer⟩ := truthy_get ptv "proposedBuyer" htruthy
    obtain ⟨ps, _, hrun⟩ := ApproveTransfer_of_truthy ctx w landId props prev hist ptv
      newOwner hreg hrec hpt htruthy hbuyer hprev hhist
    rw [hrun, persisted_obj]
    exact ⟨storedProps ps, by simp [putState], allJSONProps_storedProps ps⟩

/-- C18: the ledger's query is equality filtering of the stored documents, under the keys
`keys` that the ledger enumerates, on the selector `{docType: 'land', owner}`. A registrar
creates a record with owner A, the owner initiates a transfer to B, different from A, and
a registrar approves it. Then `QueryLandsByOwner(A)` succeeds with a list that does not
include the record (no hit comes from its key), whereas it did include it right after the
creation, and `QueryLandsByOwner(B)` succeeds with a list that includes the record. With
no hit, `QueryLandsByOwner` returns the empty list, not an error. -/
theorem QueryLandsByOwner_after_transfer (ctx ctxA ctxR ctxQ : Context)
    (hq : String → Except JSError (Iterator KeyModification)) (keys : List String)
    (w w1 w2 w3 : World) (a : CreateLandArgs) (buyer price agreementHash : String)
    (hreg : ctx.isRegistrar) (hfree : w a.landId = none ∨ w a.landId = some (.raw ""))
    (hA : ctxA.clientIdentity.getID = a.owner) (hR : ctxR.isRegistrar)
    (hne : buyer ≠ a.owner) (hkey : a.landId ∈ keys)
    (h1 : w1 = (CreateLand ctx w a).state)
    (h2 : w2 = (InitiateTransfer ctxA w1 a.landId buyer price agreementHash).state)
    (h3 : w3 = (ApproveTransfer ctxR w2 a.landId).state) :
    (∃ rec, w3 a.landId = some (.json rec) ∧
      (∃ outA, QueryLandsByOwner ctxQ ⟨hq, richQuery keys w3⟩ w3 a.owner =
          ⟨.ok (some (.json (.arr outA))), w3, [], true, true⟩ ∧ rec ∉ outA ∧
        ∀ kv ∈ queryHits keys w3 [("docType", .str "land"), ("owner", .str a.owner)],
          kv.key ≠ a.landId) ∧
      (∃ outB, QueryLandsByOwner ctxQ ⟨hq, richQuery keys w3⟩ w3 buyer =
          ⟨.ok (some (.json (.arr outB))), w3, [], true, true⟩ ∧ rec ∈ outB)) ∧
    (∃ rec1 out1, w1 a.landId = some (.json rec1) ∧
      QueryLandsByOwner ctxQ ⟨hq, richQuery keys w1⟩ w1 a.owner =
        ⟨.ok (some (.json (.arr out1))), w1, [], true, true⟩ ∧ rec1 ∈ out1) ∧
    (∀ (w0 : World) (owner : String),
      queryHits keys w0 [("docType", .str "land"), ("owner", .str owner)] = [] →
      QueryLandsByOwner ctxQ ⟨hq, richQuery keys w0⟩ w0 owner =
        ⟨.ok (some (.json (.arr []))), w0, [], true, true⟩) := by
  obtain ⟨p1, p2, p3, r1, r2, r3, hc1, hc2, hc3, _, _, _, h3doc, _, h3own, _⟩ :=
    create_initiate_approve ctx ctxA ctxR w a buyer price agreementHash hreg hfree hA hR
  rw [hc1] at h1
  simp only at h1
  rw [h1, hc2] at h2
  simp only at h2
  rw [h2] at h3
  have hjson3 : allJSONProps p3 = true := by
    obtain ⟨props, hp, hj⟩ := ApproveTransfer_ok_json ctxR _ a.landId
      (show (ApproveTransfer ctxR (putState (putState w a.landId (.json (.obj p1))) a.landId
        (.json (.obj p2))) a.landId).result.toBool = true by rw [hc3]; rfl)
    rw [hc3] at hp
    simp only [putState, if_true, Option.some.injEq, Text.json.injEq, JSValue.obj.injEq] at hp
    rw [hp]
    exact hj
  rw [hc3] at h3
  simp only at h3
  have hw3 : w3 a.landId = some (.json (.obj p3)) := by rw [h3]; simp [putState]
  refine ⟨⟨.obj p3, hw3, ?_, ?_⟩, ?_, ?_⟩
  · refine ⟨_, QueryLandsByOwner_richQuery ctxQ hq keys w3 a.owner, ?_, ?_⟩
    · intro hmem
      obtain ⟨d, hd, hrec⟩ := of_mem_toJSONElems _ _ hmem
      obtain ⟨kv, hkv, hval⟩ := (mem_hit_documents _ d).1 hd
      obtain ⟨doc, _, _, hval2, hm⟩ := (mem_queryHits keys w3 _ kv).1 hkv
      rw [hval] at hval2
      injection hval2 with hdd
      subst hdd
      obtain ⟨ps, hps, _, hown⟩ := (selectorMatches_owner d a.owner).1 hm
      subst hps
      have hs : serialized (.obj ps) = .obj (toJSONProps ps) := rfl
      rw [hs] at hrec
      injection hrec with hrec
      have hl := lookupProp_toJSONProps_of_ne "owner" ps (by rw [hown]; simp)
      rw [← hrec, h3own, hown] at hl
      have hl2 : some (JSValue.str buyer) = some (JSValue.str a.owner) := hl
      injection hl2 with hl2
      injection hl2 with hl2
      exact hne hl2
    · intro kv hkv hk
      obtain ⟨doc, _, hw, _, hm⟩ := (mem_queryHits keys w3 _ kv).1 hkv
      rw [hk, hw3] at hw
      injection hw with hw
      injection hw with hw
      subst hw
      obtain ⟨ps, hps, _, hown⟩ := (selectorMatches_owner _ a.owner).1 hm
      injection hps with hps
      subst hps
      rw [h3own] at hown
      injection hown with hown
      injection hown with hown
      exact hne hown
  · refine ⟨_, QueryLandsByOwner_richQuery ctxQ hq keys w3 buyer, ?_⟩
    have hmem : JSValue.obj p3 ∈ (queryHits keys w3
        [("docType", .str "land"), ("owner", .str buyer)]).filterMap
          (fun kv => match kv.value with
            | .json doc => some doc
            | .raw _ => none) :=
      (mem_hit_documents _ _).2 ⟨⟨a.landId, .json (.obj p3)⟩,
        (mem_queryHits keys w3 _ _).2 ⟨.obj p3, hkey, hw3, rfl,
          (selectorMatches_owner _ buyer).2 ⟨p3, rfl, h3doc, h3own⟩⟩, rfl⟩
    have hser := mem_toJSONElems _ _ hmem
    rwa [serialized_of_isJSON (.obj p3) (by simpa only [JSValue.isJSON] using hjson3)] at hser
  · obtain ⟨q1, hq1, h1doc, _, h1own, _⟩ := newLand_stored ctx a
    have hst := CreateLand_of_registrar_free ctx w a hreg hfree
    rw [hc1] at hst
    have hw1 : w1 a.landId = some (.json (.obj q1)) := by
      have := congrArg (fun o => o.state a.landId) hst
      simp only [putState, if_true] at this
      rw [h1, ← hq1, ← this]
      simp [putState]
    refine ⟨.obj q1, _, hw1, QueryLandsByOwner_richQuery ctxQ hq keys w1 a.owner, ?_⟩
    have hmem : JSValue.obj q1 ∈ (queryHits keys w1
        [("docType", .str "land"), ("owner", .str a.owner)]).filterMap
          (fun kv => match kv.value with
            | .json doc => some doc
            | .raw _ => none) :=
      (mem_hit_documents _ _).2 ⟨⟨a.landId, .json (.obj q1)⟩,
        (mem_queryHits keys w1 _ _).2 ⟨.obj q1, hkey, hw1, rfl,
          (selectorMatches_owner _ a.owner).2 ⟨q1, rfl, h1doc, h1own⟩⟩, rfl⟩
    have hser := mem_toJSONElems _ _ hmem
    rwa [serialized_of_isJSON (.obj q1) (by rw [← hq1]; exact isJSON_persisted _)] at hser
  · intro w0 owner hempty
    rw [QueryLandsByOwner_richQuery ctxQ hq keys w0 owner, hempty]
    rfl

theorem QueryLandsByOwner_after_transfer_witness :
    ∃ rec outA outB,
      (ApproveTransfer registrarCtx
        (InitiateTransfer ownerCtx (CreateLand registrarCtx emptyWorld sampleArgs).state
          "LAND0010" "Aadhar_7777" "500000" "sha256:x").state "LAND0010").state "LAND0010" =
        some (.json rec) ∧
      (QueryLandsByOwner userCtx ⟨fun _ => .ok [], richQuery ["LAND0010"]
        (ApproveTransfer registrarCtx
          (InitiateTransfer ownerCtx (CreateLand registrarCtx emptyWorld sampleArgs).state
            "LAND0010" "Aadhar_7777" "500000" "sha256:x").state "LAND0010").state⟩
        (ApproveTransfer registrarCtx
          (InitiateTransfer ownerCtx (CreateLand registrarCtx emptyWorld sampleArgs).state
            "LAND0010" "Aadhar_7777" "500000" "sha256:x").state "LAND0010").state
        "Aadhar_5555").result = .ok (some (.json (.arr outA))) ∧ rec ∉ outA ∧
      (QueryLandsByOwner userCtx ⟨fun _ => .ok [], richQuery ["LAND0010"]
        (ApproveTransfer registrarCtx
          (InitiateTransfer ownerCtx (CreateLand registrarCtx emptyWorld sampleArgs).state
            "LAND0010" "Aadhar_7777" "500000" "sha256:x").state "LAND0010").state⟩
        (ApproveTransfer registrarCtx
          (InitiateTransfer ownerCtx (CreateLand registrarCtx emptyWorld sampleArgs).state
            "LAND0010" "Aadhar_7777" "500000" "sha256:x").state "LAND0010").state
        "Aadhar_7777").result = .ok (some (.json (.arr outB))) ∧ rec ∈ outB := by
  obtain ⟨⟨rec, hrec, ⟨outA, hA, hnot, _⟩, ⟨outB, hB, hin⟩⟩, _, _⟩ :=
    QueryLandsByOwner_after_transfer registrarCtx ownerCtx registrarCtx userCtx
      (fun _ => .ok []) ["LAND0010"] emptyWorld _ _ _ sampleArgs "Aadhar_7777" "500000"
      "sha256:x" registrarCtx_isRegistrar (Or.inl rfl) rfl registrarCtx_isRegistrar
      (by decide) (List.mem_singleton.2 rfl) rfl rfl rfl
  exact ⟨rec, outA, outB, hrec, congrArg ReadOutcome.result hA, hnot,
    congrArg ReadOutcome.result hB, hin⟩

/-- C17, the failing case: the record that `InitLedger` stores under `LAND0001` has no
`docType` field, whatever the caller and the ledger. Its owner is `Aadhar_1234`, yet the
selector `{docType: 'land', owner: 'Aadhar_1234'}` of `QueryLandsByOwner` does not match
it, no hit of that query comes from its key, and on the ledger that `InitLedger` makes
from the empty one `QueryLandsByOwner('Aadhar_1234')` returns the empty list. -/
theorem InitLedger_record_without_docType (ctx : Context) (w : World) :
    ∃ ps, (InitLedger ctx w).result = .ok () ∧
      (InitLedger ctx w).state "LAND0001" = some (.json (.obj ps)) ∧
      lookupProp "docType" ps = none ∧
      (JSValue.obj ps).get "docType" = .ok .undefined ∧
      lookupProp "owner" ps = some (.str "Aadhar_1234") ∧
      selectorMatches [("docType", .str "land")] (.obj ps) = false ∧
      selectorMatches [("docType", .str "land"), ("owner", .str "Aadhar_1234")] (.obj ps) =
        false ∧
      (∀ keys, ∀ kv ∈ queryHits keys (InitLedger ctx w).state
        [("docType", .str "land"), ("owner", .str "Aadhar_1234")], kv.key ≠ "LAND0001") ∧
      QueryLandsByOwner userCtx
        ⟨fun _ => .ok [], richQuery ["LAND0001"] (InitLedger registrarCtx emptyWorld).state⟩
        (InitLedger registrarCtx emptyWorld).state "Aadhar_1234" =
        ⟨.ok (some (.json (.arr []))), (InitLedger registrarCtx emptyWorld).state, [], true,
          true⟩ := by
  obtain ⟨ps, hps, _, hrun⟩ := InitLedger_eq ctx w
  simp only [initialLands, List.cons.injEq, JSValue.obj.injEq, and_true] at hps
  have hdoc : lookupProp "docType" (storedProps ps) = none :=
    lookupProp_storedProps_none "docType" ps (by rw [← hps]; rfl)
  have hown : lookupProp "owner" (storedProps ps) = some (.str "Aadhar_1234") :=
    storedProps_str "owner" ps _ (by rw [← hps]; rfl)
  have hst : (InitLedger ctx w).state "LAND0001" = some (.json (.obj (storedProps ps))) := by
    rw [hrun]; simp [putState]
  have hsel : selectorMatches [("docType", .str "land"), ("owner", .str "Aadhar_1234")]
      (.obj (storedProps ps)) = false := by
    cases h : selectorMatches [("docType", .str "land"), ("owner", .str "Aadhar_1234")]
      (.obj (storedProps ps)) with
    | false => rfl
    | true =>
      obtain ⟨qs, hqs, hd, _⟩ := (selectorMatches_owner _ _).1 h
      injection hqs with hqs
      rw [← hqs, hdoc] at hd
      cases hd
  refine ⟨storedProps ps, by rw [hrun], hst, hdoc, by rw [get_obj, hdoc]; rfl, hown, ?_, hsel,
    ?_, ?_⟩
  · simp [selectorMatches, get_obj, hdoc, JSValue.strictEqStr]
  · intro keys kv hkv hk
    obtain ⟨doc, _, hw, _, hm⟩ := (mem_queryHits keys _ _ kv).1 hkv
    rw [hk, hst] at hw
    injection hw with hw
    injection hw with hw
    rw [← hw, hsel] at hm
    cases hm
  · rw [QueryLandsByOwner_richQuery]
    rfl

theorem runAll_append (w : World) (cs ds : List Call) :
    runAll w (cs ++ ds) = runAll (runAll w cs) ds := by
  induction cs generalizing w with
  | nil => rfl
  | cons c cs ih => exact ih (c.run w)

theorem replacedOwners_append (key : String) (w : World) (cs ds : List Call) :
    replacedOwners key w (cs ++ ds) =
      replacedOwners key w cs ++ replacedOwners key (runAll w cs) ds := by
  induction cs generalizing w with
  | nil => rfl
  | cons c cs ih =>
    show (if c.approves key w = true then [storedField w key "owner"] else []) ++
        replacedOwners key (c.run w) (cs ++ ds) =
      ((if c.approves key w = true then [storedField w key "owner"] else []) ++
        replacedOwners key (c.run w) cs) ++ replacedOwners key (runAll (c.run w) cs) ds
    rw [ih, List.append_assoc]

theorem tracked_congr (key : String) (w w2 : World) (owners : List JSValue)
    (h : w2 key = w key) (ht : Tracked key w owners) : Tracked key w2 owners := by
  obtain ⟨props, prev, hist, hrec, rest⟩ := ht
  exact ⟨props, prev, hist, by rw [h, hrec], rest⟩

theorem previousOwnersOf_congr (key : String) (w w2 : World) (h : w2 key = w key) :
    previousOwnersOf w2 key = previousOwnersOf w key := by
  simp only [previousOwnersOf, storedField, h]

theorem previousOwnersOf_of_lookup (key : String) (w : World)
    (props : List (String × JSValue)) (prev : List JSValue)
    (hrec : w key = some (.json (.obj props)))
    (hprev : lookupProp "previousOwners" props = some (.arr prev)) :
    previousOwnersOf w key = prev := by
  simp only [previousOwnersOf, storedField, hrec, get_obj, hprev, Option.getD_some]

theorem historyOf_of_lookup (key : String) (w : World)
    (props : List (String × JSValue)) (hist : List JSValue)
    (hrec : w key = some (.json (.obj props)))
    (hhist : lookupProp "history" props = some (.arr hist)) :
    historyOf w key = hist := by
  simp only [historyOf, storedField, hrec, get_obj, hhist, Option.getD_some]

theorem storedField_of_lookup (key name : String) (w : World)
    (props : List (String × JSValue)) (v : JSValue)
    (hrec : w key = some (.json (.obj props)))
    (h : lookupProp name props = some v) :
    storedField w key name = v := by
  simp only [storedField, hrec, get_obj, h, Option.getD_some]

theorem approvedCount_append (xs ys : List JSValue) :
    approvedCount (xs ++ ys) = approvedCount xs + approvedCount ys := by
  simp [approvedCount]

/-- The record that `CreateLand` stores is tracked, with no previous owner. -/
theorem tracked_newLand (ctx : Context) (w : World) (a : CreateLandArgs) :
    Tracked a.landId (putState w a.landId (.json (persisted (newLand ctx a)))) [] := by
  obtain ⟨ps, hps, hwf⟩ := wellFormed_newLand ctx a
  obtain ⟨p1, hp1, _, _, _, _, _, hprev, _, hhist⟩ := newLand_stored ctx a
  rw [hps] at hp1
  injection hp1 with hp1
  subst hp1
  exact ⟨storedProps ps, [], _, by rw [hps]; simp [putState], hwf, hprev, hhist, rfl, rfl, rfl,
    rfl⟩

/-- An invocation that leaves the value under `key` as it was and is not a successful
approval on `key` keeps the record tracked and its previous owners unchanged. -/
theorem tracked_unchanged (key : String) (w : World) (owners : List JSValue) (c : Call)
    (ht : Tracked key w owners) (hsame : (c.run w) key = w key)
    (hno : c.approves key w = false) :
    Tracked key (c.run w)
      (owners ++ if c.approves key w = true then [storedField w key "owner"] else []) ∧
    (c.approves key w = false → previousOwnersOf (c.run w) key = previousOwnersOf w key) ∧
    (c.approves key w = true → ∃ e,
      previousOwnersOf (c.run w) key = previousOwnersOf w key ++ [e] ∧
      e.get "owner" = .ok (storedField w key "owner")) := by
  refine ⟨?_, fun _ => previousOwnersOf_congr key w _ hsame, ?_⟩
  · rw [hno]
    simp only [Bool.false_eq_true, if_false, List.append_nil]
    exact tracked_congr key w _ owners hsame ht
  · intro h
    rw [hno] at h
    cases h

/-- One invocation, from a state in which the record under `key` is tracked: the record
stays tracked; a successful `ApproveTransfer` on `key` appends one entry to its previous
owners, naming the owner stored before, and every other invocation leaves its previous
owners unchanged. `InitLedger` is excluded when `key` is the key it overwrites. -/
theorem tracked_step (key : String) (w : World) (owners : List JSValue) (c : Call)
    (ht : Tracked key w owners) (hinit : key ≠ "LAND0001" ∨ c.isInitLedger = false) :
    Tracked key (c.run w)
      (owners ++ if c.approves key w = true then [storedField w key "owner"] else []) ∧
    (c.approves key w = false → previousOwnersOf (c.run w) key = previousOwnersOf w key) ∧
    (c.approves key w = true → ∃ e,
      previousOwnersOf (c.run w) key = previousOwnersOf w key ++ [e] ∧
      e.get "owner" = .ok (storedField w key "owner")) := by
  obtain ⟨props, prev, hist, hrec, hwf, hprev, hhist, hfp, hfh, hown, hcount⟩ := id ht
  cases c with
  | initLedger ctx =>
    have hk : key ≠ "LAND0001" := by
      rcases hinit with h | h
      · exact h
      · cases h
    obtain ⟨ps, _, _, hrun⟩ := InitLedger_eq ctx w
    refine tracked_unchanged key w owners _ ht ?_ rfl
    simp only [Call.run, hrun]
    exact putState_other w _ _ key hk
  | createLand ctx a =>
    refine tracked_unchanged key w owners _ ht ?_ rfl
    rcases CreateLand_cases ctx w a with ⟨e, h⟩ | ⟨e, h⟩ | ⟨hreg, hfree⟩
    · simp only [Call.run, h]
    · simp only [Call.run, h]
    · by_cases hk : a.landId = key
      · rw [hk, hrec] at hfree
        rcases hfree with h | h <;> cases h
      · simp only [Call.run, CreateLand_of_registrar_free ctx w a hreg hfree]
        exact putState_other w _ _ key (Ne.symm hk)
  | readLand ctx landId =>
    refine tracked_unchanged key w owners _ ht ?_ rfl
    simp only [Call.run, ReadLand_state]
  | initiateTransfer ctx landId proposedBuyer price agreementHash =>
    rcases InitiateTransfer_cases ctx w landId proposedBuyer price agreementHash with
      ⟨e, h⟩ | ⟨props2, hist2, hrec2, hown2, hst2, hhist2⟩
    · refine tracked_unchanged key w owners _ ht ?_ rfl
      simp only [Call.run, h]
    · obtain ⟨ps, hps, hrun⟩ := InitiateTransfer_of_owner ctx w landId proposedBuyer price
        agreementHash props2 hist2 hrec2 hown2 hst2 hhist2
      by_cases hk : landId = key
      · subst hk
        rw [hrec] at hrec2
        injection hrec2 with hrec2
        injection hrec2 with hrec2
        injection hrec2 with hrec2
        subst hrec2
        rw [hhist] at hhist2
        injection hhist2 with hhist2
        injection hhist2 with hhist2
        subst hhist2
        have hst : (Call.initiateTransfer ctx landId proposedBuyer price agreementHash).run w
            landId = some (.json (.obj (storedProps ps))) := by
          simp only [Call.run, hrun, persisted_obj]
          simp [putState]
        have hprev2 : lookupProp "previousOwners" (storedProps ps) = some (.arr prev) := by
          have h := lookupProp_storedProps_some "previousOwners" ps (.arr prev)
            (by rw [hps]; simp only [lookupProp_assignProp]; exact hprev) JSValue.noConfusion
          rw [persisted_arr, hfp] at h
          exact h
        have hhist3 : lookupProp "history" (storedProps ps) = some (.arr (hist ++ [.obj [
            ("action", .str "TRANSFER_INITIATED"),
            ("by", .str ctx.clientIdentity.getID),
            ("timestamp", .str (ctx.now 1)),
            ("txId", .str ctx.stub.getTxID)]])) := by
          have h := lookupProp_storedProps_some "history" ps _
            (by rw [hps]; simp only [lookupProp_assignProp]; rfl) JSValue.noConfusion
          rw [persisted_arr, sortKeysElems_append, toJSONElems_append, hfh] at h
          exact h
        refine ⟨?_, fun _ => ?_, fun h => by cases h⟩
        · refine ⟨storedProps ps, prev, _, hst, ?_, hprev2, hhist3, hfp, ?_, ?_, ?_⟩
          · rw [hps]
            exact wellFormed_initiated landId props hist _ proposedBuyer _ rfl hwf
          · rw [sortKeysElems_append, toJSONElems_append, hfh]
            rfl
          · simpa [Call.approves] using hown
          · rw [approvedCount_append, hcount]
            rfl
        · rw [previousOwnersOf_of_lookup landId _ _ prev hst hprev2,
            previousOwnersOf_of_lookup landId w props prev hrec hprev]
      · refine tracked_unchanged key w owners _ ht ?_ rfl
        simp only [Call.run, hrun]
        exact putState_other w _ _ key (Ne.symm hk)
  | approveTransfer ctx landId =>
    rcases ApproveTransfer_cases ctx w landId with
      ⟨e, h⟩ | ⟨e, h⟩ | ⟨props2, ptv, prev2, hist2, hreg, hrec2, hpt, htr, hprev2, hhist2⟩
    · refine tracked_unchanged key w owners _ ht ?_ ?_
      · simp only [Call.run, h]
      · simp [Call.approves, h, Except.toBool]
    · refine tracked_unchanged key w owners _ ht ?_ ?_
      · simp only [Call.run, h]
      · simp [Call.approves, h, Except.toBool]
    · by_cases hk : landId = key
      · subst hk
        rw [hrec] at hrec2
        injection hrec2 with hrec2
        injection hrec2 with hrec2
        injection hrec2 with hrec2
        subst hrec2
        rw [hhist] at hhist2
        injection hhist2 with hhist2
        injection hhist2 with hhist2
        subst hhist2
        rw [hprev] at hprev2
        injection hprev2 with hprev2
        injection hprev2 with hprev2
        subst hprev2
        obtain ⟨_, pt, buyer, hptv, _, hget⟩ := wellFormed_pending landId props ptv hwf hpt htr
        obtain ⟨o, ho⟩ := hwf.owner
        obtain ⟨ps, hps, hrun⟩ := ApproveTransfer_of_truthy ctx w landId props prev hist ptv
          (.str buyer) hreg hrec hpt htr hget hprev hhist
        rw [ho] at hps
        simp only [Option.getD_some] at hps
        have happ : (Call.approveTransfer ctx landId).approves landId w = true := by
          simp [Call.approves, hrun, Except.toBool]
        have hst : (Call.approveTransfer ctx landId).run w landId =
            some (.json (.obj (storedProps ps))) := by
          simp only [Call.run, hrun, persisted_obj]
          simp [putState]
        have hprev3 : lookupProp "previousOwners" (storedProps ps) = some (.arr (prev ++ [.obj [
            ("owner", .str o), ("to", .str (ctx.now 0))]])) := by
          have h := lookupProp_storedProps_some "previousOwners" ps _
            (by rw [hps]; simp only [lookupProp_assignProp]; rfl) JSValue.noConfusion
          rw [persisted_arr, sortKeysElems_append, toJSONElems_append, hfp] at h
          exact h
        have hhist3 : lookupProp "history" (storedProps ps) = some (.arr (hist ++ [.obj [
            ("action", .str "TRANSFER_APPROVED"),
            ("from", .str o),
            ("timestamp", .str (ctx.now 1)),
            ("to", .str buyer),
            ("txId", .str ctx.stub.getTxID)]])) := by
          have h := lookupProp_storedProps_some "history" ps _
            (by rw [hps]; simp only [lookupProp_assignProp]; rfl) JSValue.noConfusion
          rw [persisted_arr, sortKeysElems_append, toJSONElems_append, hfh] at h
          exact h
        have hso : storedField w landId "owner" = .str o :=
          storedField_of_lookup landId "owner" w props _ hrec ho
        refine ⟨?_, fun h => ?_, fun _ => ⟨.obj [("owner", .str o), ("to", .str (ctx.now 0))],
          ?_, ?_⟩⟩
        · rw [happ, if_pos rfl, hso]
          refine ⟨storedProps ps, _, _, hst, ?_, hprev3, hhist3, ?_, ?_, ?_, ?_⟩
          · rw [hps]
            exact wellFormed_approved landId props prev hist _ _ buyer _ hwf
          · rw [sortKeysElems_append, toJSONElems_append, hfp]
            rfl
          · rw [sortKeysElems_append, toJSONElems_append, hfh]
            rfl
          · rw [List.map_append, List.map_append, hown]
            rfl
          · rw [approvedCount_append, hcount, List.length_append]
            rfl
        · rw [happ] at h
          cases h
        · rw [previousOwnersOf_of_lookup landId _ _ _ hst hprev3,
            previousOwnersOf_of_lookup landId w props prev hrec hprev]
        · rw [hso]
          rfl
      · obtain ⟨newOwner, hbuyer⟩ := truthy_get ptv "proposedBuyer" htr
        obtain ⟨ps, _, hrun⟩ := ApproveTransfer_of_truthy ctx w landId props2 prev2 hist2 ptv
          newOwner hreg hrec2 hpt htr hbuyer hprev2 hhist2
        refine tracked_unchanged key w owners _ ht ?_ ?_
        · simp only [Call.run, hrun]
          exact putState_other w _ _ key (Ne.symm hk)
        · simp [Call.approves, hk]

theorem tracked_runAll (key : String) (cs : List Call) (w : World) (owners : List JSValue)
    (ht : Tracked key w owners)
    (hinit : key ≠ "LAND0001" ∨ ∀ c ∈ cs, c.isInitLedger = false) :
    Tracked key (runAll w cs) (owners ++ replacedOwners key w cs) := by
  induction cs generalizing w owners with
  | nil => simpa [runAll, replacedOwners] using ht
  | cons c cs ih =>
    have h1 := (tracked_step key w owners c ht
      (hinit.imp id fun h => h c (List.mem_cons_self _ _))).1
    have h2 := ih (c.run w) _ h1 (hinit.imp id fun h d hd => h d (List.mem_cons_of_mem _ hd))
    rw [List.append_assoc] at h2
    exact h2

theorem approves_of_fails (key : String) (w : World) (c : Call)
    (h : c.succeeds w = false) : c.approves key w = false := by
  cases c with
  | approveTransfer ctx landId =>
    simp only [Call.succeeds] at h
    simp [Call.approves, h]
  | initLedger ctx => rfl
  | createLand ctx a => rfl
  | readLand ctx landId => rfl
  | initiateTransfer ctx landId proposedBuyer price agreementHash => rfl

/-- C16, as the code behaves: a registrar creates a record with `CreateLand`; then any
sequence `cs` of invocations runs, in which `InitLedger`, which overwrites `LAND0001`, does
not occur when the record's key is `LAND0001`. The record starts with no previous
owner. At each step the list `previousOwners` before is a prefix of the list after: a
successful `ApproveTransfer` on the record appends exactly one entry, which names the
owner stored before the call, and every other invocation, in particular every
`InitiateTransfer` and every failing one, leaves the list unchanged. At the end the k-th
entry names the owner replaced by the k-th successful `ApproveTransfer` on the record, so
the length of the list is the number of these calls, and it is the number of
TRANSFER_APPROVED entries of the record's history. -/
theorem previousOwners_grows (ctx : Context) (w : World) (a : CreateLandArgs)
    (cs : List Call)
    (hreg : ctx.isRegistrar) (hfree : w a.landId = none ∨ w a.landId = some (.raw ""))
    (hinit : a.landId ≠ "LAND0001" ∨ ∀ c ∈ cs, c.isInitLedger = false) :
    previousOwnersOf (CreateLand ctx w a).state a.landId = [] ∧
    (∀ (pre post : List Call) (c : Call), cs = pre ++ c :: post →
      previousOwnersOf (runAll (CreateLand ctx w a).state pre) a.landId <+:
        previousOwnersOf (runAll (CreateLand ctx w a).state (pre ++ [c])) a.landId ∧
      (c.approves a.landId (runAll (CreateLand ctx w a).state pre) = true →
        ∃ e, previousOwnersOf (runAll (CreateLand ctx w a).state (pre ++ [c])) a.landId =
            previousOwnersOf (runAll (CreateLand ctx w a).state pre) a.landId ++ [e] ∧
          e.get "owner" =
            .ok (storedField (runAll (CreateLand ctx w a).state pre) a.landId "owner")) ∧
      (c.approves a.landId (runAll (CreateLand ctx w a).state pre) = false →
        previousOwnersOf (runAll (CreateLand ctx w a).state (pre ++ [c])) a.landId =
          previousOwnersOf (runAll (CreateLand ctx w a).state pre) a.landId) ∧
      ((c.succeeds (runAll (CreateLand ctx w a).state pre) = false ∨
          ∃ cx landId proposedBuyer price agreementHash,
            c = .initiateTransfer cx landId proposedBuyer price agreementHash) →
        previousOwnersOf (runAll (CreateLand ctx w a).state (pre ++ [c])) a.landId =
          previousOwnersOf (runAll (CreateLand ctx w a).state pre) a.landId)) ∧
    (previousOwnersOf (runAll (CreateLand ctx w a).state cs) a.landId).map
        (fun e => e.get "owner") =
      (replacedOwners a.landId (CreateLand ctx w a).state cs).map Except.ok ∧
    (previousOwnersOf (runAll (CreateLand ctx w a).state cs) a.landId).length =
      (replacedOwners a.landId (CreateLand ctx w a).state cs).length ∧
    approvedCount (historyOf (runAll (CreateLand ctx w a).state cs) a.landId) =
      (previousOwnersOf (runAll (CreateLand ctx w a).state cs) a.landId).length := by
  have h0 : Tracked a.landId (CreateLand ctx w a).state [] := by
    rw [CreateLand_of_registrar_free ctx w a hreg hfree]
    exact tracked_newLand ctx w a
  have hend := tracked_runAll a.landId cs _ [] h0 hinit
  rw [List.nil_append] at hend
  obtain ⟨props, prev, hist, hrec, _, hprev, hhist, _, _, hown, hcount⟩ := hend
  have hp := previousOwnersOf_of_lookup a.landId _ props prev hrec hprev
  have hh := historyOf_of_lookup a.landId _ props hist hrec hhist
  refine ⟨?_, ?_, ?_, ?_, ?_⟩
  · obtain ⟨props0, prev0, hist0, hrec0, _, hprev0, _, _, _, hown0, _⟩ := h0
    rw [previousOwnersOf_of_lookup a.landId _ props0 prev0 hrec0 hprev0]
    simpa using hown0
  · intro pre post c hcs
    have hpre : Tracked a.landId (runAll (CreateLand ctx w a).state pre)
        ([] ++ replacedOwners a.landId (CreateLand ctx w a).state pre) :=
      tracked_runAll a.landId pre _ [] h0
        (hinit.imp id fun h d hd => h d (by rw [hcs]; exact List.mem_append_left _ hd))
    have hstep := tracked_step a.landId _ _ c hpre
      (hinit.imp id fun h => h c (by rw [hcs]; simp))
    have hrun : runAll (CreateLand ctx w a).state (pre ++ [c]) =
        c.run (runAll (CreateLand ctx w a).state pre) := by
      rw [runAll_append]
      rfl
    rw [hrun]
    refine ⟨?_, hstep.2.2, hstep.2.1, ?_⟩
    · cases happ : c.approves a.landId (runAll (CreateLand ctx w a).state pre) with
      | false =>
        rw [hstep.2.1 happ]
      | true =>
        obtain ⟨e, he, _⟩ := hstep.2.2 happ
        rw [he]
        exact List.prefix_append _ _
    · rintro (hfail | ⟨cx, landId, proposedBuyer, price, agreementHash, hc⟩)
      · exact hstep.2.1 (approves_of_fails _ _ c hfail)
      · exact hstep.2.1 (by rw [hc]; rfl)
  · rw [hp]
    exact hown
  · rw [hp]
    have := congrArg List.length hown
    simpa using this
  · rw [hp, hh]
    exact hcount

theorem previousOwners_grows_witness :
    registrarCtx.isRegistrar ∧ emptyWorld sampleArgs.landId = none ∧
    sampleArgs.landId ≠ "LAND0001" ∧
    replacedOwners "LAND0010" (CreateLand registrarCtx emptyWorld sampleArgs).state
      [.initiateTransfer ownerCtx "LAND0010" "Aadhar_7777" "500000" "sha256:x",
        .approveTransfer userCtx "LAND0010",
        .approveTransfer registrarCtx "LAND0010"] = [.str "Aadhar_5555"] ∧
    (previousOwnersOf (runAll (CreateLand registrarCtx emptyWorld sampleArgs).state
      [.initiateTransfer ownerCtx "LAND0010" "Aadhar_7777" "500000" "sha256:x",
        .approveTransfer userCtx "LAND0010",
        .approveTransfer registrarCtx "LAND0010"]) "LAND0010").map
        (fun e => e.get "owner") = [.ok (.str "Aadhar_5555")] ∧
    approvedCount (historyOf (runAll (CreateLand registrarCtx emptyWorld sampleArgs).state
      [.initiateTransfer ownerCtx "LAND0010" "Aadhar_7777" "500000" "sha256:x",
        .approveTransfer userCtx "LAND0010",
        .approveTransfer registrarCtx "LAND0010"]) "LAND0010") = 1 := by
  have hne : sampleArgs.landId ≠ "LAND0001" := by decide
  have hrep : replacedOwners "LAND0010" (CreateLand registrarCtx emptyWorld sampleArgs).state
      [.initiateTransfer ownerCtx "LAND0010" "Aadhar_7777" "500000" "sha256:x",
        .approveTransfer userCtx "LAND0010",
        .approveTransfer registrarCtx "LAND0010"] = [.str "Aadhar_5555"] := by
    rfl
  obtain ⟨_, _, hmap, hlen, hcount⟩ :=
    previousOwners_grows registrarCtx emptyWorld sampleArgs
      [.initiateTransfer ownerCtx "LAND0010" "Aadhar_7777" "500000" "sha256:x",
        .approveTransfer userCtx "LAND0010",
        .approveTransfer registrarCtx "LAND0010"]
      registrarCtx_isRegistrar (Or.inl rfl) (Or.inl hne)
  have hmap2 := hmap
  have hlen2 := hlen
  rw [show sampleArgs.landId = "LAND0010" from rfl, hrep] at hmap2 hlen2
  rw [show sampleArgs.landId = "LAND0010" from rfl, hlen2] at hcount
  exact ⟨registrarCtx_isRegistrar, rfl, hne, hrep, hmap2, hcount⟩

/-- C16, counterexample: a registrar creates `LAND0001`, its owner `Aadhar_5555` initiates
a transfer, a registrar approves it, and then a caller who is no registrar invokes
`InitLedger`. Before that last call `previousOwners` has one entry, naming `Aadhar_5555`;
after it the list has one entry naming `Aadhar_1111`, so the list before is no prefix of
the list after, and its entry does not name the owner that the one approval replaced. With
`InitLedger` right after the creation, `previousOwners` has one entry although no
`ApproveTransfer` was called and the history has no TRANSFER_APPROVED entry. -/
theorem InitLedger_resets_previousOwners :
    registrarCtx.isRegistrar ∧ emptyWorld landOneArgs.landId = none ∧
    landOneArgs.landId = "LAND0001" ∧ ¬ userCtx.isRegistrar ∧
    (InitLedger userCtx (runAll (CreateLand registrarCtx emptyWorld landOneArgs).state
      [.initiateTransfer ownerCtx "LAND0001" "Aadhar_7777" "500000" "sha256:x",
        .approveTransfer registrarCtx "LAND0001"])).result = .ok () ∧
    replacedOwners "LAND0001" (CreateLand registrarCtx emptyWorld landOneArgs).state
      [.initiateTransfer ownerCtx "LAND0001" "Aadhar_7777" "500000" "sha256:x",
        .approveTransfer registrarCtx "LAND0001", .initLedger userCtx] =
      [.str "Aadhar_5555"] ∧
    previousOwnersOf (runAll (CreateLand registrarCtx emptyWorld landOneArgs).state
      [.initiateTransfer ownerCtx "LAND0001" "Aadhar_7777" "500000" "sha256:x",
        .approveTransfer registrarCtx "LAND0001"]) "LAND0001" =
      [.obj [("owner", .str "Aadhar_5555"), ("to", .str "2025-11-04T10:00:00.000Z")]] ∧
    previousOwnersOf (runAll (CreateLand registrarCtx emptyWorld landOneArgs).state
      [.initiateTransfer ownerCtx "LAND0001" "Aadhar_7777" "500000" "sha256:x",
        .approveTransfer registrarCtx "LAND0001", .initLedger userCtx]) "LAND0001" =
      [.obj [("from", .str "2015-01-01"), ("owner", .str "Aadhar_1111"),
        ("to", .str "2025-11-04")]] ∧
    ¬ (previousOwnersOf (runAll (CreateLand registrarCtx emptyWorld landOneArgs).state
        [.initiateTransfer ownerCtx "LAND0001" "Aadhar_7777" "500000" "sha256:x",
          .approveTransfer registrarCtx "LAND0001"]) "LAND0001" <+:
      previousOwnersOf (runAll (CreateLand registrarCtx emptyWorld landOneArgs).state
        [.initiateTransfer ownerCtx "LAND0001" "Aadhar_7777" "500000" "sha256:x",
          .approveTransfer registrarCtx "LAND0001", .initLedger userCtx]) "LAND0001") ∧
    previousOwnersOf (CreateLand registrarCtx emptyWorld landOneArgs).state "LAND0001" = [] ∧
    replacedOwners "LAND0001" (CreateLand registrarCtx emptyWorld landOneArgs).state
      [.initLedger userCtx] = [] ∧
    (previousOwnersOf (runAll (CreateLand registrarCtx emptyWorld landOneArgs).state
      [.initLedger userCtx]) "LAND0001").length = 1 ∧
    approvedCount (historyOf (runAll (CreateLand registrarCtx emptyWorld landOneArgs).state
      [.initLedger userCtx]) "LAND0001") = 0 := by
  have hbefore : previousOwnersOf (runAll (CreateLand registrarCtx emptyWorld landOneArgs).state
      [.initiateTransfer ownerCtx "LAND0001" "Aadhar_7777" "500000" "sha256:x",
        .approveTransfer registrarCtx "LAND0001"]) "LAND0001" =
      [.obj [("owner", .str "Aadhar_5555"), ("to", .str "2025-11-04T10:00:00.000Z")]] := rfl
  have hafter : previousOwnersOf (runAll (CreateLand registrarCtx emptyWorld landOneArgs).state
      [.initiateTransfer ownerCtx "LAND0001" "Aadhar_7777" "500000" "sha256:x",
        .approveTransfer registrarCtx "LAND0001", .initLedger userCtx]) "LAND0001" =
      [.obj [("from", .str "2015-01-01"), ("owner", .str "Aadhar_1111"),
        ("to", .str "2025-11-04")]] := rfl
  refine ⟨registrarCtx_isRegistrar, rfl, rfl, ?_, rfl, rfl, hbefore, hafter, ?_, rfl, rfl, rfl,
    rfl⟩
  · intro h
    have := h.2
    simp [userCtx] at this
  · rw [hbefore, hafter]
    rintro ⟨t, ht⟩
    simp at ht

/-- The conversion `Number` rounds to the nearest double: a decimal beyond the range of
the doubles is an infinity, a decimal below the least positive double is zero, an integer
above `2 ^ 53` is rounded to an even multiple, and a decimal fraction is the nearest
fraction with a power of two as denominator. -/
theorem Number_rounds :
    Number "1e1000" = .inf false ∧ Number "-1e1000" = .inf true ∧
    Number "1e999" = .inf false ∧
    Number "1.7976931348623159e308" = .inf false ∧
    (Number "1.7976931348623157e308").isFinite = true ∧
    Number "1e-400" = .fin false 0 0 ∧ Number "-0" = .fin false 0 0 ∧
    Number "5e-324" = .fin false 1 (-1074) ∧
    Number "9007199254740993" = .fin false 9007199254740992 0 ∧
    Number "0.1" = .fin false 3602879701896397 (-55) ∧
    Number "26.4511" = .fin false 7445322756471233 (-48) ∧
    Number "1500" = .fin false 1500 0 ∧ Number "-5" = .fin true 5 0 ∧
    Number " 0x1F " = .fin false 31 0 ∧ Number "" = .fin false 0 0 ∧
    Number "abc" = .nan ∧ Number "Infinity" = .inf false :=
  ⟨rfl, rfl, rfl, rfl, rfl, rfl, rfl, rfl, rfl, rfl, rfl, rfl, rfl, rfl, rfl, rfl, rfl⟩

end LandRegistry
